import Mathlib

/-!
Relay engine of the self-driving-car dispatch system.

A shallow embedding of the QUIC relay (`internal/delivery/http3` and
`internal/usecase/service/broadcast.go`) together with the properties of its
handshake decoding, attach-time authorization and per-vehicle stream registry,
and of what the relay relies on: the password check (`pkg/password`), the
credential store adapter (`internal/repo/redis`) and the dispatcher operations
of the admin service (`internal/usecase/service/admin.go`).

Conventions of the embedding

* Go `byte` is `UInt8`; `[]byte` and `string` values that carry wire data are
  `List UInt8` (a Go string is a byte sequence, `string(data[4:])` copies bytes).
* Go `int` is 64 bits wide on the platforms the relay is built for.  Every `int`
  computed by the code below is a vehicle or dispatcher id assembled from four
  bytes, hence in `[0, 2^32)`, so no operation wraps; ids are kept in `Int`.
* An index or slice expression that is out of range is a run-time panic, made
  explicit through `GoResult`.
* A goroutine is embedded as a `start` function (the prologue of the Go function)
  and a `step` function (one turn of its `for ... range` loop), both passing the
  shared `BroadcastService` state explicitly.  One call of `start` or `step`
  executes that segment of the body without interleaving.
* External libraries (`bcrypt`, `encoding/base64`, `encoding/json`) and the
  credential store are parameters, collected in `Deps`; the Redis client and the
  gob decoder behind the credential store are the parameters of `RedisClient`.
* A frame in a channel is kept as the bytes it reads.  `SendInfoStream` sends its
  `buffer`, a slice that goes on sharing its array with what the call appends
  later; which queued frames share that array is recorded in
  `BroadcastService.backing`, and `BroadcastService.appendBuffer` rewrites them
  when the array is written.  Video frames are slices of arrays that are not
  written again.
-/

namespace Relay

/-! ## Go run-time values -/

/-- Run-time panics of index and slice expressions. -/
inductive Panic
  | indexOutOfRange (i len : Nat)
  | sliceOutOfRange (lo len : Nat)
  deriving DecidableEq, Repr

/-- Result of evaluating a Go expression that may panic. -/
inductive GoResult (α : Type)
  | ok (a : α)
  | panic (p : Panic)
  deriving DecidableEq, Repr

/-- Sequencing of evaluations: the first panic aborts the rest (Go evaluates
operands left to right). -/
def GoResult.bind {α β : Type} (r : GoResult α) (f : α → GoResult β) : GoResult β :=
  match r with
  | .ok a => f a
  | .panic p => .panic p

/-- Index expression `data[i]`. -/
def index (data : List UInt8) (i : Nat) : GoResult UInt8 :=
  match data[i]? with
  | some b => .ok b
  | none => .panic (.indexOutOfRange i data.length)

/-- Slice expression `data[lo:]`. -/
def sliceFrom (data : List UInt8) (lo : Nat) : GoResult (List UInt8) :=
  if lo ≤ data.length then .ok (data.drop lo) else .panic (.sliceOutOfRange lo data.length)

/-- Expression `int(data[off])<<24 | int(data[off+1])<<16 | int(data[off+2])<<8 | int(data[off+3])`
(`vehicle.go` line 134, `dispatcher.go` lines 130 and 132). -/
def readID (data : List UInt8) (off : Nat) : GoResult Int :=
  (index data off).bind fun b0 =>
  (index data (off + 1)).bind fun b1 =>
  (index data (off + 2)).bind fun b2 =>
  (index data (off + 3)).bind fun b3 =>
  .ok (Int.ofNat (b0.toNat <<< 24 ||| b1.toNat <<< 16 ||| b2.toNat <<< 8 ||| b3.toNat))

/-! ## Connection handlers (`internal/delivery/http3`) -/

/-- The two streams of a connection. -/
inductive StreamKind
  | info
  | video
  deriving DecidableEq, Repr

/-- Observable actions of a connection handler, in program order. -/
inductive Effect
  /-- Call `v.logger.Errorf(...)`. -/
  | logError
  /-- Call `conn.CloseWithError(0, ...)`. -/
  | closeWithError
  /-- Statement `go v.getStream(stream, chan, errChan)` of the vehicle handler. -/
  | goGetStream (k : StreamKind)
  /-- Statement `go v.sendStream(stream, chan)` of the dispatcher handler. -/
  | goSendStream (k : StreamKind)
  /-- Statement `go v.broadcastUsecase.SendInfoStream(vehicleID, secret, infoChan, errChan)`. -/
  | goSendInfoStream (vehicleID : Int) (secret : List UInt8)
  /-- Statement `go v.broadcastUsecase.SendVideoStream(vehicleID, secret, videoChan, errChan)`. -/
  | goSendVideoStream (vehicleID : Int) (secret : List UInt8)
  /-- Statement `go v.broadcastUsecase.GetInfoStream(vehicleID, dispatcherID, secret, infoChan, errChan)`. -/
  | goGetInfoStream (vehicleID dispatcherID : Int) (secret : List UInt8)
  /-- Statement `go v.broadcastUsecase.GetVideoStream(vehicleID, dispatcherID, secret, videoChan, errChan)`. -/
  | goGetVideoStream (vehicleID dispatcherID : Int) (secret : List UInt8)
  deriving DecidableEq, Repr

/-- How the part of a handler before its `select` loop ends. -/
inductive Outcome
  /-- the handler executed `return` -/
  | returned
  /-- the handler goroutine panicked -/
  | panicked (p : Panic)
  /-- the handler started its goroutines and entered the `for { select { ... } }` loop -/
  | serving
  deriving DecidableEq, Repr

/-- Execution of a handler up to its `select` loop. -/
structure Run where
  trace : List Effect
  outcome : Outcome
  deriving DecidableEq, Repr

/-- What the QUIC connection answers to the handler's first three calls. -/
structure ConnInput where
  /-- the first `AcceptStream` / `OpenStreamSync` returned no error -/
  infoStreamOk : Bool
  /-- the second `AcceptStream` / `OpenStreamSync` returned no error -/
  videoStreamOk : Bool
  /-- Result of `conn.ReceiveDatagram`: `none` when it returned an error -/
  datagram : Option (List UInt8)

/-- Lines 134-135 of `vehicle.go`: `vehicleID := ...; secret := string(data[4:])`. -/
def vehicleHandshake (data : List UInt8) : GoResult (Int × List UInt8) :=
  (readID data 0).bind fun vehicleID =>
  (sliceFrom data 4).bind fun secret =>
  .ok (vehicleID, secret)

/-- Method `VehicleDelivery.handleConnection` (`vehicle.go` lines 96-144), up to the
`select` loop.  The length check of lines 128-131 closes the connection and has no
`return`. -/
def VehicleDelivery.handleConnection (inp : ConnInput) : Run :=
  if !inp.infoStreamOk then ⟨[.logError, .closeWithError], .returned⟩
  else if !inp.videoStreamOk then ⟨[.logError, .closeWithError], .returned⟩
  else
    match inp.datagram with
    | none => ⟨[.logError, .closeWithError], .returned⟩
    | some data =>
      let t : List Effect := if data.length < 4 then [.logError, .closeWithError] else []
      match vehicleHandshake data with
      | .panic p => ⟨t, .panicked p⟩
      | .ok (vehicleID, secret) =>
        ⟨t ++ [.goGetStream .info, .goGetStream .video,
               .goSendInfoStream vehicleID secret, .goSendVideoStream vehicleID secret],
         .serving⟩

/-- Lines 130-134 of `dispatcher.go`:
`vehicleID := ...; dispatcherID := ...; secret := string(data[8:])`. -/
def dispatcherHandshake (data : List UInt8) : GoResult (Int × Int × List UInt8) :=
  (readID data 0).bind fun vehicleID =>
  (readID data 4).bind fun dispatcherID =>
  (sliceFrom data 8).bind fun secret =>
  .ok (vehicleID, dispatcherID, secret)

/-- Method `DispatcherDelivery.handleConnection` (`dispatcher.go` lines 93-144), up to the
`select` loop.  The length check of lines 125-127 only logs. -/
def DispatcherDelivery.handleConnection (inp : ConnInput) : Run :=
  if !inp.infoStreamOk then ⟨[.logError, .closeWithError], .returned⟩
  else if !inp.videoStreamOk then ⟨[.logError, .closeWithError], .returned⟩
  else
    match inp.datagram with
    | none => ⟨[.logError, .closeWithError], .returned⟩
    | some data =>
      let t : List Effect := if data.length < 8 then [.logError] else []
      match dispatcherHandshake data with
      | .panic p => ⟨t, .panicked p⟩
      | .ok (vehicleID, dispatcherID, secret) =>
        ⟨t ++ [.goSendStream .info, .goSendStream .video,
               .goGetInfoStream vehicleID dispatcherID secret,
               .goGetVideoStream vehicleID dispatcherID secret],
         .serving⟩

/-- Four big-endian bytes of an id, as the clients write them in front of the
password (`cmd/vehicle_client/main.go` line 50, `cmd/dispatcher_client/main.go`
lines 30-31, written there as literals for id 2). -/
def bigEndian4 (id : Nat) : List UInt8 :=
  [UInt8.ofNat (id / 2 ^ 24), UInt8.ofNat (id / 2 ^ 16), UInt8.ofNat (id / 2 ^ 8), UInt8.ofNat id]

/-- The password `"example"` of both example clients, as bytes. -/
def examplePassword : List UInt8 := [101, 120, 97, 109, 112, 108, 101]

/-- A connection whose two streams were set up and whose handshake datagram is `data`. -/
def ConnInput.ofDatagram (data : List UInt8) : ConnInput :=
  { infoStreamOk := true, videoStreamOk := true, datagram := some data }

/-! ## Entities, errors and external collaborators -/

/-- Sentinel errors of `internal/usecase/err.go`, and the joined error that the
password checks of `broadcast.go` build from a sentinel. -/
inductive UsecaseErr
  | ErrAccessDenied
  | ErrDispatcherNotFound
  | ErrVehicleNotFound
  | ErrDispatcherAlreadyExists
  | ErrVehicleAlreadyExists
  | ErrInternal
  | ErrBadRequest
  | ErrNotFound
  /-- Value `errors.Join(e, fmt.Errorf("неверный пароль"))`. -/
  | wrongPassword (e : UsecaseErr)
  deriving DecidableEq, Repr

/-- Type `entity.GrantsType`, a Go string type. -/
abbrev GrantsType := String

/-- Constant `entity.ListGrants`. -/
def ListGrants : GrantsType := "list"

/-- Constant `entity.AllGrants`. -/
def AllGrants : GrantsType := "all"

/-- Record `entity.Dispatcher`. -/
structure Dispatcher where
  ID : Int
  GrantsType : Relay.GrantsType
  Grants : List Int
  PasswordHash : List UInt8

/-- Record `entity.Vehicle`. -/
structure Vehicle where
  ID : Int
  PasswordHash : List UInt8

/-- The four ways `GetDispatcher` / `GetVehicle` of `internal/repo/redis` return. -/
inductive RepoResult (α : Type)
  /-- Return `(&record, nil)`. -/
  | found (a : α)
  /-- Return `(nil, repo.ErrDispatcherNotFound)` or `(nil, repo.ErrVehicleNotFound)`. -/
  | notFound
  /-- Return `(nil, errors.Join(repo.ErrInternal, err))`. -/
  | internal
  /-- Return `(nil, err)` with the error of the gob decoder, which is neither sentinel. -/
  | decodeError

/-- External collaborators of the broadcast service. -/
structure Deps where
  /-- Function `base64.StdEncoding.DecodeString`, `none` when it returns an error -/
  base64Decode : List UInt8 → Option (List UInt8)
  /-- Test `bcrypt.CompareHashAndPassword(hash, password) == nil` -/
  bcryptCompare : List UInt8 → List UInt8 → Bool
  /-- Test `json.Unmarshal(buffer, &jsonData) == nil` for `jsonData map[string]interface{}` -/
  jsonUnmarshalOk : List UInt8 → Bool
  /-- Method `dispatcherRepo.GetDispatcher` -/
  GetDispatcher : Int → RepoResult Dispatcher
  /-- Method `vehicleRepo.GetVehicle` -/
  GetVehicle : Int → RepoResult Vehicle
  /-- Capacity of the array that `append` allocates when a slice of the first
  capacity has to hold the second number of bytes; the Go runtime chooses it -/
  appendCap : Nat → Nat → Nat

/-- Function `password.CheckPassword` (`pkg/password/password.go`). -/
def CheckPassword (deps : Deps) (password hash : List UInt8) : Bool :=
  match deps.base64Decode hash with
  | none => false
  | some decodedHash => deps.bcryptCompare decodedHash password

/-- Constant `MaxJsonSize = 1 << 13`. -/
def MaxJsonSize : Nat := 1 <<< 13

/-! ## Go channels -/

/-- A frame travelling through the relay: one `[]byte` value. -/
abbrev Frame := List UInt8

/-- A buffered channel `chan []byte`: its capacity, the queued values (oldest
first) and whether `close` was called on it. -/
structure Chan where
  cap : Nat
  buf : List Frame
  closed : Bool
  deriving DecidableEq, Repr

/-- Expression `make(chan []byte, cap)`. -/
def Chan.make (cap : Nat) : Chan := { cap := cap, buf := [], closed := false }

/-- Result of attempting a channel operation in a given state. -/
inductive ChanOp (α : Type)
  /-- the operation completes -/
  | done (a : α)
  /-- the operation cannot proceed in this state (the goroutine would wait) -/
  | blocked
  /-- the operation panics (send on or close of a closed channel) -/
  | panic
  deriving DecidableEq, Repr

/-- Send statement `c <- d`: panics on a closed channel, completes when the buffer
has room. -/
def Chan.send (c : Chan) (d : Frame) : ChanOp Chan :=
  if c.closed then .panic
  else if c.buf.length < c.cap then .done { c with buf := c.buf ++ [d] }
  else .blocked

/-- Receive expression `<-c`: yields the oldest queued value; on an empty closed
channel yields `none` (the `ok == false` case that ends a `range`). -/
def Chan.recv (c : Chan) : ChanOp (Option Frame × Chan) :=
  match c.buf with
  | d :: rest => .done (some d, { c with buf := rest })
  | [] => if c.closed then .done (none, c) else .blocked

/-- Statement `close(c)`. -/
def Chan.close (c : Chan) : ChanOp Chan :=
  if c.closed then .panic else .done { c with closed := true }

/-- The producer write of `broadcast.go` lines 127-132 and 169-176:
`select { case ch <- d: default: <-ch; ch <- d }`. -/
def Chan.enqueue (c : Chan) (d : Frame) : ChanOp Chan :=
  match c.send d with
  | .done c1 => .done c1
  | .panic => .panic
  | .blocked =>
    match c.recv with
    | .done (_, c1) => c1.send d
    | .blocked => .blocked
    | .panic => .panic

/-! ## The broadcast service (`internal/usecase/service/broadcast.go`) -/

/-- A `sync.Map` from vehicle id to channel, the channel given by its address. -/
abbrev SyncMap := Int → Option Nat

/-- Method `Store` of `sync.Map`. -/
def SyncMap.Store (m : SyncMap) (key : Int) (value : Nat) : SyncMap :=
  fun k => if k = key then some value else m k

/-- Method `Delete` of `sync.Map`. -/
def SyncMap.Delete (m : SyncMap) (key : Int) : SyncMap :=
  fun k => if k = key then none else m k

/-- Method `LoadOrStore` of `sync.Map`: the map afterwards, `actual` and `loaded`. -/
def SyncMap.LoadOrStore (m : SyncMap) (key : Int) (value : Nat) : SyncMap × Nat × Bool :=
  match m key with
  | some actual => (m, actual, true)
  | none => (m.Store key value, value, false)

/-- The array behind the local `buffer` of a `SendInfoStream` call.  The call
sends `buffer` itself on its channel, so the frames it sent are slices of this
array from position 0, until `append` has to move `buffer` to a larger array. -/
structure Backing where
  /-- Value of `cap(buffer)` -/
  cap : Nat
  /-- How many of the frames last sent on the channel are slices of this array -/
  frames : Nat
  deriving DecidableEq, Repr

/-- State of a `BroadcastService`: every channel object made so far (a channel's
address is its position in `heap`), the two registries, and for the channel of
each `SendInfoStream` call the array that the call's `buffer` and the frames of
the channel share. -/
structure BroadcastService where
  heap : List Chan
  videoStreams : SyncMap
  infoStreams : SyncMap
  backing : Nat → Backing

/-- Function `NewBroadcastService`: both registries empty. -/
def NewBroadcastService : BroadcastService :=
  { heap := [], videoStreams := fun _ => none, infoStreams := fun _ => none,
    backing := fun _ => ⟨0, 0⟩ }

/-- The registry of one kind of stream. -/
def BroadcastService.streams (b : BroadcastService) : StreamKind → SyncMap
  | .video => b.videoStreams
  | .info => b.infoStreams

/-- Allocation `make(chan []byte, cap)`: the new state and the address of the
new channel. -/
def BroadcastService.make (b : BroadcastService) (cap : Nat) : BroadcastService × Nat :=
  ({ b with heap := b.heap ++ [Chan.make cap] }, b.heap.length)

/-- Apply a channel operation to the channel at address `ch`.  An address with
no channel behind it behaves like a nil channel: the operation waits. -/
def BroadcastService.onChan (b : BroadcastService) (ch : Nat) (op : Chan → ChanOp Chan) :
    ChanOp BroadcastService :=
  match b.heap[ch]? with
  | none => .blocked
  | some c =>
    match op c with
    | .done c1 => .done { b with heap := b.heap.set ch c1 }
    | .blocked => .blocked
    | .panic => .panic

/-- Where a running `SendVideoStream` / `SendInfoStream` call stands. -/
inductive SendPc
  /-- in `for d := range stream`, the local `ch` holding the channel at this address -/
  | looping (ch : Nat)
  /-- the function returned -/
  | returned
  /-- the goroutine panicked (nil record, send on or close of a closed channel) -/
  | panicked
  /-- the goroutine waits inside an iteration on a channel operation -/
  | parked
  deriving DecidableEq, Repr

/-- Local state of a `SendVideoStream` / `SendInfoStream` call: its position, its
parameter `vehicleID`, the local `buffer` (used by `SendInfoStream` only) and the
errors it has sent on `errChan`. -/
structure SendProc where
  pc : SendPc
  vehicleID : Int
  buffer : List UInt8
  errChan : List UsecaseErr
  deriving DecidableEq, Repr

/-- Method `SendVideoStream`, lines 105-124: load the vehicle, check the password,
register a channel for `vehicleID`. -/
def SendVideoStream.start (deps : Deps) (b : BroadcastService) (vehicleID : Int)
    (vehiclePassword : List UInt8) : BroadcastService × SendProc :=
  match deps.GetVehicle vehicleID with
  | .notFound => (b, ⟨.returned, vehicleID, [], [.ErrVehicleNotFound]⟩)
  | .internal => (b, ⟨.returned, vehicleID, [], [.ErrInternal]⟩)
  | .decodeError => (b, ⟨.panicked, vehicleID, [], []⟩)
  | .found vehicle =>
    if !CheckPassword deps vehiclePassword vehicle.PasswordHash then
      (b, ⟨.returned, vehicleID, [], [.wrongPassword .ErrBadRequest]⟩)
    else
      let (b1, fresh) := b.make 100
      match b1.videoStreams.LoadOrStore vehicleID fresh with
      | (m, ch, false) => ({ b1 with videoStreams := m }, ⟨.looping ch, vehicleID, [], []⟩)
      | (_, _, true) =>
        let (b2, ch) := b1.make 100
        ({ b2 with videoStreams := b2.videoStreams.Store vehicleID ch },
         ⟨.looping ch, vehicleID, [], []⟩)

/-- Method `SendVideoStream`, lines 126-135: one turn of `for d := range stream`.
`ev = some d` is a value received from `stream`; `ev = none` is `stream` closed,
after which the channel is closed and the registry entry deleted. -/
def SendVideoStream.step (b : BroadcastService) (p : SendProc) (ev : Option Frame) :
    BroadcastService × SendProc :=
  match p.pc with
  | .looping ch =>
    match ev with
    | some d =>
      match b.onChan ch (fun c => c.enqueue d) with
      | .done b1 => (b1, p)
      | .blocked => (b, { p with pc := .parked })
      | .panic => (b, { p with pc := .panicked })
    | none =>
      match b.onChan ch Chan.close with
      | .done b1 =>
        ({ b1 with videoStreams := b1.videoStreams.Delete p.vehicleID }, { p with pc := .returned })
      | .blocked => (b, { p with pc := .panicked })
      | .panic => (b, { p with pc := .panicked })
  | _ => (b, p)

/-- What a slice of `frame.length` bytes from position 0 of an array reads after
the first `written.length` bytes of that array were set to `written`. -/
def overwritten (written : List UInt8) (frame : Frame) : Frame :=
  written.take frame.length ++ frame.drop written.length

/-- The queue of a channel after the array shared by the last `shared` of its
frames got `written` as its first bytes: those frames keep their length and read
the new bytes. -/
def overwriteShared (written : List UInt8) (shared : Nat) (queue : List Frame) : List Frame :=
  queue.take (queue.length - shared)
    ++ (queue.drop (queue.length - shared)).map (overwritten written)

/-- Record `a` as the array of the channel at address `ch`. -/
def BroadcastService.setBacking (b : BroadcastService) (ch : Nat) (a : Backing) :
    BroadcastService :=
  { b with backing := fun x => if x = ch then a else b.backing x }

/-- Statement `buffer = append(buffer, d...)` of line 166 in the call whose channel
is at address `ch`; `buffer` is the value after the statement.  When the array has
room, the bytes are written into it, and the frames of the channel that are slices
of it read the new bytes from then on.  Otherwise `append` copies `buffer` to a
new array, which no frame shares yet. -/
def BroadcastService.appendBuffer (deps : Deps) (b : BroadcastService) (ch : Nat)
    (buffer : List UInt8) : BroadcastService :=
  if buffer.length ≤ (b.backing ch).cap then
    match b.heap[ch]? with
    | none => b
    | some c =>
      let c1 : Chan := { c with buf := overwriteShared buffer (b.backing ch).frames c.buf }
      { b with heap := b.heap.set ch c1 }
  else b.setBacking ch ⟨deps.appendCap (b.backing ch).cap buffer.length, 0⟩

/-- The `select` of lines 169-176 sending `buffer` on the channel at address `ch`:
the producer write, after which one more frame of the channel is a slice of the
array of `buffer`. -/
def BroadcastService.sendBuffer (b : BroadcastService) (ch : Nat) (buffer : List UInt8) :
    ChanOp BroadcastService :=
  match b.onChan ch (fun c => c.enqueue buffer) with
  | .done b1 => .done (b1.setBacking ch ⟨(b1.backing ch).cap, (b1.backing ch).frames + 1⟩)
  | .blocked => .blocked
  | .panic => .panic

/-- Method `SendInfoStream`, lines 139-163: load the vehicle, check the password,
register a channel for `vehicleID`, take `buffer` from the pool.  The pool hands
out arrays of 4096 bytes; the one taken is assumed to be shared with no frame
that is still queued anywhere. -/
def SendInfoStream.start (deps : Deps) (b : BroadcastService) (vehicleID : Int)
    (vehiclePassword : List UInt8) : BroadcastService × SendProc :=
  match deps.GetVehicle vehicleID with
  | .notFound => (b, ⟨.returned, vehicleID, [], [.ErrVehicleNotFound]⟩)
  | .internal => (b, ⟨.returned, vehicleID, [], [.ErrInternal]⟩)
  | .decodeError => (b, ⟨.panicked, vehicleID, [], []⟩)
  | .found vehicle =>
    if !CheckPassword deps vehiclePassword vehicle.PasswordHash then
      (b, ⟨.returned, vehicleID, [], [.wrongPassword .ErrBadRequest]⟩)
    else
      let (b1, fresh) := b.make 100
      match b1.infoStreams.LoadOrStore vehicleID fresh with
      | (m, ch, false) =>
        (BroadcastService.setBacking { b1 with infoStreams := m } ch ⟨4096, 0⟩,
         ⟨.looping ch, vehicleID, [], []⟩)
      | (_, _, true) =>
        let (b2, ch) := b1.make 100
        (BroadcastService.setBacking
           { b2 with infoStreams := b2.infoStreams.Store vehicleID ch } ch ⟨4096, 0⟩,
         ⟨.looping ch, vehicleID, [], []⟩)

/-- The deferred calls of `SendInfoStream` (lines 160-161), run at `return` in
reverse order of registration: `b.infoStreams.Delete(vehicleID)`, then `close(ch)`. -/
def SendInfoStream.deferred (b : BroadcastService) (p : SendProc) (ch : Nat) :
    BroadcastService × SendProc :=
  let b1 : BroadcastService := { b with infoStreams := b.infoStreams.Delete p.vehicleID }
  match b1.onChan ch Chan.close with
  | .done b2 => (b2, { p with pc := .returned })
  | .blocked => (b1, { p with pc := .panicked })
  | .panic => (b1, { p with pc := .panicked })

/-- Method `SendInfoStream`, lines 165-183: one turn of `for d := range stream`.
The chunk is appended to `buffer` in the array of the call, which rewrites the
queued frames that share the array; when `buffer` unmarshals it is sent, as a
slice of that array; `buffer` is emptied at the end of every turn. -/
def SendInfoStream.step (deps : Deps) (b : BroadcastService) (p : SendProc) (ev : Option Frame) :
    BroadcastService × SendProc :=
  match p.pc with
  | .looping ch =>
    match ev with
    | none => SendInfoStream.deferred b p ch
    | some d =>
      let buffer := p.buffer ++ d
      let b0 := b.appendBuffer deps ch buffer
      let sent : ChanOp BroadcastService :=
        if deps.jsonUnmarshalOk buffer then b0.sendBuffer ch buffer else .done b0
      match sent with
      | .blocked => (b0, { p with pc := .parked, buffer := buffer })
      | .panic => (b0, { p with pc := .panicked, buffer := buffer })
      | .done b1 =>
        if buffer.length > MaxJsonSize then
          SendInfoStream.deferred b1
            { p with buffer := buffer, errChan := p.errChan ++ [.ErrBadRequest] } ch
        else (b1, { p with buffer := [] })
  | _ => (b, p)

/-- Where a running `GetVideoStream` / `GetInfoStream` call stands. -/
inductive GetPc
  /-- in `for d := range c`, the local `c` holding the channel at this address -/
  | ranging (c : Nat)
  /-- the function returned -/
  | returned
  /-- the goroutine panicked (nil record) -/
  | panicked
  deriving DecidableEq, Repr

/-- Local state of a `GetVideoStream` / `GetInfoStream` call: its position, the
frames it has sent on `stream`, each with the bytes it read when it was received
from the registry channel, and the errors it has sent on `errChan`. -/
structure GetProc where
  pc : GetPc
  stream : List Frame
  errChan : List UsecaseErr
  deriving DecidableEq, Repr

/-- Method `GetVideoStream`, lines 42-66: load the dispatcher, check the password, check
the grants, load the channel registered for `vehicleID`. -/
def GetVideoStream.start (deps : Deps) (b : BroadcastService) (vehicleID dispatcherID : Int)
    (dispatcherPassword : List UInt8) : GetProc :=
  match deps.GetDispatcher dispatcherID with
  | .notFound => ⟨.returned, [], [.ErrDispatcherNotFound]⟩
  | .internal => ⟨.returned, [], [.ErrInternal]⟩
  | .decodeError => ⟨.panicked, [], []⟩
  | .found dispatcher =>
    if !CheckPassword deps dispatcherPassword dispatcher.PasswordHash then
      ⟨.returned, [], [.wrongPassword .ErrAccessDenied]⟩
    else if !(dispatcher.GrantsType == AllGrants ||
        (dispatcher.GrantsType == ListGrants && dispatcher.Grants.contains vehicleID)) then
      ⟨.returned, [], [.ErrAccessDenied]⟩
    else
      match b.videoStreams vehicleID with
      | none => ⟨.returned, [], [.ErrNotFound]⟩
      | some c => ⟨.ranging c, [], []⟩

/-- Method `GetVideoStream`, lines 68-70: one turn of `for d := range c { stream <- d }`. -/
def GetVideoStream.step (b : BroadcastService) (p : GetProc) : BroadcastService × GetProc :=
  match p.pc with
  | .ranging c =>
    match b.heap[c]? with
    | none => (b, p)
    | some chan =>
      match chan.recv with
      | .done (some d, chan1) =>
        ({ b with heap := b.heap.set c chan1 }, { p with stream := p.stream ++ [d] })
      | .done (none, _) => (b, { p with pc := .returned })
      | .blocked => (b, p)
      | .panic => (b, p)
  | _ => (b, p)

/-- Method `GetInfoStream`, lines 74-98: load the dispatcher, check the password, check
the grants, load the channel registered for `vehicleID`. -/
def GetInfoStream.start (deps : Deps) (b : BroadcastService) (vehicleID dispatcherID : Int)
    (dispatcherPassword : List UInt8) : GetProc :=
  match deps.GetDispatcher dispatcherID with
  | .notFound => ⟨.returned, [], [.ErrDispatcherNotFound]⟩
  | .internal => ⟨.returned, [], [.ErrInternal]⟩
  | .decodeError => ⟨.panicked, [], []⟩
  | .found dispatcher =>
    if !CheckPassword deps dispatcherPassword dispatcher.PasswordHash then
      ⟨.returned, [], [.wrongPassword .ErrAccessDenied]⟩
    else if !(dispatcher.GrantsType == AllGrants ||
        (dispatcher.GrantsType == ListGrants && dispatcher.Grants.contains vehicleID)) then
      ⟨.returned, [], [.ErrAccessDenied]⟩
    else
      match b.infoStreams vehicleID with
      | none => ⟨.returned, [], [.ErrNotFound]⟩
      | some c => ⟨.ranging c, [], []⟩

/-- Method `GetInfoStream`, lines 99-101: one turn of `for d := range c { stream <- d }`. -/
def GetInfoStream.step (b : BroadcastService) (p : GetProc) : BroadcastService × GetProc :=
  match p.pc with
  | .ranging c =>
    match b.heap[c]? with
    | none => (b, p)
    | some chan =>
      match chan.recv with
      | .done (some d, chan1) =>
        ({ b with heap := b.heap.set c chan1 }, { p with stream := p.stream ++ [d] })
      | .done (none, _) => (b, { p with pc := .returned })
      | .blocked => (b, p)
      | .panic => (b, p)
  | _ => (b, p)

/-- Successive turns of a `GetVideoStream` call, the `i`-th taken in the `i`-th
state of `bs`: between its turns the service may have been changed by any other
goroutine. -/
def GetVideoStream.run (p : GetProc) : List BroadcastService → GetProc
  | [] => p
  | b :: bs => GetVideoStream.run (GetVideoStream.step b p).2 bs

/-- Successive turns of a `GetInfoStream` call, the `i`-th taken in the `i`-th
state of `bs`. -/
def GetInfoStream.run (p : GetProc) : List BroadcastService → GetProc
  | [] => p
  | b :: bs => GetInfoStream.run (GetInfoStream.step b p).2 bs

/-! ## Interleavings of calls on one service -/

/-- Body of `SendVideoStream` or of `SendInfoStream`, by kind of stream. -/
def sendStart (deps : Deps) (k : StreamKind) (b : BroadcastService) (vehicleID : Int)
    (vehiclePassword : List UInt8) : BroadcastService × SendProc :=
  match k with
  | .video => SendVideoStream.start deps b vehicleID vehiclePassword
  | .info => SendInfoStream.start deps b vehicleID vehiclePassword

/-- Loop turn of `SendVideoStream` or of `SendInfoStream`, by kind of stream. -/
def sendStep (deps : Deps) (k : StreamKind) (b : BroadcastService) (p : SendProc)
    (ev : Option Frame) : BroadcastService × SendProc :=
  match k with
  | .video => SendVideoStream.step b p ev
  | .info => SendInfoStream.step deps b p ev

/-- Body of `GetVideoStream` or of `GetInfoStream`, by kind of stream. -/
def getStart (deps : Deps) (k : StreamKind) (b : BroadcastService) (vehicleID dispatcherID : Int)
    (dispatcherPassword : List UInt8) : GetProc :=
  match k with
  | .video => GetVideoStream.start deps b vehicleID dispatcherID dispatcherPassword
  | .info => GetInfoStream.start deps b vehicleID dispatcherID dispatcherPassword

/-- Loop turn of `GetVideoStream` or of `GetInfoStream`, by kind of stream. -/
def getStep (k : StreamKind) (b : BroadcastService) (p : GetProc) : BroadcastService × GetProc :=
  match k with
  | .video => GetVideoStream.step b p
  | .info => GetInfoStream.step b p

/-- One producer call `P` and two subscriber calls `A` and `B` running on the
service `b`. -/
structure Fan where
  b : BroadcastService
  P : SendProc
  A : GetProc
  B : GetProc

/-- Whose turn it is: the producer's, having received `d` from its input, or one
of the two subscribers'. -/
inductive Turn
  | produce (d : Frame)
  | receiveA
  | receiveB
  deriving DecidableEq, Repr

/-- One turn of the system of a producer and two subscribers. -/
def Fan.step (deps : Deps) (k : StreamKind) (s : Fan) : Turn → Fan
  | .produce d =>
    let r := sendStep deps k s.b s.P (some d)
    { s with b := r.1, P := r.2 }
  | .receiveA =>
    let r := getStep k s.b s.A
    { s with b := r.1, A := r.2 }
  | .receiveB =>
    let r := getStep k s.b s.B
    { s with b := r.1, B := r.2 }

/-- The system right after a producer of vehicle `vehicleID` started on the
service `b` and two dispatchers then subscribed to that vehicle. -/
def Fan.attach (deps : Deps) (k : StreamKind) (b : BroadcastService) (vehicleID : Int)
    (vehiclePassword : List UInt8) (dispatcherA : Int) (passwordA : List UInt8)
    (dispatcherB : Int) (passwordB : List UInt8) : Fan :=
  let r := sendStart deps k b vehicleID vehiclePassword
  { b := r.1, P := r.2,
    A := getStart deps k r.1 vehicleID dispatcherA passwordA,
    B := getStart deps k r.1 vehicleID dispatcherB passwordB }

/-- A schedule of turns, run from left to right. -/
def Fan.run (deps : Deps) (k : StreamKind) (s : Fan) (ts : List Turn) : Fan :=
  ts.foldl (Fan.step deps k) s

/-- The frames the producer is given in a schedule, in order. -/
def produced : List Turn → List Frame
  | [] => []
  | .produce d :: ts => d :: produced ts
  | .receiveA :: ts => produced ts
  | .receiveB :: ts => produced ts

/-- The queue of the channel at address `ch` (empty when there is none). -/
def BroadcastService.queue (b : BroadcastService) (ch : Nat) : List Frame :=
  match b.heap[ch]? with
  | some c => c.buf
  | none => []

/-- Any call on the service: a producer or subscriber of either kind starting, or
taking a loop turn from any local state. -/
inductive Call
  | sendStart (k : StreamKind) (vehicleID : Int) (vehiclePassword : List UInt8)
  | sendStep (k : StreamKind) (p : SendProc) (ev : Option Frame)
  | getStep (k : StreamKind) (p : GetProc)

/-- Effect of a call on the service state. -/
def Call.apply (deps : Deps) (b : BroadcastService) : Call → BroadcastService
  | .sendStart k vehicleID vehiclePassword =>
    (Relay.sendStart deps k b vehicleID vehiclePassword).1
  | .sendStep k p ev => (Relay.sendStep deps k b p ev).1
  | .getStep k p => (Relay.getStep k b p).1

/-- A sequence of calls, applied from left to right. -/
def runCalls (deps : Deps) (b : BroadcastService) (calls : List Call) : BroadcastService :=
  calls.foldl (Call.apply deps) b

/-- A channel made with capacity 100 that holds no more than that. -/
def Chan.Bounded (c : Chan) : Prop :=
  c.cap = 100 ∧ c.buf.length ≤ 100

/-- Every channel of the service is bounded, and every address stored in a
registry is the address of a channel. -/
def BroadcastService.Bounded (b : BroadcastService) : Prop :=
  (∀ c ∈ b.heap, c.Bounded) ∧
  (∀ v a, b.videoStreams v = some a → a < b.heap.length) ∧
  (∀ v a, b.infoStreams v = some a → a < b.heap.length)

/-- The calls of a `Fan` all work on the channel at address `ch`: that channel
exists and is bounded; the producer, while in its loop, writes to it, has not
closed it and starts each turn with an empty `buffer`; each subscriber, while in
its loop, reads it. -/
def Fan.On (s : Fan) (ch : Nat) : Prop :=
  (∃ c, s.b.heap[ch]? = some c ∧ c.Bounded ∧ (∀ a, s.P.pc = .looping a → c.closed = false)) ∧
  (∀ a, s.P.pc = .looping a → a = ch ∧ s.P.buffer = []) ∧
  (∀ a, s.A.pc = .ranging a → a = ch) ∧
  (∀ a, s.B.pc = .ranging a → a = ch)

/-- A chunk the producer of kind `k` forwards as one frame: any chunk on the video
stream; on the info stream a chunk that unmarshals and is not longer than
`MaxJsonSize`. -/
def Forwarded (deps : Deps) (k : StreamKind) (d : Frame) : Prop :=
  k = .video ∨ (deps.jsonUnmarshalOk d = true ∧ d.length ≤ MaxJsonSize)

/-! ## A concrete deployment for the scenarios -/

/-- The object `{}` as bytes. -/
def emptyObject : Frame := [123, 125]

/-- A credential store holding vehicle 2, dispatcher 2 (grants `all`),
dispatcher 3 (grants `list`, `[3]`) and dispatcher 4 (grants `list`, `[2, 5]`), all
with password `"example"`.  The library parameters are stand-ins: hashes are
stored in clear and compared for equality, and only `{}` unmarshals. -/
def demoDeps : Deps where
  base64Decode := fun hash => some hash
  bcryptCompare := fun hash password => hash == password
  jsonUnmarshalOk := fun buffer => buffer == emptyObject
  GetDispatcher := fun id =>
    if id = 2 then .found ⟨2, AllGrants, [], examplePassword⟩
    else if id = 3 then .found ⟨3, ListGrants, [3], examplePassword⟩
    else if id = 4 then .found ⟨4, ListGrants, [2, 5], examplePassword⟩
    else .notFound
  GetVehicle := fun id =>
    if id = 2 then .found ⟨2, examplePassword⟩ else .notFound
  appendCap := fun _ n => n

/-- The demo service after vehicle 2 attached its video and info producers and
each published one frame. -/
def liveService : BroadcastService :=
  let v := SendVideoStream.start demoDeps NewBroadcastService 2 examplePassword
  let i := SendInfoStream.start demoDeps v.1 2 examplePassword
  let b := (SendVideoStream.step i.1 v.2 (some [7])).1
  (SendInfoStream.step demoDeps b i.2 (some emptyObject)).1

/-! ## Sequences of turns of one call -/

/-- The frames the two subscribers received in going from `s` to `s1`. -/
def Fan.received (s s1 : Fan) : List Frame :=
  s1.A.stream.drop s.A.stream.length ++ s1.B.stream.drop s.B.stream.length

/-- The frames dequeued from the channel in a schedule, in the order in which
they were dequeued, whichever subscriber took them. -/
def Fan.dequeued (deps : Deps) (k : StreamKind) (s : Fan) : List Turn → List Frame
  | [] => []
  | t :: ts =>
    Fan.received s (Fan.step deps k s t) ++ Fan.dequeued deps k (Fan.step deps k s t) ts

/-- Consecutive loop turns of `SendInfoStream`, one per chunk received from
`stream`, with no other call in between. -/
def SendInfoStream.feed (deps : Deps) (b : BroadcastService) (p : SendProc) :
    List Frame → BroadcastService × SendProc
  | [] => (b, p)
  | d :: ds =>
    SendInfoStream.feed deps (SendInfoStream.step deps b p (some d)).1
      (SendInfoStream.step deps b p (some d)).2 ds

/-- The info producer of vehicle 2 on the live demo service, at the top of its
loop. -/
def liveInfoProducer : SendProc :=
  let v := SendVideoStream.start demoDeps NewBroadcastService 2 examplePassword
  let i := SendInfoStream.start demoDeps v.1 2 examplePassword
  let b := (SendVideoStream.step i.1 v.2 (some [7])).1
  (SendInfoStream.step demoDeps b i.2 (some emptyObject)).2

/-- The video producer of vehicle 2 on the live demo service, at the top of its
loop. -/
def liveVideoProducer : SendProc :=
  let v := SendVideoStream.start demoDeps NewBroadcastService 2 examplePassword
  let i := SendInfoStream.start demoDeps v.1 2 examplePassword
  (SendVideoStream.step i.1 v.2 (some [7])).2

/-- The literal `null` as bytes. -/
def nullLiteral : Frame := [110, 117, 108, 108]

/-- The demo deployment with an unmarshal test that accepts `{}` and `null`:
`json.Unmarshal` reports no error for the JSON value `null`, whatever the type of
its target. -/
def nullDeps : Deps :=
  { demoDeps with
    jsonUnmarshalOk := fun buffer => buffer == emptyObject || buffer == nullLiteral }

/-- The demo deployment with an unmarshal test that accepts every buffer, for
what does not depend on the answer of the library. -/
def laxDeps : Deps :=
  { demoDeps with jsonUnmarshalOk := fun _ => true }

/-- A number of consecutive loop turns of a subscriber, with no other call in
between. -/
def getTurns (k : StreamKind) : Nat → BroadcastService → GetProc → BroadcastService × GetProc
  | 0, b, p => (b, p)
  | n + 1, b, p => getTurns k n (getStep k b p).1 (getStep k b p).2

/-! ## The `select` loop of the handlers and whole connections -/

/-- A value sent on a handler's `errChan`: an error of the usecase, or an error
returned by `quicStream.Read`. -/
inductive ConnErr
  | usecase (e : UsecaseErr)
  | read
  deriving DecidableEq, Repr

/-- State of a connection handler in its `for { select { ... } }` loop
(`vehicle.go` and `dispatcher.go`, lines 138-161): whether it is still in the
loop, whether `conn.CloseWithError` was called, its two channels `infoChan` and
`videoChan`, the values offered on `errChan` and not yet received, and whether
`v.ctx` is cancelled. -/
structure Handler where
  serving : Bool
  connClosed : Bool
  infoChan : Chan
  videoChan : Chan
  errChan : List ConnErr
  ctxDone : Bool
  deriving DecidableEq, Repr

/-- A handler entering its loop: lines 138-140 make the three channels. -/
def Handler.enter (errChan : List ConnErr) : Handler :=
  { serving := true, connClosed := false, infoChan := Chan.make 100,
    videoChan := Chan.make 100, errChan := errChan, ctxDone := false }

/-- Both cases of the `select` end the same way: `conn.CloseWithError`,
`close(infoChan)`, `close(videoChan)`, `return`. -/
def Handler.teardown (h : Handler) : Handler :=
  { h with serving := false, connClosed := true,
           infoChan := { h.infoChan with closed := true },
           videoChan := { h.videoChan with closed := true } }

/-- One pass of the `select` of lines 146-160: receive from `errChan` when a value
is offered, else take `ctx.Done()` when the context is cancelled, else wait. -/
def Handler.select (h : Handler) : Handler :=
  if !h.serving then h
  else
    match h.errChan with
    | _ :: rest => Handler.teardown { h with errChan := rest }
    | [] => if h.ctxDone then Handler.teardown h else h

/-- The channel of a handler for one kind of stream. -/
def Handler.chan (h : Handler) : StreamKind → Chan
  | .info => h.infoChan
  | .video => h.videoChan

/-- Replace the channel of a handler for one kind of stream. -/
def Handler.setChan (h : Handler) (k : StreamKind) (c : Chan) : Handler :=
  match k with
  | .info => { h with infoChan := c }
  | .video => { h with videoChan := c }

/-- What `quicStream.Read(data)` returns to `getStream`. -/
inductive ReadResult
  /-- Bytes read, with a nil error. -/
  | data (chunk : List UInt8)
  /-- The error `io.EOF`. -/
  | eof
  /-- The error `net.ErrClosed`. -/
  | closed
  /-- Any other error. -/
  | failed
  deriving DecidableEq, Repr

/-- One turn of the loop of `VehicleDelivery.getStream` (`vehicle.go` lines
164-181) on what `Read` returned: whether the goroutine goes on, its channel
`stream` afterwards and what it sends on `errChan`.  On `io.EOF` and
`net.ErrClosed` it returns and sends nothing; it never closes `stream`.  A send
that finds `stream` full waits, and one on a closed `stream` panics. -/
def VehicleDelivery.getStream (stream : Chan) (r : ReadResult) : Bool × Chan × List ConnErr :=
  match r with
  | .eof => (false, stream, [])
  | .closed => (false, stream, [])
  | .failed => (false, stream, [.read])
  | .data chunk =>
    if chunk.length != 0 then
      match stream.send chunk with
      | .done s1 => (true, s1, [])
      | .blocked => (true, stream, [])
      | .panic => (false, stream, [])
    else (true, stream, [])

/-- A vehicle connection after its handshake: the service, the handler, whether
each `getStream` goroutine is running, and the two usecase calls. -/
structure Ingress where
  b : BroadcastService
  h : Handler
  infoPump : Bool
  videoPump : Bool
  sendInfo : SendProc
  sendVideo : SendProc

/-- What can happen next on a vehicle connection. -/
inductive IngressEvent
  /-- The `getStream` goroutine of a stream gets a result from `Read`. -/
  | read (k : StreamKind) (r : ReadResult)
  /-- The loop `for d := range stream` of `SendInfoStream` / `SendVideoStream` receives. -/
  | turn (k : StreamKind)
  /-- The handler's `select` runs. -/
  | select
  /-- The context `v.ctx` is cancelled. -/
  | cancel
  deriving DecidableEq, Repr

/-- Lines 141-144 of `vehicle.go`: the handler enters its loop and the two
usecase calls run their prologue; what they send on `errChan` is offered to the
handler. -/
def Ingress.init (deps : Deps) (b : BroadcastService) (vehicleID : Int) (secret : List UInt8) :
    Ingress :=
  let i := SendInfoStream.start deps b vehicleID secret
  let v := SendVideoStream.start deps i.1 vehicleID secret
  { b := v.1, h := Handler.enter ((i.2.errChan ++ v.2.errChan).map ConnErr.usecase),
    infoPump := true, videoPump := true, sendInfo := i.2, sendVideo := v.2 }

/-- The pump of a stream is running. -/
def Ingress.pump (s : Ingress) : StreamKind → Bool
  | .info => s.infoPump
  | .video => s.videoPump

/-- The usecase call of a stream. -/
def Ingress.sender (s : Ingress) : StreamKind → SendProc
  | .info => s.sendInfo
  | .video => s.sendVideo

/-- Record the state of the pump of a stream. -/
def Ingress.setPump (s : Ingress) (k : StreamKind) (running : Bool) : Ingress :=
  match k with
  | .info => { s with infoPump := running }
  | .video => { s with videoPump := running }

/-- Record the state of the usecase call of a stream. -/
def Ingress.setSender (s : Ingress) (k : StreamKind) (p : SendProc) : Ingress :=
  match k with
  | .info => { s with sendInfo := p }
  | .video => { s with sendVideo := p }

/-- One loop turn of the usecase call of kind `k` on a vehicle connection: it
receives from the handler's channel (a value, or the end of a closed and drained
channel) and runs its loop body, and what it sends on `errChan` is offered to the
handler.  On an empty open channel it waits. -/
def Ingress.turn (deps : Deps) (s : Ingress) (k : StreamKind) : Ingress :=
  match (s.sender k).pc with
  | .looping _ =>
    match (s.h.chan k).recv with
    | .done (ev, c1) =>
      let r := sendStep deps k s.b (s.sender k) ev
      let s1 := { s with b := r.1,
                         h := { s.h.setChan k c1 with
                                errChan := s.h.errChan ++
                                  (r.2.errChan.drop (s.sender k).errChan.length).map ConnErr.usecase } }
      s1.setSender k r.2
    | .blocked => s
    | .panic => s
  | _ => s

/-- One event on a vehicle connection. -/
def Ingress.step (deps : Deps) (s : Ingress) : IngressEvent → Ingress
  | .read k r =>
    if s.pump k then
      let g := VehicleDelivery.getStream (s.h.chan k) r
      ({ s with h := { s.h.setChan k g.2.1 with errChan := s.h.errChan ++ g.2.2 } }).setPump k g.1
    else s
  | .turn k => Ingress.turn deps s k
  | .select => { s with h := s.h.select }
  | .cancel => { s with h := { s.h with ctxDone := true } }

/-- A sequence of events on a vehicle connection, from left to right. -/
def Ingress.run (deps : Deps) (s : Ingress) (es : List IngressEvent) : Ingress :=
  es.foldl (Ingress.step deps) s

/-- A dispatcher connection after its handshake: the service, the handler and the
two usecase calls. -/
structure Egress where
  b : BroadcastService
  h : Handler
  getInfo : GetProc
  getVideo : GetProc

/-- What can happen next on a dispatcher connection. -/
inductive EgressEvent
  /-- The loop `for d := range c` of `GetInfoStream` / `GetVideoStream` takes a turn. -/
  | turn (k : StreamKind)
  /-- The handler's `select` runs. -/
  | select
  /-- The context `v.ctx` is cancelled. -/
  | cancel
  /-- Calls of other connections (producers, other subscribers) leave the service
  in another state. -/
  | world (b : BroadcastService)

/-- Lines 141-144 of `dispatcher.go`: the handler enters its loop and the two
usecase calls run their prologue; what they send on `errChan` is offered to the
handler. -/
def Egress.init (deps : Deps) (b : BroadcastService) (vehicleID dispatcherID : Int)
    (secret : List UInt8) : Egress :=
  let i := GetInfoStream.start deps b vehicleID dispatcherID secret
  let v := GetVideoStream.start deps b vehicleID dispatcherID secret
  { b := b, h := Handler.enter ((i.errChan ++ v.errChan).map ConnErr.usecase),
    getInfo := i, getVideo := v }

/-- One event on a dispatcher connection.  A loop turn of a usecase call offers to
the handler whatever the call sent on `errChan` in that turn. -/
def Egress.step (s : Egress) : EgressEvent → Egress
  | .turn .info =>
    let r := GetInfoStream.step s.b s.getInfo
    { s with b := r.1, getInfo := r.2,
             h := { s.h with errChan := s.h.errChan ++
                      (r.2.errChan.drop s.getInfo.errChan.length).map ConnErr.usecase } }
  | .turn .video =>
    let r := GetVideoStream.step s.b s.getVideo
    { s with b := r.1, getVideo := r.2,
             h := { s.h with errChan := s.h.errChan ++
                      (r.2.errChan.drop s.getVideo.errChan.length).map ConnErr.usecase } }
  | .select => { s with h := s.h.select }
  | .cancel => { s with h := { s.h with ctxDone := true } }
  | .world b => { s with b := b }

/-- A sequence of events on a dispatcher connection, from left to right. -/
def Egress.run (s : Egress) (es : List EgressEvent) : Egress :=
  es.foldl Egress.step s

/-- Function `errors.Is(err, target)` for a sentinel `target` of `err.go`: a
sentinel is only itself; the joined error of a password check is what its first
member is (its second member, the message, is no sentinel). -/
def UsecaseErr.Is : UsecaseErr → UsecaseErr → Bool
  | .wrongPassword e, target => e.Is target
  | .ErrAccessDenied, target => target == .ErrAccessDenied
  | .ErrDispatcherNotFound, target => target == .ErrDispatcherNotFound
  | .ErrVehicleNotFound, target => target == .ErrVehicleNotFound
  | .ErrDispatcherAlreadyExists, target => target == .ErrDispatcherAlreadyExists
  | .ErrVehicleAlreadyExists, target => target == .ErrVehicleAlreadyExists
  | .ErrInternal, target => target == .ErrInternal
  | .ErrBadRequest, target => target == .ErrBadRequest
  | .ErrNotFound, target => target == .ErrNotFound

/-- The live demo service after both producers of vehicle 2 reached the end of
their input. -/
def endedService : BroadcastService :=
  (sendStep demoDeps .info (sendStep demoDeps .video liveService liveVideoProducer none).1
    liveInfoProducer none).1

/-- A password other than `"example"`. -/
def wrongPassword : List UInt8 := [119, 114, 111, 110, 103]

/-! ## The credential store (`internal/repo/redis`) -/

/-- A key of the credential store: `"dispatcher:%d"` or `"vehicle:%d"` of an id. -/
inductive RedisKey
  | dispatcher (id : Int)
  | vehicle (id : Int)
  deriving DecidableEq, Repr

/-- What `redisClient.Get(ctx, key).Bytes()` returns under the one-second deadline
of its context. -/
inductive RedisReply
  /-- The stored bytes, with a nil error. -/
  | bytes (data : List UInt8)
  /-- An error that is `redis.Nil`: the key is absent. -/
  | redisNil
  /-- Any other error: the store failed, or the deadline passed. -/
  | failure
  deriving DecidableEq, Repr

/-- What the repositories of `internal/repo/redis` call: the Redis client and the
gob decoder for each record type. -/
structure RedisClient where
  /-- Call `redisClient.Get(ctx, key).Bytes()` -/
  Get : RedisKey → RedisReply
  /-- Call `decoder.Decode(&dispatcher)`, `none` when it returns an error -/
  decodeDispatcher : List UInt8 → Option Dispatcher
  /-- Call `decoder.Decode(&vehicle)`, `none` when it returns an error -/
  decodeVehicle : List UInt8 → Option Vehicle

/-- Method `DispatcherRepo.GetDispatcher` of `internal/repo/redis/dispatcher.go`,
lines 49-70. -/
def Redis.DispatcherRepo.GetDispatcher (client : RedisClient) (id : Int) :
    RepoResult Dispatcher :=
  match client.Get (.dispatcher id) with
  | .redisNil => .notFound
  | .failure => .internal
  | .bytes data =>
    match client.decodeDispatcher data with
    | none => .decodeError
    | some dispatcher => .found dispatcher

/-- Method `VehicleRepo.GetVehicle` of `internal/repo/redis/vehicle.go`, lines
49-70. -/
def Redis.VehicleRepo.GetVehicle (client : RedisClient) (id : Int) : RepoResult Vehicle :=
  match client.Get (.vehicle id) with
  | .redisNil => .notFound
  | .failure => .internal
  | .bytes data =>
    match client.decodeVehicle data with
    | none => .decodeError
    | some vehicle => .found vehicle

/-- Test `errors.Is(err, repo.ErrInternal)` on what a lookup returned. -/
def RepoResult.isInternal {α : Type} : RepoResult α → Bool
  | .internal => true
  | _ => false

/-- Test `errors.Is(err, repo.ErrDispatcherNotFound)`, or with
`repo.ErrVehicleNotFound`, on what a lookup returned. -/
def RepoResult.isNotFound {α : Type} : RepoResult α → Bool
  | .notFound => true
  | _ => false

/-- The lookup returned a record (and a nil error). -/
def RepoResult.isFound {α : Type} : RepoResult α → Bool
  | .found _ => true
  | _ => false

/-- The broadcast service wired as in `cmd/server/main.go`: both repositories are
the Redis ones on `client`; the libraries are those of `base`. -/
def redisDeps (base : Deps) (client : RedisClient) : Deps :=
  { base with GetDispatcher := Redis.DispatcherRepo.GetDispatcher client,
              GetVehicle := Redis.VehicleRepo.GetVehicle client }

/-- A store in which the values under `dispatcher:2` and `vehicle:2` do not decode,
reading `dispatcher:3` fails, and no other key exists. -/
def corruptClient : RedisClient where
  Get := fun key =>
    if key = .dispatcher 2 then .bytes [0]
    else if key = .vehicle 2 then .bytes [0]
    else if key = .dispatcher 3 then .failure
    else .redisNil
  decodeDispatcher := fun _ => none
  decodeVehicle := fun _ => none

/-! ## The admin service (`internal/usecase/service/admin.go`) -/

/-- Function `entity.IsGrantsTypeValid`. -/
def IsGrantsTypeValid (grantsType : GrantsType) : Bool :=
  grantsType == ListGrants || grantsType == AllGrants

/-- Record `entity.AddDispatcherRequest`; `Grants = none` is the nil slice. -/
structure AddDispatcherRequest where
  Password : List UInt8
  GrantsType : Relay.GrantsType
  Grants : Option (List Int)

/-- Record `entity.EditDispatcherRequest`; `Grants = none` is the nil slice. -/
structure EditDispatcherRequest where
  ID : Int
  GrantsType : Relay.GrantsType
  Grants : Option (List Int)

/-- The elements of a Go slice of ids: a nil slice has none.  The field `Grants`
of a `Dispatcher` holds the elements, so a nil and an empty slice give the same
record. -/
def sliceElems : Option (List Int) → List Int
  | none => []
  | some xs => xs

/-- The error of a repository write as the admin service tells it apart. -/
inductive WriteResult
  /-- A nil error. -/
  | done
  /-- An error that is the sentinel the caller tests for:
  `repo.ErrDispatcherAlreadyExists` on add, `repo.ErrDispatcherNotFound` on edit. -/
  | sentinel
  /-- Any other error. -/
  | failed
  deriving DecidableEq, Repr

/-- Interface `repo.DispatcherRepo`, as far as the admin service uses it. -/
structure DispatcherRepo where
  /-- Method `GetDispatcher` -/
  GetDispatcher : Int → RepoResult Dispatcher
  /-- Method `AddDispatcher`: its error, and the id it stores into the record -/
  AddDispatcher : Dispatcher → WriteResult × Int
  /-- Method `EditDispatcher` -/
  EditDispatcher : Dispatcher → WriteResult

/-- State of an `AdminService` as far as the dispatcher operations use it, with
the password library next to it. -/
structure AdminService where
  dispatcherRepo : DispatcherRepo
  secretKey : List UInt8
  /-- Function `password.HashPassword`, `none` when it returns an error -/
  HashPassword : List UInt8 → Option (List UInt8)

/-- An error returned by the admin service: a sentinel of `err.go`, or
`errors.Join` of a sentinel with a second error. -/
inductive AdminErr
  | sentinel (e : UsecaseErr)
  | joined (e : UsecaseErr)
  deriving DecidableEq, Repr

/-- What a call of the admin service did: the records it passed to
`dispatcherRepo.AddDispatcher` / `dispatcherRepo.EditDispatcher`, the record it
returned (if any) and the error it returned (`none` for nil). -/
structure AdminRun where
  written : List Dispatcher
  dispatcher : Option Dispatcher
  err : Option AdminErr

/-- Lines 69-77 of `AddDispatcher`: the write of the record and what is returned
for each error of the repository. -/
def AdminService.addRecord (a : AdminService) (dispatcher : Dispatcher) : AdminRun :=
  match a.dispatcherRepo.AddDispatcher dispatcher with
  | (.done, id) => ⟨[dispatcher], some { dispatcher with ID := id }, none⟩
  | (.sentinel, _) => ⟨[dispatcher], none, some (.sentinel .ErrDispatcherAlreadyExists)⟩
  | (.failed, _) => ⟨[dispatcher], none, some (.joined .ErrInternal)⟩

/-- Lines 106-114 of `EditDispatcher`: the write of the record and what is
returned for each error of the repository. -/
def AdminService.editRecord (a : AdminService) (dispatcher : Dispatcher) : AdminRun :=
  match a.dispatcherRepo.EditDispatcher dispatcher with
  | .done => ⟨[dispatcher], none, none⟩
  | .sentinel => ⟨[dispatcher], none, some (.sentinel .ErrDispatcherNotFound)⟩
  | .failed => ⟨[dispatcher], none, some (.joined .ErrInternal)⟩

/-- Method `AdminService.AddDispatcher`, lines 45-78. -/
def AdminService.AddDispatcher (a : AdminService) (secret : List UInt8)
    (dispatcherRequest : AddDispatcherRequest) : AdminRun :=
  if secret != a.secretKey then ⟨[], none, some (.sentinel .ErrAccessDenied)⟩
  else
    match a.HashPassword dispatcherRequest.Password with
    | none => ⟨[], none, some (.joined .ErrBadRequest)⟩
    | some passwordHash =>
      if !IsGrantsTypeValid dispatcherRequest.GrantsType then
        ⟨[], none, some (.joined .ErrBadRequest)⟩
      else
        let filled : Option Dispatcher :=
          if dispatcherRequest.GrantsType == AllGrants then
            some ⟨0, AllGrants, [], passwordHash⟩
          else if dispatcherRequest.GrantsType == ListGrants then
            some ⟨0, ListGrants, sliceElems dispatcherRequest.Grants, passwordHash⟩
          else none
        match filled with
        | none => ⟨[], none, some (.joined .ErrBadRequest)⟩
        | some dispatcher => a.addRecord dispatcher

/-- Method `AdminService.EditDispatcher`, lines 80-115. -/
def AdminService.EditDispatcher (a : AdminService) (secret : List UInt8)
    (dispatcherRequest : EditDispatcherRequest) : AdminRun :=
  if secret != a.secretKey then ⟨[], none, some (.sentinel .ErrAccessDenied)⟩
  else if !IsGrantsTypeValid dispatcherRequest.GrantsType then
    ⟨[], none, some (.joined .ErrBadRequest)⟩
  else
    match a.dispatcherRepo.GetDispatcher dispatcherRequest.ID with
    | .notFound => ⟨[], none, some (.sentinel .ErrDispatcherNotFound)⟩
    | .internal => ⟨[], none, some (.joined .ErrInternal)⟩
    | .decodeError => ⟨[], none, some (.joined .ErrInternal)⟩
    | .found current =>
      let typed : Dispatcher := { current with GrantsType := dispatcherRequest.GrantsType }
      let filled : Option Dispatcher :=
        if dispatcherRequest.GrantsType == AllGrants then
          some { typed with Grants := [] }
        else if dispatcherRequest.GrantsType == ListGrants
            && dispatcherRequest.Grants.isSome then
          some { typed with Grants := sliceElems dispatcherRequest.Grants }
        else none
      match filled with
      | none => ⟨[], none, some (.joined .ErrBadRequest)⟩
      | some dispatcher => a.editRecord dispatcher

/-- The admin secret of the demo deployment, `"sec"`. -/
def adminSecret : List UInt8 := [115, 101, 99]

/-- An admin service over the demo credential store: every write succeeds, an
added dispatcher gets the id 5, and hashes are stored in clear. -/
def demoAdmin : AdminService where
  dispatcherRepo :=
    { GetDispatcher := demoDeps.GetDispatcher,
      AddDispatcher := fun _ => (.done, 5),
      EditDispatcher := fun _ => .done }
  secretKey := adminSecret
  HashPassword := fun password => some password

/-! ## Which registry entry a call can change -/

/-- The kind of stream and the vehicle id a call works for: those of the producer
for its publish and loop steps; a subscriber's step works for no entry. -/
def Call.target : Call → Option (StreamKind × Int)
  | .sendStart k vehicleID _ => some (k, vehicleID)
  | .sendStep k p _ => some (k, p.vehicleID)
  | .getStep _ _ => none

/-! ## Telemetry objects for the scenarios of the shared array -/

/-- The object `{"a":1}` as bytes. -/
def smallObject : Frame := [123, 34, 97, 34, 58, 49, 125]

/-- The object `{"bb":22}` as bytes. -/
def largerObject : Frame := [123, 34, 98, 98, 34, 58, 50, 50, 125]

/-- The demo deployment with an unmarshal test that accepts the objects `{}`,
`{"a":1}` and `{"bb":22}` and nothing else. -/
def telemetryDeps : Deps :=
  { demoDeps with
    jsonUnmarshalOk := fun buffer =>
      buffer == emptyObject || buffer == smallObject || buffer == largerObject }

/-! ## Properties -/

/-! ## Handshake decoding -/

theorem be_or_eq_add (a b c d : Nat) (hb : b < 256) (hc : c < 256) (hd : d < 256) :
    a <<< 24 ||| b <<< 16 ||| c <<< 8 ||| d = a * 2 ^ 24 + b * 2 ^ 16 + c * 2 ^ 8 + d := by
  have h1 : c <<< 8 ||| d = 2 ^ 8 * c + d := by
    rw [Nat.shiftLeft_eq, Nat.mul_comm, ← Nat.mul_add_lt_is_or (by omega)]
  have h2 : b <<< 16 ||| (2 ^ 8 * c + d) = 2 ^ 16 * b + (2 ^ 8 * c + d) := by
    rw [Nat.shiftLeft_eq, Nat.mul_comm, ← Nat.mul_add_lt_is_or (by omega)]
  have h3 : a <<< 24 ||| (2 ^ 16 * b + (2 ^ 8 * c + d))
      = 2 ^ 24 * a + (2 ^ 16 * b + (2 ^ 8 * c + d)) := by
    rw [Nat.shiftLeft_eq, Nat.mul_comm, ← Nat.mul_add_lt_is_or (by omega)]
  rw [Nat.lor_assoc, Nat.lor_assoc, h1, h2, h3]
  ring

theorem byte_lt (b : UInt8) : b.toNat < 256 := b.val.isLt

theorem readID_cons4 (b0 b1 b2 b3 : UInt8) (rest : List UInt8) :
    readID (b0 :: b1 :: b2 :: b3 :: rest) 0
      = .ok (Int.ofNat (b0.toNat * 2 ^ 24 + b1.toNat * 2 ^ 16 + b2.toNat * 2 ^ 8 + b3.toNat)) := by
  simp only [readID, index, GoResult.bind, List.getElem?_cons_zero, List.getElem?_cons_succ]
  rw [be_or_eq_add _ _ _ _ (byte_lt b1) (byte_lt b2) (byte_lt b3)]

theorem readID_at4 (a0 a1 a2 a3 b0 b1 b2 b3 : UInt8) (rest : List UInt8) :
    readID (a0 :: a1 :: a2 :: a3 :: b0 :: b1 :: b2 :: b3 :: rest) 4
      = .ok (Int.ofNat (b0.toNat * 2 ^ 24 + b1.toNat * 2 ^ 16 + b2.toNat * 2 ^ 8 + b3.toNat)) := by
  simp only [readID, index, GoResult.bind, List.getElem?_cons_zero, List.getElem?_cons_succ]
  rw [be_or_eq_add _ _ _ _ (byte_lt b1) (byte_lt b2) (byte_lt b3)]

theorem be_value_lt (b0 b1 b2 b3 : UInt8) :
    b0.toNat * 2 ^ 24 + b1.toNat * 2 ^ 16 + b2.toNat * 2 ^ 8 + b3.toNat < 2 ^ 32 := by
  have h0 := byte_lt b0
  have h1 := byte_lt b1
  have h2 := byte_lt b2
  have h3 := byte_lt b3
  omega

theorem toNat_ofNat_byte (n : Nat) : (UInt8.ofNat n).toNat = n % 256 := rfl

theorem bigEndian4_value (n : Nat) (h : n < 2 ^ 32) :
    (UInt8.ofNat (n / 2 ^ 24)).toNat * 2 ^ 24 + (UInt8.ofNat (n / 2 ^ 16)).toNat * 2 ^ 16
      + (UInt8.ofNat (n / 2 ^ 8)).toNat * 2 ^ 8 + (UInt8.ofNat n).toNat = n := by
  simp only [toNat_ofNat_byte]
  norm_num at h ⊢
  omega

theorem vehicleHandshake_cons4 (b0 b1 b2 b3 : UInt8) (rest : List UInt8) :
    vehicleHandshake (b0 :: b1 :: b2 :: b3 :: rest)
      = .ok (Int.ofNat (b0.toNat * 2 ^ 24 + b1.toNat * 2 ^ 16 + b2.toNat * 2 ^ 8 + b3.toNat),
          rest) := by
  simp [vehicleHandshake, readID_cons4, GoResult.bind, sliceFrom]

theorem dispatcherHandshake_cons8 (a0 a1 a2 a3 b0 b1 b2 b3 : UInt8) (rest : List UInt8) :
    dispatcherHandshake (a0 :: a1 :: a2 :: a3 :: b0 :: b1 :: b2 :: b3 :: rest)
      = .ok (Int.ofNat (a0.toNat * 2 ^ 24 + a1.toNat * 2 ^ 16 + a2.toNat * 2 ^ 8 + a3.toNat),
          Int.ofNat (b0.toNat * 2 ^ 24 + b1.toNat * 2 ^ 16 + b2.toNat * 2 ^ 8 + b3.toNat),
          rest) := by
  simp [dispatcherHandshake, readID_cons4, readID_at4, GoResult.bind, sliceFrom]

/-- Claim C2. For every vehicle handshake datagram of at least 4 bytes the ingress
handler decodes the vehicle id as the unsigned big-endian value of bytes 0..3, a
number below `2^32`, and the password as the bytes from offset 4 on, and hands
exactly this pair to `SendInfoStream` and `SendVideoStream`; hence an id below
`2^32` written as four big-endian bytes in front of a password decodes back to
that id and password. -/
theorem vehicle_handshake_decode (data : List UInt8) (h : 4 ≤ data.length) :
    ∃ id : Nat,
      id = data[0].toNat * 2 ^ 24 + data[1].toNat * 2 ^ 16 + data[2].toNat * 2 ^ 8
            + data[3].toNat ∧
      id < 2 ^ 32 ∧
      vehicleHandshake data = .ok ((id : Int), data.drop 4) ∧
      VehicleDelivery.handleConnection (.ofDatagram data)
        = ⟨[.goGetStream .info, .goGetStream .video,
            .goSendInfoStream (id : Int) (data.drop 4),
            .goSendVideoStream (id : Int) (data.drop 4)], .serving⟩ ∧
      ∀ (n : Nat) (pw : List UInt8), n < 2 ^ 32 →
        vehicleHandshake (bigEndian4 n ++ pw) = .ok ((n : Int), pw) := by
  match data, h with
  | b0 :: b1 :: b2 :: b3 :: rest, _ =>
    have hv := vehicleHandshake_cons4 b0 b1 b2 b3 rest
    refine ⟨_, rfl, ?_, ?_, ?_, ?_⟩
    · simpa only [List.getElem_cons_zero, List.getElem_cons_succ] using be_value_lt b0 b1 b2 b3
    · simpa using hv
    · simp only [VehicleDelivery.handleConnection, ConnInput.ofDatagram]
      simp [hv]
    · intro n pw hn
      have hr := vehicleHandshake_cons4 (UInt8.ofNat (n / 2 ^ 24)) (UInt8.ofNat (n / 2 ^ 16))
        (UInt8.ofNat (n / 2 ^ 8)) (UInt8.ofNat n) pw
      rw [bigEndian4_value n hn] at hr
      exact hr

/-- The client datagram `00 00 00 02` followed by `"example"` has at least 4
bytes and decodes to vehicle id 2 and password `"example"`. -/
theorem vehicle_handshake_decode_witness :
    4 ≤ ([0, 0, 0, 2] ++ examplePassword).length ∧
      vehicleHandshake ([0, 0, 0, 2] ++ examplePassword) = .ok (2, examplePassword) := by
  refine ⟨by decide, ?_⟩
  obtain ⟨id, hid, _, hv, _, _⟩ :=
    vehicle_handshake_decode ([0, 0, 0, 2] ++ examplePassword) (by decide)
  rw [hv, hid]
  decide

/-- Claim C3. For every dispatcher handshake datagram of at least 8 bytes the
egress handler decodes the target vehicle id as the unsigned big-endian value of
bytes 0..3, the dispatcher id as that of bytes 4..7 and the password as the bytes
from offset 8 on, and hands them to `GetInfoStream` and `GetVideoStream` with the
vehicle id first and the dispatcher id second. -/
theorem dispatcher_handshake_decode (data : List UInt8) (h : 8 ≤ data.length) :
    ∃ vid did : Nat,
      vid = data[0].toNat * 2 ^ 24 + data[1].toNat * 2 ^ 16 + data[2].toNat * 2 ^ 8
            + data[3].toNat ∧
      did = data[4].toNat * 2 ^ 24 + data[5].toNat * 2 ^ 16 + data[6].toNat * 2 ^ 8
            + data[7].toNat ∧
      dispatcherHandshake data = .ok ((vid : Int), (did : Int), data.drop 8) ∧
      DispatcherDelivery.handleConnection (.ofDatagram data)
        = ⟨[.goSendStream .info, .goSendStream .video,
            .goGetInfoStream (vid : Int) (did : Int) (data.drop 8),
            .goGetVideoStream (vid : Int) (did : Int) (data.drop 8)], .serving⟩ := by
  match data, h with
  | a0 :: a1 :: a2 :: a3 :: b0 :: b1 :: b2 :: b3 :: rest, _ =>
    have hv := dispatcherHandshake_cons8 a0 a1 a2 a3 b0 b1 b2 b3 rest
    refine ⟨_, _, rfl, rfl, ?_, ?_⟩
    · simpa using hv
    · simp only [DispatcherDelivery.handleConnection, ConnInput.ofDatagram]
      simp [hv]

/-- The client datagram `00 00 00 02 | 00 00 00 02 | "example"` has at least 8
bytes and decodes to vehicle 2, dispatcher 2 and password `"example"`. -/
theorem dispatcher_handshake_decode_witness :
    8 ≤ ([0, 0, 0, 2] ++ [0, 0, 0, 2] ++ examplePassword).length ∧
      dispatcherHandshake ([0, 0, 0, 2] ++ [0, 0, 0, 2] ++ examplePassword)
        = .ok (2, 2, examplePassword) := by
  refine ⟨by decide, ?_⟩
  obtain ⟨vid, did, hvid, hdid, hv, _⟩ :=
    dispatcher_handshake_decode ([0, 0, 0, 2] ++ [0, 0, 0, 2] ++ examplePassword) (by decide)
  rw [hv, hvid, hdid]
  decide

/-- Claim C4, evaluated on the 3-byte datagram `00 00 02`: the ingress handler
logs and closes the connection but does not return; it goes on to index the
datagram and panics at `data[3]`, an index out of range. -/
theorem vehicle_short_datagram_panics :
    VehicleDelivery.handleConnection (.ofDatagram [0, 0, 2])
      = ⟨[.logError, .closeWithError], .panicked (.indexOutOfRange 3 3)⟩ := by
  decide

/-- Claim C5, evaluated on the 7-byte datagram `00 00 00 02 00 00 00`: the egress
handler only logs; it neither closes the connection nor returns, goes on to index
the datagram and panics at `data[7]`, an index out of range. -/
theorem dispatcher_short_datagram_panics :
    DispatcherDelivery.handleConnection (.ofDatagram [0, 0, 0, 2, 0, 0, 0])
      = ⟨[.logError], .panicked (.indexOutOfRange 7 7)⟩ := by
  decide

theorem vehicle_short_datagram_always_panics (data : List UInt8) (h : data.length < 4) :
    ∃ i, VehicleDelivery.handleConnection (.ofDatagram data)
      = ⟨[.logError, .closeWithError], .panicked (.indexOutOfRange i data.length)⟩ := by
  match data, h with
  | [], _ => exact ⟨0, rfl⟩
  | [_], _ => exact ⟨1, rfl⟩
  | [_, _], _ => exact ⟨2, rfl⟩
  | [_, _, _], _ => exact ⟨3, rfl⟩

theorem dispatcher_short_datagram_always_panics (data : List UInt8) (h : data.length < 8) :
    ∃ i, DispatcherDelivery.handleConnection (.ofDatagram data)
      = ⟨[.logError], .panicked (.indexOutOfRange i data.length)⟩ := by
  match data, h with
  | [], _ => exact ⟨0, rfl⟩
  | [_], _ => exact ⟨1, rfl⟩
  | [_, _], _ => exact ⟨2, rfl⟩
  | [_, _, _], _ => exact ⟨3, rfl⟩
  | [_, _, _, _], _ => exact ⟨4, rfl⟩
  | [_, _, _, _, _], _ => exact ⟨5, rfl⟩
  | [_, _, _, _, _, _], _ => exact ⟨6, rfl⟩
  | [_, _, _, _, _, _, _], _ => exact ⟨7, rfl⟩

/-! ## Attach-time authorization -/

theorem grants_check_iff (d : Dispatcher) (v : Int) :
    (d.GrantsType == AllGrants || (d.GrantsType == ListGrants && d.Grants.contains v)) = true ↔
      (d.GrantsType = AllGrants ∨ (d.GrantsType = ListGrants ∧ v ∈ d.Grants)) := by
  simp

theorem GetVideoStream_run_of_returned (p : GetProc) (h : p.pc = .returned)
    (bs : List BroadcastService) : GetVideoStream.run p bs = p := by
  induction bs with
  | nil => rfl
  | cons b bs ih =>
    have hs : (GetVideoStream.step b p).2 = p := by simp [GetVideoStream.step, h]
    simp [GetVideoStream.run, hs, ih]

theorem GetInfoStream_run_of_returned (p : GetProc) (h : p.pc = .returned)
    (bs : List BroadcastService) : GetInfoStream.run p bs = p := by
  induction bs with
  | nil => rfl
  | cons b bs ih =>
    have hs : (GetInfoStream.step b p).2 = p := by simp [GetInfoStream.step, h]
    simp [GetInfoStream.run, hs, ih]

theorem GetVideoStream_start_denied (deps : Deps) (b : BroadcastService) (v did : Int)
    (pw : List UInt8) (d : Dispatcher) (hd : deps.GetDispatcher did = .found d)
    (hp : CheckPassword deps pw d.PasswordHash = true)
    (hg : ¬ (d.GrantsType = AllGrants ∨ (d.GrantsType = ListGrants ∧ v ∈ d.Grants))) :
    GetVideoStream.start deps b v did pw = ⟨.returned, [], [.ErrAccessDenied]⟩ := by
  have hg' := (grants_check_iff d v).not.mpr hg
  simp only [Bool.not_eq_true] at hg'
  simp only [GetVideoStream.start, hd, hp, hg']
  rfl

theorem GetVideoStream_start_wrong_password (deps : Deps) (b : BroadcastService) (v did : Int)
    (pw : List UInt8) (d : Dispatcher) (hd : deps.GetDispatcher did = .found d)
    (hp : ¬ CheckPassword deps pw d.PasswordHash = true) :
    GetVideoStream.start deps b v did pw
      = ⟨.returned, [], [.wrongPassword .ErrAccessDenied]⟩ := by
  simp only [Bool.not_eq_true] at hp
  simp only [GetVideoStream.start, hd, hp]
  rfl

theorem GetInfoStream_start_denied (deps : Deps) (b : BroadcastService) (v did : Int)
    (pw : List UInt8) (d : Dispatcher) (hd : deps.GetDispatcher did = .found d)
    (hp : CheckPassword deps pw d.PasswordHash = true)
    (hg : ¬ (d.GrantsType = AllGrants ∨ (d.GrantsType = ListGrants ∧ v ∈ d.Grants))) :
    GetInfoStream.start deps b v did pw = ⟨.returned, [], [.ErrAccessDenied]⟩ := by
  have hg' := (grants_check_iff d v).not.mpr hg
  simp only [Bool.not_eq_true] at hg'
  simp only [GetInfoStream.start, hd, hp, hg']
  rfl

theorem GetInfoStream_start_wrong_password (deps : Deps) (b : BroadcastService) (v did : Int)
    (pw : List UInt8) (d : Dispatcher) (hd : deps.GetDispatcher did = .found d)
    (hp : ¬ CheckPassword deps pw d.PasswordHash = true) :
    GetInfoStream.start deps b v did pw
      = ⟨.returned, [], [.wrongPassword .ErrAccessDenied]⟩ := by
  simp only [Bool.not_eq_true] at hp
  simp only [GetInfoStream.start, hd, hp]
  rfl

/-- Claim C1. For every dispatcher record `d`, vehicle id `v` and presented
password `pw`, and whatever states the service goes through, `GetVideoStream` and
`GetInfoStream` send a frame on the dispatcher's stream only if `pw` verifies
against `d.PasswordHash` and `d.GrantsType` is `all`, or is `list` with `v` among
`d.Grants`; when the password verifies and that grant condition fails, each of
them sends no frame, sends `ErrAccessDenied` on the error channel and returns. -/
theorem get_stream_requires_grant (deps : Deps) (b : BroadcastService) (v did : Int)
    (pw : List UInt8) (d : Dispatcher) (hd : deps.GetDispatcher did = .found d)
    (bs : List BroadcastService) :
    ((GetVideoStream.run (GetVideoStream.start deps b v did pw) bs).stream ≠ [] →
        CheckPassword deps pw d.PasswordHash = true ∧
          (d.GrantsType = AllGrants ∨ (d.GrantsType = ListGrants ∧ v ∈ d.Grants))) ∧
    ((GetInfoStream.run (GetInfoStream.start deps b v did pw) bs).stream ≠ [] →
        CheckPassword deps pw d.PasswordHash = true ∧
          (d.GrantsType = AllGrants ∨ (d.GrantsType = ListGrants ∧ v ∈ d.Grants))) ∧
    (CheckPassword deps pw d.PasswordHash = true →
      ¬ (d.GrantsType = AllGrants ∨ (d.GrantsType = ListGrants ∧ v ∈ d.Grants)) →
        GetVideoStream.run (GetVideoStream.start deps b v did pw) bs
            = ⟨.returned, [], [.ErrAccessDenied]⟩ ∧
          GetInfoStream.run (GetInfoStream.start deps b v did pw) bs
            = ⟨.returned, [], [.ErrAccessDenied]⟩) := by
  have hdenied : CheckPassword deps pw d.PasswordHash = true →
      ¬ (d.GrantsType = AllGrants ∨ (d.GrantsType = ListGrants ∧ v ∈ d.Grants)) →
        GetVideoStream.run (GetVideoStream.start deps b v did pw) bs
            = ⟨.returned, [], [.ErrAccessDenied]⟩ ∧
          GetInfoStream.run (GetInfoStream.start deps b v did pw) bs
            = ⟨.returned, [], [.ErrAccessDenied]⟩ := by
    intro hp hg
    rw [GetVideoStream_start_denied deps b v did pw d hd hp hg,
      GetInfoStream_start_denied deps b v did pw d hd hp hg]
    exact ⟨GetVideoStream_run_of_returned _ rfl bs, GetInfoStream_run_of_returned _ rfl bs⟩
  refine ⟨?_, ?_, hdenied⟩
  · intro hne
    by_cases hp : CheckPassword deps pw d.PasswordHash = true
    · by_cases hg : d.GrantsType = AllGrants ∨ (d.GrantsType = ListGrants ∧ v ∈ d.Grants)
      · exact ⟨hp, hg⟩
      · rw [(hdenied hp hg).1] at hne
        exact absurd rfl hne
    · rw [GetVideoStream_start_wrong_password deps b v did pw d hd hp,
        GetVideoStream_run_of_returned _ rfl bs] at hne
      exact absurd rfl hne
  · intro hne
    by_cases hp : CheckPassword deps pw d.PasswordHash = true
    · by_cases hg : d.GrantsType = AllGrants ∨ (d.GrantsType = ListGrants ∧ v ∈ d.Grants)
      · exact ⟨hp, hg⟩
      · rw [(hdenied hp hg).2] at hne
        exact absurd rfl hne
    · rw [GetInfoStream_start_wrong_password deps b v did pw d hd hp,
        GetInfoStream_run_of_returned _ rfl bs] at hne
      exact absurd rfl hne

/-- Dispatcher 3 of the demo store has grants `list`, `[3]`; subscribing to the
live vehicle 2 with the right password, each call returns with `ErrAccessDenied`
and no frame, while dispatcher 4 (grants `list`, `[2, 5]`) is sent the buffered
frame. -/
theorem get_stream_requires_grant_witness :
    demoDeps.GetDispatcher 3 = .found ⟨3, ListGrants, [3], examplePassword⟩ ∧
    (GetVideoStream.run (GetVideoStream.start demoDeps liveService 2 3 examplePassword)
        [liveService, liveService] = ⟨.returned, [], [.ErrAccessDenied]⟩ ∧
      GetInfoStream.run (GetInfoStream.start demoDeps liveService 2 3 examplePassword)
        [liveService, liveService] = ⟨.returned, [], [.ErrAccessDenied]⟩) ∧
    (GetVideoStream.run (GetVideoStream.start demoDeps liveService 2 4 examplePassword)
        [liveService]).stream = [[7]] :=
  ⟨rfl, (get_stream_requires_grant demoDeps liveService 2 3 examplePassword
      ⟨3, ListGrants, [3], examplePassword⟩ rfl [liveService, liveService]).2.2
      (by decide) (by decide), by decide⟩

/-! ## Replacing a producer -/

/-- Claim C6, evaluated on vehicle 2 publishing twice (first `P1`, with a
subscriber `A` attached, then `P2`).  The second publish stores a fresh channel
(address 2) for vehicle 2, and the channel registered before (address 0) is left
open: `P1` still sends a frame on it and `A` receives that frame instead of
reaching end-of-stream.  The same holds on the info registry. -/
theorem republish_keeps_old_channel_open :
    (let (b1, P1) := SendVideoStream.start demoDeps NewBroadcastService 2 examplePassword
     let A := GetVideoStream.start demoDeps b1 2 2 examplePassword
     let (b2, P2) := SendVideoStream.start demoDeps b1 2 examplePassword
     let (b3, P1') := SendVideoStream.step b2 P1 (some [7])
     let (_, A') := GetVideoStream.step b3 A
     b1.videoStreams 2 = some 0 ∧ P1.pc = .looping 0 ∧ A.pc = .ranging 0 ∧
     P2.pc = .looping 2 ∧ b2.videoStreams 2 = some 2 ∧
     b2.heap[0]? = some ⟨100, [], false⟩ ∧
     P1'.pc = .looping 0 ∧ b3.heap[0]? = some ⟨100, [[7]], false⟩ ∧
     A'.pc = .ranging 0 ∧ A'.stream = [[7]]) ∧
    (let (b1, P1) := SendInfoStream.start demoDeps NewBroadcastService 2 examplePassword
     let A := GetInfoStream.start demoDeps b1 2 2 examplePassword
     let (b2, P2) := SendInfoStream.start demoDeps b1 2 examplePassword
     let (b3, P1') := SendInfoStream.step demoDeps b2 P1 (some emptyObject)
     let (_, A') := GetInfoStream.step b3 A
     b1.infoStreams 2 = some 0 ∧ P1.pc = .looping 0 ∧ A.pc = .ranging 0 ∧
     P2.pc = .looping 2 ∧ b2.infoStreams 2 = some 2 ∧
     b2.heap[0]? = some ⟨100, [], false⟩ ∧
     P1'.pc = .looping 0 ∧ b3.heap[0]? = some ⟨100, [emptyObject], false⟩ ∧
     A'.pc = .ranging 0 ∧ A'.stream = [emptyObject]) := by
  decide

/-- Claim C7, evaluated on vehicle 2 publishing twice (`P1`, then `P2`) followed
by the end of `P1`'s input.  `P1`'s cleanup deletes the registry entry of vehicle
2, which by then is `P2`'s: `P2` is still in its loop on its open channel
(address 2), yet a subscribe for vehicle 2 returns `ErrNotFound`.  The same
holds on the info registry. -/
theorem old_producer_cleanup_deletes_new_entry :
    (let (b1, P1) := SendVideoStream.start demoDeps NewBroadcastService 2 examplePassword
     let (b2, P2) := SendVideoStream.start demoDeps b1 2 examplePassword
     let (b3, P1') := SendVideoStream.step b2 P1 none
     b2.videoStreams 2 = some 2 ∧ P2.pc = .looping 2 ∧ P1'.pc = .returned ∧
     b3.videoStreams 2 = none ∧ b3.heap[2]? = some ⟨100, [], false⟩ ∧
     GetVideoStream.start demoDeps b3 2 2 examplePassword
       = ⟨.returned, [], [.ErrNotFound]⟩) ∧
    (let (b1, P1) := SendInfoStream.start demoDeps NewBroadcastService 2 examplePassword
     let (b2, P2) := SendInfoStream.start demoDeps b1 2 examplePassword
     let (b3, P1') := SendInfoStream.step demoDeps b2 P1 none
     b2.infoStreams 2 = some 2 ∧ P2.pc = .looping 2 ∧ P1'.pc = .returned ∧
     b3.infoStreams 2 = none ∧ b3.heap[2]? = some ⟨100, [], false⟩ ∧
     GetInfoStream.start demoDeps b3 2 2 examplePassword
       = ⟨.returned, [], [.ErrNotFound]⟩) := by
  decide

/-! ## Bounded channels -/

theorem Chan_send_bounded (c c1 : Chan) (d : Frame) (h : c.Bounded)
    (hs : c.send d = .done c1) : c1.Bounded := by
  unfold Chan.send at hs
  split at hs
  · exact absurd hs (by simp)
  · split at hs
    · rename_i hlt
      injection hs with hs
      subst hs
      obtain ⟨hcap, _⟩ := h
      refine ⟨hcap, ?_⟩
      simp only [List.length_append, List.length_singleton]
      omega
    · exact absurd hs (by simp)

theorem Chan_recv_bounded (c c1 : Chan) (r : Option Frame) (h : c.Bounded)
    (hs : c.recv = .done (r, c1)) : c1.Bounded := by
  unfold Chan.recv at hs
  split at hs
  · rename_i d rest hbuf
    injection hs with hs
    injection hs with _ hs
    subst hs
    obtain ⟨hcap, hlen⟩ := h
    refine ⟨hcap, ?_⟩
    rw [hbuf] at hlen
    simp only [List.length_cons] at hlen
    show rest.length ≤ 100
    omega
  · split at hs
    · injection hs with hs
      injection hs with _ hs
      subst hs
      exact h
    · exact absurd hs (by simp)

theorem Chan_close_bounded (c c1 : Chan) (h : c.Bounded)
    (hs : c.close = .done c1) : c1.Bounded := by
  unfold Chan.close at hs
  split at hs
  · exact absurd hs (by simp)
  · injection hs with hs
    subst hs
    exact h

theorem Chan_enqueue_bounded (c c1 : Chan) (d : Frame) (h : c.Bounded)
    (hs : c.enqueue d = .done c1) : c1.Bounded := by
  unfold Chan.enqueue at hs
  split at hs
  · rename_i c2 hsend
    injection hs with hs
    subst hs
    exact Chan_send_bounded c _ d h hsend
  · exact absurd hs (by simp)
  · split at hs
    · rename_i r c2 hrecv
      exact Chan_send_bounded c2 c1 d (Chan_recv_bounded c c2 r h hrecv) hs
    · exact absurd hs (by simp)
    · exact absurd hs (by simp)

theorem BroadcastService_onChan_bounded (b b1 : BroadcastService) (ch : Nat)
    (op : Chan → ChanOp Chan) (hop : ∀ c c1, c.Bounded → op c = .done c1 → c1.Bounded)
    (h : b.Bounded) (hs : b.onChan ch op = .done b1) : b1.Bounded := by
  unfold BroadcastService.onChan at hs
  split at hs
  · exact absurd hs (by simp)
  · rename_i c hc
    split at hs
    · rename_i c1 hop1
      injection hs with hs
      subst hs
      obtain ⟨hheap, hv, hi⟩ := h
      have hcb : c.Bounded := hheap c (List.getElem?_mem hc)
      refine ⟨?_, ?_, ?_⟩
      · intro x hx
        rcases List.mem_or_eq_of_mem_set hx with hx | hx
        · exact hheap x hx
        · subst hx
          exact hop c _ hcb hop1
      · intro v a ha
        simpa using hv v a ha
      · intro v a ha
        simpa using hi v a ha
    · exact absurd hs (by simp)
    · exact absurd hs (by simp)

theorem BroadcastService_make_bounded (b : BroadcastService) (h : b.Bounded) :
    (b.make 100).1.Bounded ∧ (b.make 100).2 < (b.make 100).1.heap.length := by
  obtain ⟨hheap, hv, hi⟩ := h
  refine ⟨⟨?_, ?_, ?_⟩, ?_⟩
  · intro x hx
    simp only [BroadcastService.make, List.mem_append, List.mem_singleton] at hx
    rcases hx with hx | hx
    · exact hheap x hx
    · subst hx
      exact ⟨rfl, by simp [Chan.make]⟩
  · intro v a ha
    have := hv v a ha
    simp only [BroadcastService.make, List.length_append, List.length_singleton]
    omega
  · intro v a ha
    have := hi v a ha
    simp only [BroadcastService.make, List.length_append, List.length_singleton]
    omega
  · simp [BroadcastService.make]

theorem BroadcastService_store_video_bounded (b : BroadcastService) (v : Int) (a : Nat)
    (h : b.Bounded) (ha : a < b.heap.length) :
    BroadcastService.Bounded { b with videoStreams := b.videoStreams.Store v a } := by
  obtain ⟨hheap, hv, hi⟩ := h
  refine ⟨hheap, ?_, hi⟩
  intro v1 a1 h1
  simp only [SyncMap.Store] at h1
  split at h1
  · injection h1 with h1
    subst h1
    exact ha
  · exact hv v1 a1 h1

theorem BroadcastService_store_info_bounded (b : BroadcastService) (v : Int) (a : Nat)
    (h : b.Bounded) (ha : a < b.heap.length) :
    BroadcastService.Bounded { b with infoStreams := b.infoStreams.Store v a } := by
  obtain ⟨hheap, hv, hi⟩ := h
  refine ⟨hheap, hv, ?_⟩
  intro v1 a1 h1
  simp only [SyncMap.Store] at h1
  split at h1
  · injection h1 with h1
    subst h1
    exact ha
  · exact hi v1 a1 h1

theorem BroadcastService_delete_video_bounded (b : BroadcastService) (v : Int)
    (h : b.Bounded) :
    BroadcastService.Bounded { b with videoStreams := b.videoStreams.Delete v } := by
  obtain ⟨hheap, hv, hi⟩ := h
  refine ⟨hheap, ?_, hi⟩
  intro v1 a1 h1
  simp only [SyncMap.Delete] at h1
  split at h1
  · exact absurd h1 (by simp)
  · exact hv v1 a1 h1

theorem BroadcastService_delete_info_bounded (b : BroadcastService) (v : Int)
    (h : b.Bounded) :
    BroadcastService.Bounded { b with infoStreams := b.infoStreams.Delete v } := by
  obtain ⟨hheap, hv, hi⟩ := h
  refine ⟨hheap, hv, ?_⟩
  intro v1 a1 h1
  simp only [SyncMap.Delete] at h1
  split at h1
  · exact absurd h1 (by simp)
  · exact hi v1 a1 h1

theorem SendVideoStream_start_bounded (deps : Deps) (b : BroadcastService) (v : Int)
    (pw : List UInt8) (h : b.Bounded) : (SendVideoStream.start deps b v pw).1.Bounded := by
  unfold SendVideoStream.start
  split
  · exact h
  · exact h
  · exact h
  · split
    · exact h
    · have h1 := BroadcastService_make_bounded b h
      have h2 := BroadcastService_make_bounded _ h1.1
      simp only [SyncMap.LoadOrStore]
      split
      · rename_i m ch heq
        split at heq
        · exact absurd heq (by simp)
        · simp only [Prod.mk.injEq] at heq
          obtain ⟨hm, hch, _⟩ := heq
          subst hm hch
          exact BroadcastService_store_video_bounded _ v _ h1.1 h1.2
      · exact BroadcastService_store_video_bounded _ v _ h2.1 h2.2

theorem SendInfoStream_start_bounded (deps : Deps) (b : BroadcastService) (v : Int)
    (pw : List UInt8) (h : b.Bounded) : (SendInfoStream.start deps b v pw).1.Bounded := by
  unfold SendInfoStream.start
  split
  · exact h
  · exact h
  · exact h
  · split
    · exact h
    · have h1 := BroadcastService_make_bounded b h
      have h2 := BroadcastService_make_bounded _ h1.1
      simp only [SyncMap.LoadOrStore]
      split
      · rename_i m ch heq
        split at heq
        · exact absurd heq (by simp)
        · simp only [Prod.mk.injEq] at heq
          obtain ⟨hm, hch, _⟩ := heq
          subst hm hch
          exact BroadcastService_store_info_bounded _ v _ h1.1 h1.2
      · exact BroadcastService_store_info_bounded _ v _ h2.1 h2.2

theorem SendVideoStream_step_bounded (b : BroadcastService) (p : SendProc) (ev : Option Frame)
    (h : b.Bounded) : (SendVideoStream.step b p ev).1.Bounded := by
  unfold SendVideoStream.step
  split
  · split
    · rename_i d
      split
      · rename_i b1 hb1
        exact BroadcastService_onChan_bounded b b1 _ _
          (fun c c1 hc h1 => Chan_enqueue_bounded c c1 d hc h1) h hb1
      · exact h
      · exact h
    · split
      · rename_i b1 hb1
        exact BroadcastService_delete_video_bounded _ _
          (BroadcastService_onChan_bounded b b1 _ _ Chan_close_bounded h hb1)
      · exact h
      · exact h
  · exact h

theorem SendInfoStream_deferred_bounded (b : BroadcastService) (p : SendProc) (ch : Nat)
    (h : b.Bounded) : (SendInfoStream.deferred b p ch).1.Bounded := by
  have h1 := BroadcastService_delete_info_bounded b p.vehicleID h
  unfold SendInfoStream.deferred
  dsimp only
  split
  · rename_i b2 hb2
    exact BroadcastService_onChan_bounded _ b2 _ _ Chan_close_bounded h1 hb2
  · exact h1
  · exact h1

theorem overwritten_length (w : List UInt8) (f : Frame) :
    (overwritten w f).length = f.length := by
  simp only [overwritten, List.length_append, List.length_take, List.length_drop]
  omega

theorem overwriteShared_length (w : List UInt8) (n : Nat) (q : List Frame) :
    (overwriteShared w n q).length = q.length := by
  simp only [overwriteShared, List.length_append, List.length_take, List.length_map,
    List.length_drop]
  omega

theorem BroadcastService_setBacking_bounded (b : BroadcastService) (ch : Nat) (a : Backing)
    (h : b.Bounded) : (b.setBacking ch a).Bounded := h

theorem BroadcastService_appendBuffer_bounded (deps : Deps) (b : BroadcastService) (ch : Nat)
    (buffer : List UInt8) (h : b.Bounded) : (b.appendBuffer deps ch buffer).Bounded := by
  unfold BroadcastService.appendBuffer
  split
  · split
    · exact h
    · rename_i c hc
      obtain ⟨hheap, hv, hi⟩ := h
      have hcb : c.Bounded := hheap c (List.getElem?_mem hc)
      refine ⟨?_, ?_, ?_⟩
      · intro x hx
        rcases List.mem_or_eq_of_mem_set hx with hx | hx
        · exact hheap x hx
        · subst hx
          exact ⟨hcb.1, by
            show (overwriteShared buffer (b.backing ch).frames c.buf).length ≤ 100
            rw [overwriteShared_length]
            exact hcb.2⟩
      · intro v a ha
        simpa using hv v a ha
      · intro v a ha
        simpa using hi v a ha
  · exact h

theorem BroadcastService_sendBuffer_bounded (b b1 : BroadcastService) (ch : Nat)
    (buffer : List UInt8) (h : b.Bounded) (hs : b.sendBuffer ch buffer = .done b1) :
    b1.Bounded := by
  unfold BroadcastService.sendBuffer at hs
  split at hs
  · rename_i b2 hb2
    injection hs with hs
    subst hs
    exact BroadcastService_setBacking_bounded _ _ _
      (BroadcastService_onChan_bounded b b2 _ _
        (fun c c1 hc h1 => Chan_enqueue_bounded c c1 _ hc h1) h hb2)
  · cases hs
  · cases hs

theorem SendInfoStream_step_bounded (deps : Deps) (b : BroadcastService) (p : SendProc)
    (ev : Option Frame) (h : b.Bounded) : (SendInfoStream.step deps b p ev).1.Bounded := by
  unfold SendInfoStream.step
  split
  · rename_i ch _
    split
    · exact SendInfoStream_deferred_bounded b p _ h
    · rename_i d
      have h0 := BroadcastService_appendBuffer_bounded deps b ch (p.buffer ++ d) h
      dsimp only
      split
      · exact h0
      · exact h0
      · rename_i b1 hb1
        have hb : b1.Bounded := by
          split at hb1
          · exact BroadcastService_sendBuffer_bounded _ b1 _ _ h0 hb1
          · injection hb1 with hb1
            subst hb1
            exact h0
        split
        · exact SendInfoStream_deferred_bounded b1 _ _ hb
        · exact hb
  · exact h

theorem GetVideoStream_step_bounded (b : BroadcastService) (p : GetProc)
    (h : b.Bounded) : (GetVideoStream.step b p).1.Bounded := by
  unfold GetVideoStream.step
  split
  · split
    · exact h
    · rename_i chan hchan
      split
      · rename_i d chan1 hrecv
        obtain ⟨hheap, hv, hi⟩ := h
        refine ⟨?_, ?_, ?_⟩
        · intro x hx
          rcases List.mem_or_eq_of_mem_set hx with hx | hx
          · exact hheap x hx
          · subst hx
            exact Chan_recv_bounded chan _ _ (hheap chan (List.getElem?_mem hchan)) hrecv
        · intro v a ha
          simpa using hv v a ha
        · intro v a ha
          simpa using hi v a ha
      · exact h
      · exact h
      · exact h
  · exact h

theorem GetInfoStream_step_eq : GetInfoStream.step = GetVideoStream.step := rfl

theorem Call_apply_bounded (deps : Deps) (b : BroadcastService) (call : Call)
    (h : b.Bounded) : (call.apply deps b).Bounded := by
  cases call with
  | sendStart k v pw =>
    cases k
    · exact SendInfoStream_start_bounded deps b v pw h
    · exact SendVideoStream_start_bounded deps b v pw h
  | sendStep k p ev =>
    cases k
    · exact SendInfoStream_step_bounded deps b p ev h
    · exact SendVideoStream_step_bounded b p ev h
  | getStep k p =>
    cases k
    · exact GetVideoStream_step_bounded b p h
    · exact GetVideoStream_step_bounded b p h

theorem runCalls_bounded (deps : Deps) (calls : List Call) (b : BroadcastService)
    (h : b.Bounded) : (runCalls deps b calls).Bounded := by
  induction calls generalizing b with
  | nil => exact h
  | cons call calls ih => exact ih _ (Call_apply_bounded deps b call h)

theorem NewBroadcastService_bounded : NewBroadcastService.Bounded := by
  refine ⟨?_, ?_, ?_⟩
  · intro c hc
    simp [NewBroadcastService] at hc
  · intro v a ha
    simp [NewBroadcastService] at ha
  · intro v a ha
    simp [NewBroadcastService] at ha

/-- Claim C10. Whatever calls the producers and subscribers of either kind make
on a new service, in whatever order and from whatever local state, after every
call each channel of the service holds at most 100 frames; in particular the
channel registered for any vehicle in the video or the info registry exists and
holds at most 100 frames. -/
theorem queued_frames_at_most_100 (deps : Deps) (calls : List Call) :
    (∀ c ∈ (runCalls deps NewBroadcastService calls).heap, c.buf.length ≤ 100) ∧
    (∀ v a, ((runCalls deps NewBroadcastService calls).videoStreams v = some a ∨
          (runCalls deps NewBroadcastService calls).infoStreams v = some a) →
        ∃ c, (runCalls deps NewBroadcastService calls).heap[a]? = some c ∧
          c.cap = 100 ∧ c.buf.length ≤ 100) := by
  obtain ⟨hheap, hv, hi⟩ := runCalls_bounded deps calls _ NewBroadcastService_bounded
  refine ⟨fun c hc => (hheap c hc).2, ?_⟩
  intro v a ha
  have hlt : a < (runCalls deps NewBroadcastService calls).heap.length := by
    rcases ha with ha | ha
    · exact hv v a ha
    · exact hi v a ha
  refine ⟨(runCalls deps NewBroadcastService calls).heap[a], ?_, ?_⟩
  · exact List.getElem?_eq_getElem hlt
  · exact hheap _ (List.getElem_mem hlt)

/-! ## One channel, several subscribers -/

theorem BroadcastService_queue_of_get (b : BroadcastService) (ch : Nat) (c : Chan)
    (h : b.heap[ch]? = some c) : b.queue ch = c.buf := by
  simp [BroadcastService.queue, h]

theorem heap_set_get (heap : List Chan) (ch : Nat) (c c1 : Chan) (h : heap[ch]? = some c) :
    (heap.set ch c1)[ch]? = some c1 := by
  have hlt : ch < heap.length := by
    by_contra hge
    rw [List.getElem?_eq_none (by omega)] at h
    exact absurd h (by simp)
  simp [List.getElem?_set, hlt]

theorem GetVideoStream_step_on (b : BroadcastService) (p : GetProc) (ch : Nat) (c : Chan)
    (hpc : p.pc = .ranging ch) (hc : b.heap[ch]? = some c) (hb : c.Bounded) :
    ∃ c1, (GetVideoStream.step b p).1.heap[ch]? = some c1 ∧ c1.Bounded ∧
      c1.closed = c.closed ∧
      (∀ a, (GetVideoStream.step b p).2.pc = .ranging a → a = ch) ∧
      ((c1.buf = c.buf ∧ (GetVideoStream.step b p).2.stream = p.stream) ∨
        (∃ d, c.buf = d :: c1.buf ∧ (GetVideoStream.step b p).2.stream = p.stream ++ [d])) := by
  unfold GetVideoStream.step
  simp only [hpc, hc]
  cases hbuf : c.buf with
  | nil =>
    cases hcl : c.closed with
    | false =>
      refine ⟨c, ?_, hb, hcl, ?_, ?_⟩
      · simp [Chan.recv, hbuf, hcl, hc]
      · intro a ha
        simp [Chan.recv, hbuf, hcl, hpc] at ha
        exact ha.symm
      · left
        simp [Chan.recv, hbuf, hcl]
    | true =>
      refine ⟨c, ?_, hb, hcl, ?_, ?_⟩
      · simp [Chan.recv, hbuf, hcl, hc]
      · intro a ha
        simp [Chan.recv, hbuf, hcl] at ha
      · left
        simp [Chan.recv, hbuf, hcl]
  | cons d rest =>
    refine ⟨{ c with buf := rest }, ?_, ?_, rfl, ?_, ?_⟩
    · simp [Chan.recv, hbuf, heap_set_get b.heap ch c _ hc]
    · refine ⟨hb.1, ?_⟩
      have := hb.2
      rw [hbuf] at this
      simp only [List.length_cons] at this
      show rest.length ≤ 100
      omega
    · intro a ha
      simp [Chan.recv, hbuf, hpc] at ha
      exact ha.symm
    · right
      exact ⟨d, rfl, by simp [Chan.recv, hbuf]⟩

theorem getStep_eq (k : StreamKind) : getStep k = GetVideoStream.step := by
  cases k <;> rfl

theorem GetVideoStream_step_idle (b : BroadcastService) (p : GetProc)
    (h : ∀ a, p.pc ≠ .ranging a) : GetVideoStream.step b p = (b, p) := by
  unfold GetVideoStream.step
  split
  · rename_i a ha
    exact absurd ha (h a)
  · rfl

theorem Chan_enqueue_eq (c : Chan) (d : Frame) (hb : c.Bounded) (hopen : c.closed = false) :
    c.enqueue d
      = .done { c with buf := (if c.buf.length < 100 then c.buf else c.buf.tail) ++ [d] } := by
  obtain ⟨hcap, hlen⟩ := hb
  by_cases hlt : c.buf.length < 100
  · simp [Chan.enqueue, Chan.send, hopen, hcap, hlt]
  · cases hbuf : c.buf with
    | nil => simp [hbuf] at hlt
    | cons x rest =>
      rw [hbuf] at hlt hlen
      simp only [List.length_cons] at hlt hlen
      have hrest : rest.length < 100 := by omega
      simp [Chan.enqueue, Chan.send, Chan.recv, hopen, hcap, hbuf, hlt, hrest]

theorem Chan_enqueue_bounded_of_open (c : Chan) (d : Frame) (hb : c.Bounded) :
    Chan.Bounded { c with buf := (if c.buf.length < 100 then c.buf else c.buf.tail) ++ [d] } := by
  obtain ⟨hcap, hlen⟩ := hb
  refine ⟨hcap, ?_⟩
  show ((if c.buf.length < 100 then c.buf else c.buf.tail) ++ [d]).length ≤ 100
  split
  · simp only [List.length_append, List.length_singleton]
    omega
  · simp only [List.length_append, List.length_singleton, List.length_tail]
    omega

theorem BroadcastService_onChan_enqueue (b : BroadcastService) (ch : Nat) (c : Chan) (d : Frame)
    (hc : b.heap[ch]? = some c) (hb : c.Bounded) (hopen : c.closed = false) :
    b.onChan ch (fun c => c.enqueue d)
      = .done { b with heap := b.heap.set ch ({ c with
          buf := (if c.buf.length < 100 then c.buf else c.buf.tail) ++ [d] }) } := by
  simp [BroadcastService.onChan, hc, Chan_enqueue_eq c d hb hopen]

theorem BroadcastService_onChan_close (b : BroadcastService) (ch : Nat) (c : Chan)
    (hc : b.heap[ch]? = some c) (hopen : c.closed = false) :
    b.onChan ch Chan.close
      = .done { b with heap := b.heap.set ch { c with closed := true } } := by
  simp [BroadcastService.onChan, hc, Chan.close, hopen]

theorem SendVideoStream_step_on (b : BroadcastService) (p : SendProc) (ch : Nat) (c : Chan)
    (d : Frame) (hpc : p.pc = .looping ch) (hc : b.heap[ch]? = some c) (hb : c.Bounded)
    (hopen : c.closed = false) :
    SendVideoStream.step b p (some d)
      = ({ b with heap := b.heap.set ch ({ c with
            buf := (if c.buf.length < 100 then c.buf else c.buf.tail) ++ [d] }) }, p) := by
  simp [SendVideoStream.step, hpc, BroadcastService_onChan_enqueue b ch c d hc hb hopen]

theorem SendInfoStream_deferred_on (b : BroadcastService) (p : SendProc) (ch : Nat) (c : Chan)
    (hc : b.heap[ch]? = some c) (hopen : c.closed = false) :
    SendInfoStream.deferred b p ch
      = ({ heap := b.heap.set ch ({ c with closed := true }), videoStreams := b.videoStreams,
           infoStreams := b.infoStreams.Delete p.vehicleID, backing := b.backing },
         { p with pc := .returned }) := by
  have h := BroadcastService_onChan_close
    { b with infoStreams := b.infoStreams.Delete p.vehicleID } ch c hc hopen
  simp only [SendInfoStream.deferred, h]

theorem SendProc_reset_buffer (p : SendProc) (h : p.buffer = []) :
    { p with buffer := [] } = p := by
  cases p
  simp_all

theorem BroadcastService_appendBuffer_on (deps : Deps) (b : BroadcastService) (ch : Nat)
    (c : Chan) (buffer : List UInt8) (hc : b.heap[ch]? = some c) :
    (b.appendBuffer deps ch buffer).heap[ch]?
      = some { c with buf := (b.appendBuffer deps ch buffer).queue ch } ∧
    ((b.appendBuffer deps ch buffer).queue ch).length = c.buf.length ∧
    (b.appendBuffer deps ch buffer).queue ch
      = (if buffer.length ≤ (b.backing ch).cap
          then overwriteShared buffer (b.backing ch).frames c.buf else c.buf) := by
  unfold BroadcastService.appendBuffer
  by_cases hfit : buffer.length ≤ (b.backing ch).cap
  · simp only [hfit, if_true, hc]
    have hget := heap_set_get b.heap ch c
      ({ c with buf := overwriteShared buffer (b.backing ch).frames c.buf }) hc
    simp only [BroadcastService.queue, hget]
    exact ⟨trivial, overwriteShared_length _ _ _, trivial⟩
  · simp only [hfit, if_false, BroadcastService.setBacking, BroadcastService.queue, hc]
    exact ⟨trivial, trivial, trivial⟩

theorem BroadcastService_sendBuffer_on (b : BroadcastService) (ch : Nat) (c : Chan)
    (buffer : List UInt8) (hc : b.heap[ch]? = some c) (hb : c.Bounded)
    (hopen : c.closed = false) :
    ∃ b1, b.sendBuffer ch buffer = .done b1 ∧
      b1.heap = b.heap.set ch ({ c with
        buf := (if c.buf.length < 100 then c.buf else c.buf.tail) ++ [buffer] }) ∧
      b1.videoStreams = b.videoStreams ∧ b1.infoStreams = b.infoStreams := by
  simp only [BroadcastService.sendBuffer, BroadcastService_onChan_enqueue b ch c buffer hc hb hopen]
  exact ⟨_, rfl, rfl, rfl, rfl⟩

theorem sendStep_on (deps : Deps) (k : StreamKind) (b : BroadcastService) (p : SendProc)
    (ch : Nat) (c : Chan) (d : Frame) (hpc : p.pc = .looping ch) (hbuf : p.buffer = [])
    (hc : b.heap[ch]? = some c) (hb : c.Bounded) (hopen : c.closed = false) :
    ∃ q0 c1, q0.length = c.buf.length ∧ (k = .video → q0 = c.buf) ∧
      (sendStep deps k b p (some d)).1.heap[ch]? = some c1 ∧ c1.Bounded ∧
      (c1.buf = q0 ∨ c1.buf = q0 ++ [d] ∨ c1.buf = q0.tail ++ [d]) ∧
      (∀ a, (sendStep deps k b p (some d)).2.pc = .looping a →
        a = ch ∧ (sendStep deps k b p (some d)).2.buffer = [] ∧ c1.closed = false) ∧
      (Forwarded deps k d → c.buf.length < 100 →
        c1.buf = q0 ++ [d] ∧ (sendStep deps k b p (some d)).2 = p) := by
  have hpush : ∀ q : List Frame, ((if q.length < 100 then q else q.tail) ++ [d] = q
      ∨ (if q.length < 100 then q else q.tail) ++ [d] = q ++ [d]
      ∨ (if q.length < 100 then q else q.tail) ++ [d] = q.tail ++ [d]) := by
    intro q
    split
    · exact Or.inr (Or.inl rfl)
    · exact Or.inr (Or.inr rfl)
  have hreset : (⟨.looping ch, p.vehicleID, [], p.errChan⟩ : SendProc) = p := by
    have h := SendProc_reset_buffer p hbuf
    rw [hpc] at h
    exact h
  cases k with
  | video =>
    simp only [sendStep, SendVideoStream_step_on b p ch c d hpc hc hb hopen]
    refine ⟨c.buf, _, rfl, fun _ => rfl, heap_set_get b.heap ch c _ hc,
      Chan_enqueue_bounded_of_open c d hb, hpush c.buf, ?_, ?_⟩
    · intro a ha
      rw [hpc] at ha
      injection ha with ha
      exact ⟨ha.symm, hbuf, hopen⟩
    · intro _ hlt
      simp [hlt]
  | info =>
    obtain ⟨h0, hlen0, _⟩ := BroadcastService_appendBuffer_on deps b ch c d hc
    have hb0 : Chan.Bounded { c with buf := (b.appendBuffer deps ch d).queue ch } :=
      ⟨hb.1, by show ((b.appendBuffer deps ch d).queue ch).length ≤ 100; rw [hlen0]; exact hb.2⟩
    refine ⟨(b.appendBuffer deps ch d).queue ch, ?_⟩
    simp only [sendStep, SendInfoStream.step, hpc, hbuf, List.nil_append]
    cases hj : deps.jsonUnmarshalOk d with
    | true =>
      obtain ⟨b1, hs1, hheap1, _, _⟩ :=
        BroadcastService_sendBuffer_on (b.appendBuffer deps ch d) ch _ d h0 hb0 hopen
      have hget1 : b1.heap[ch]? = some ({ c with
          buf := (if ((b.appendBuffer deps ch d).queue ch).length < 100
            then (b.appendBuffer deps ch d).queue ch
            else ((b.appendBuffer deps ch d).queue ch).tail) ++ [d] }) := by
        rw [hheap1]
        exact heap_set_get _ ch _ _ h0
      simp only [if_true, hs1]
      by_cases hlen : d.length > MaxJsonSize
      · simp only [hlen, if_true]
        rw [SendInfoStream_deferred_on _ _ ch _ hget1 hopen]
        refine ⟨_, hlen0, fun h => absurd h (by simp), heap_set_get _ ch _ _ hget1,
          Chan_enqueue_bounded_of_open _ d hb0, hpush _, ?_, ?_⟩
        · intro a ha
          exact absurd ha (by simp)
        · intro hf _
          rcases hf with hf | hf
          · exact absurd hf (by simp)
          · exact absurd hf.2 (by omega)
      · simp only [hlen, if_false]
        refine ⟨_, hlen0, fun h => absurd h (by simp), hget1,
          Chan_enqueue_bounded_of_open _ d hb0, hpush _, ?_, ?_⟩
        · intro a ha
          injection ha with ha
          exact ⟨ha.symm, trivial, hopen⟩
        · intro _ hlt
          rw [← hlen0] at hlt
          exact ⟨by simp [hlt], hreset⟩
    | false =>
      simp only [Bool.false_eq_true, if_false]
      by_cases hlen : d.length > MaxJsonSize
      · simp only [hlen, if_true]
        rw [SendInfoStream_deferred_on _ _ ch _ h0 hopen]
        refine ⟨_, hlen0, fun h => absurd h (by simp), heap_set_get _ ch _ _ h0, hb0,
          Or.inl rfl, ?_, ?_⟩
        · intro a ha
          exact absurd ha (by simp)
        · intro hf _
          rcases hf with hf | hf
          · exact absurd hf (by simp)
          · rw [hj] at hf
            exact absurd hf.1 (by simp)
      · simp only [hlen, if_false]
        refine ⟨_, hlen0, fun h => absurd h (by simp), h0, hb0, Or.inl rfl, ?_, ?_⟩
        · intro a ha
          injection ha with ha
          exact ⟨ha.symm, trivial, hopen⟩
        · intro hf _
          rcases hf with hf | hf
          · exact absurd hf (by simp)
          · rw [hj] at hf
            exact absurd hf.1 (by simp)

theorem sendStep_idle (deps : Deps) (k : StreamKind) (b : BroadcastService) (p : SendProc)
    (ev : Option Frame) (h : ∀ a, p.pc ≠ .looping a) : sendStep deps k b p ev = (b, p) := by
  cases k with
  | video =>
    show SendVideoStream.step b p ev = (b, p)
    unfold SendVideoStream.step
    split
    · rename_i a ha
      exact absurd ha (h a)
    · rfl
  | info =>
    show SendInfoStream.step deps b p ev = (b, p)
    unfold SendInfoStream.step
    split
    · rename_i a ha
      exact absurd ha (h a)
    · rfl

theorem Fan_produce_on (deps : Deps) (k : StreamKind) (s : Fan) (ch : Nat) (d : Frame)
    (h : s.On ch) :
    (Fan.step deps k s (.produce d)).On ch ∧
    (Fan.step deps k s (.produce d)).A = s.A ∧ (Fan.step deps k s (.produce d)).B = s.B ∧
    ∃ q0 : List Frame, q0.length = (s.b.queue ch).length ∧ (k = .video → q0 = s.b.queue ch) ∧
      ((Fan.step deps k s (.produce d)).b.queue ch = q0 ∨
        (Fan.step deps k s (.produce d)).b.queue ch = q0 ++ [d] ∨
        (Fan.step deps k s (.produce d)).b.queue ch = q0.tail ++ [d]) ∧
      (Forwarded deps k d → s.P.pc = .looping ch → (s.b.queue ch).length < 100 →
        (Fan.step deps k s (.produce d)).b.queue ch = q0 ++ [d] ∧
        (Fan.step deps k s (.produce d)).P = s.P) := by
  obtain ⟨⟨c, hc, hb, hopen⟩, hP, hA, hB⟩ := h
  have hq := BroadcastService_queue_of_get s.b ch c hc
  by_cases hl : ∃ a, s.P.pc = .looping a
  · obtain ⟨a, ha⟩ := hl
    obtain ⟨hach, hbuf⟩ := hP a ha
    subst hach
    obtain ⟨q0, c1, hlen0, hvid, hc1, hb1, hbuf1, hpc1, hfw⟩ :=
      sendStep_on deps k s.b s.P a c d ha hbuf hc hb (hopen a ha)
    have hq1 := BroadcastService_queue_of_get _ a c1 hc1
    refine ⟨⟨⟨c1, hc1, hb1, fun a1 ha1 => (hpc1 a1 ha1).2.2⟩,
      fun a1 ha1 => ⟨(hpc1 a1 ha1).1, (hpc1 a1 ha1).2.1⟩, hA, hB⟩, rfl, rfl, q0, ?_, ?_, ?_, ?_⟩
    · rw [hq]
      exact hlen0
    · intro hk
      rw [hq]
      exact hvid hk
    · simp only [Fan.step, hq1]
      exact hbuf1
    · intro hf _ hlt
      rw [hq] at hlt
      simp only [Fan.step, hq1]
      exact hfw hf hlt
  · have hidle : sendStep deps k s.b s.P (some d) = (s.b, s.P) :=
      sendStep_idle deps k s.b s.P _ (fun a ha => hl ⟨a, ha⟩)
    have hstep : Fan.step deps k s (.produce d) = s := by
      simp only [Fan.step, hidle]
    rw [hstep]
    refine ⟨⟨⟨c, hc, hb, hopen⟩, hP, hA, hB⟩, rfl, rfl, s.b.queue ch, rfl, fun _ => rfl,
      Or.inl rfl, ?_⟩
    intro _ hpc _
    exact absurd ⟨ch, hpc⟩ hl

theorem getStep_on (k : StreamKind) (b : BroadcastService) (p : GetProc) (ch : Nat) (c : Chan)
    (hc : b.heap[ch]? = some c) (hb : c.Bounded) (hp : ∀ a, p.pc = .ranging a → a = ch) :
    ∃ c1, (getStep k b p).1.heap[ch]? = some c1 ∧ c1.Bounded ∧ c1.closed = c.closed ∧
      (∀ a, (getStep k b p).2.pc = .ranging a → a = ch) ∧
      ((c1.buf = c.buf ∧ (getStep k b p).2.stream = p.stream) ∨
        (∃ d, c.buf = d :: c1.buf ∧ (getStep k b p).2.stream = p.stream ++ [d])) := by
  rw [getStep_eq]
  by_cases hl : ∃ a, p.pc = .ranging a
  · obtain ⟨a, ha⟩ := hl
    have hach := hp a ha
    subst hach
    exact GetVideoStream_step_on b p a c ha hc hb
  · rw [GetVideoStream_step_idle b p (fun a ha => hl ⟨a, ha⟩)]
    exact ⟨c, hc, hb, rfl, hp, Or.inl ⟨rfl, rfl⟩⟩

theorem Fan_receiveA_on (deps : Deps) (k : StreamKind) (s : Fan) (ch : Nat) (h : s.On ch) :
    (Fan.step deps k s .receiveA).On ch ∧
    (Fan.step deps k s .receiveA).P = s.P ∧ (Fan.step deps k s .receiveA).B = s.B ∧
    (((Fan.step deps k s .receiveA).b.queue ch = s.b.queue ch ∧
        (Fan.step deps k s .receiveA).A.stream = s.A.stream) ∨
      (∃ d, s.b.queue ch = d :: (Fan.step deps k s .receiveA).b.queue ch ∧
        (Fan.step deps k s .receiveA).A.stream = s.A.stream ++ [d])) := by
  obtain ⟨⟨c, hc, hb, hopen⟩, hP, hA, hB⟩ := h
  have hq := BroadcastService_queue_of_get s.b ch c hc
  obtain ⟨c1, hc1, hb1, hcl1, hpc1, hrel⟩ := getStep_on k s.b s.A ch c hc hb hA
  have hq1 := BroadcastService_queue_of_get _ ch c1 hc1
  refine ⟨⟨⟨c1, hc1, hb1, fun a ha => hcl1.trans (hopen a ha)⟩, hP, hpc1, hB⟩, rfl, rfl, ?_⟩
  simp only [Fan.step, hq1, hq]
  exact hrel

theorem Fan_receiveB_on (deps : Deps) (k : StreamKind) (s : Fan) (ch : Nat) (h : s.On ch) :
    (Fan.step deps k s .receiveB).On ch ∧
    (Fan.step deps k s .receiveB).P = s.P ∧ (Fan.step deps k s .receiveB).A = s.A ∧
    (((Fan.step deps k s .receiveB).b.queue ch = s.b.queue ch ∧
        (Fan.step deps k s .receiveB).B.stream = s.B.stream) ∨
      (∃ d, s.b.queue ch = d :: (Fan.step deps k s .receiveB).b.queue ch ∧
        (Fan.step deps k s .receiveB).B.stream = s.B.stream ++ [d])) := by
  obtain ⟨⟨c, hc, hb, hopen⟩, hP, hA, hB⟩ := h
  have hq := BroadcastService_queue_of_get s.b ch c hc
  obtain ⟨c1, hc1, hb1, hcl1, hpc1, hrel⟩ := getStep_on k s.b s.B ch c hc hb hB
  have hq1 := BroadcastService_queue_of_get _ ch c1 hc1
  refine ⟨⟨⟨c1, hc1, hb1, fun a ha => hcl1.trans (hopen a ha)⟩, hP, hA, hpc1⟩, rfl, rfl, ?_⟩
  simp only [Fan.step, hq1, hq]
  exact hrel

theorem Fan_run_cons (deps : Deps) (k : StreamKind) (s : Fan) (t : Turn) (ts : List Turn) :
    Fan.run deps k s (t :: ts) = Fan.run deps k (Fan.step deps k s t) ts := rfl

theorem Fan_run_on (deps : Deps) (k : StreamKind) (ch : Nat) (ts : List Turn) (s : Fan)
    (h : s.On ch) : (Fan.run deps k s ts).On ch := by
  induction ts generalizing s with
  | nil => exact h
  | cons t ts ih =>
    rw [Fan_run_cons]
    cases t with
    | produce d => exact ih _ (Fan_produce_on deps k s ch d h).1
    | receiveA => exact ih _ (Fan_receiveA_on deps k s ch h).1
    | receiveB => exact ih _ (Fan_receiveB_on deps k s ch h).1

/-- In every schedule each subscriber's received frames followed by the queue
form a subsequence of what the queue held at the start followed by the frames
produced since. -/
theorem Fan_run_sublist (deps : Deps) (k : StreamKind) (hk : k = .video) (ch : Nat)
    (ts : List Turn) (s : Fan) (baseA baseB : List Frame) (h : s.On ch)
    (hA : (s.A.stream ++ s.b.queue ch).Sublist baseA)
    (hB : (s.B.stream ++ s.b.queue ch).Sublist baseB) :
    ((Fan.run deps k s ts).A.stream ++ (Fan.run deps k s ts).b.queue ch).Sublist
        (baseA ++ produced ts) ∧
      ((Fan.run deps k s ts).B.stream ++ (Fan.run deps k s ts).b.queue ch).Sublist
        (baseB ++ produced ts) := by
  induction ts generalizing s baseA baseB with
  | nil => simpa [Fan.run, produced] using ⟨hA, hB⟩
  | cons t ts ih =>
    rw [Fan_run_cons]
    cases t with
    | produce d =>
      obtain ⟨hon, hAeq, hBeq, q0, _, hq0, hq, _⟩ := Fan_produce_on deps k s ch d h
      rw [hq0 hk] at hq
      have key : ∀ (xs base : List Frame), (xs ++ s.b.queue ch).Sublist base →
          (xs ++ (Fan.step deps k s (.produce d)).b.queue ch).Sublist (base ++ [d]) := by
        intro xs base hx
        rcases hq with hq | hq | hq
        · rw [hq]
          exact hx.trans (List.sublist_append_left base [d])
        · rw [hq, ← List.append_assoc]
          exact hx.append (List.Sublist.refl [d])
        · rw [hq, ← List.append_assoc]
          exact (((List.tail_sublist (s.b.queue ch)).append_left xs).trans hx).append
            (List.Sublist.refl [d])
      have := ih (Fan.step deps k s (.produce d)) (baseA ++ [d]) (baseB ++ [d]) hon
        (by rw [hAeq]; exact key _ _ hA) (by rw [hBeq]; exact key _ _ hB)
      simpa [produced] using this
    | receiveA =>
      obtain ⟨hon, _, hBeq, hq⟩ := Fan_receiveA_on deps k s ch h
      refine ih (Fan.step deps k s .receiveA) baseA baseB hon ?_ ?_
      · rcases hq with ⟨hq, hs⟩ | ⟨d, hq, hs⟩
        · rw [hq, hs]
          exact hA
        · rw [hs, List.append_assoc, List.singleton_append, ← hq]
          exact hA
      · rw [hBeq]
        rcases hq with ⟨hq, _⟩ | ⟨d, hq, _⟩
        · rw [hq]
          exact hB
        · rw [hq] at hB
          exact ((List.sublist_cons_self d _).append_left _).trans hB
    | receiveB =>
      obtain ⟨hon, _, hAeq, hq⟩ := Fan_receiveB_on deps k s ch h
      refine ih (Fan.step deps k s .receiveB) baseA baseB hon ?_ ?_
      · rw [hAeq]
        rcases hq with ⟨hq, _⟩ | ⟨d, hq, _⟩
        · rw [hq]
          exact hA
        · rw [hq] at hA
          exact ((List.sublist_cons_self d _).append_left _).trans hA
      · rcases hq with ⟨hq, hs⟩ | ⟨d, hq, hs⟩
        · rw [hq, hs]
          exact hB
        · rw [hs, List.append_assoc, List.singleton_append, ← hq]
          exact hB

theorem perm_move_received (A B q : List Frame) (d : Frame) :
    (A ++ [d] ++ B ++ q).Perm (A ++ B ++ d :: q) := by
  have h1 : ([d] ++ B).Perm (B ++ [d]) := List.perm_append_comm
  have h2 := (h1.append_left A).append_right q
  simpa [List.append_assoc] using h2

/-- Without overflow and with every chunk forwarded, in every schedule the frames
received by the two subscribers together with the queue are a rearrangement of
the frames handed to the channel. -/
theorem Fan_run_perm (deps : Deps) (k : StreamKind) (hk : k = .video) (ch : Nat)
    (ts : List Turn) (s : Fan)
    (base : List Frame) (h : s.On ch) (hP : s.P.pc = .looping ch)
    (hperm : (s.A.stream ++ s.B.stream ++ s.b.queue ch).Perm base)
    (hfw : ∀ d ∈ produced ts, Forwarded deps k d)
    (hno : base.length + (produced ts).length ≤ 100) :
    ((Fan.run deps k s ts).A.stream ++ (Fan.run deps k s ts).B.stream
        ++ (Fan.run deps k s ts).b.queue ch).Perm (base ++ produced ts) := by
  induction ts generalizing s base with
  | nil => simpa [Fan.run, produced] using hperm
  | cons t ts ih =>
    rw [Fan_run_cons]
    cases t with
    | produce d =>
      obtain ⟨hon, hAeq, hBeq, q0, _, hq0, _, hex⟩ := Fan_produce_on deps k s ch d h
      rw [hq0 hk] at hex
      have hlen := hperm.length_eq
      simp only [List.length_append] at hlen
      simp only [produced, List.length_cons] at hno
      obtain ⟨hq, hPeq⟩ := hex (hfw d (by simp [produced])) hP (by omega)
      have := ih (Fan.step deps k s (.produce d)) (base ++ [d]) hon (by rw [hPeq]; exact hP)
        (by
          rw [hAeq, hBeq, hq, ← List.append_assoc]
          exact hperm.append_right [d])
        (fun x hx => hfw x (by simp [produced, hx]))
        (by simp only [List.length_append, List.length_singleton]; omega)
      simpa [produced] using this
    | receiveA =>
      obtain ⟨hon, hPeq, hBeq, hq⟩ := Fan_receiveA_on deps k s ch h
      refine ih (Fan.step deps k s .receiveA) base hon (by rw [hPeq]; exact hP) ?_
        (fun x hx => hfw x (by simpa [produced] using hx)) (by simpa [produced] using hno)
      rw [hBeq]
      rcases hq with ⟨hq, hs⟩ | ⟨d, hq, hs⟩
      · rw [hq, hs]
        exact hperm
      · rw [hs]
        rw [hq] at hperm
        exact (perm_move_received _ _ _ d).trans hperm
    | receiveB =>
      obtain ⟨hon, hPeq, hAeq, hq⟩ := Fan_receiveB_on deps k s ch h
      refine ih (Fan.step deps k s .receiveB) base hon (by rw [hPeq]; exact hP) ?_
        (fun x hx => hfw x (by simpa [produced] using hx)) (by simpa [produced] using hno)
      rw [hAeq]
      rcases hq with ⟨hq, hs⟩ | ⟨d, hq, hs⟩
      · rw [hq, hs]
        exact hperm
      · rw [hs]
        rw [hq] at hperm
        simpa [List.append_assoc] using hperm

/-- Without overflow and with every chunk forwarded, on either kind of stream the
number of frames received by the two subscribers plus the number queued grows by
one with each frame produced: every frame produced is received by one subscriber
at most. -/
theorem Fan_run_count (deps : Deps) (k : StreamKind) (ch : Nat) (ts : List Turn) (s : Fan)
    (n : Nat) (h : s.On ch) (hP : s.P.pc = .looping ch)
    (hn : s.A.stream.length + s.B.stream.length + (s.b.queue ch).length = n)
    (hfw : ∀ d ∈ produced ts, Forwarded deps k d)
    (hno : n + (produced ts).length ≤ 100) :
    (Fan.run deps k s ts).A.stream.length + (Fan.run deps k s ts).B.stream.length
        + ((Fan.run deps k s ts).b.queue ch).length = n + (produced ts).length := by
  induction ts generalizing s n with
  | nil => simpa [Fan.run, produced] using hn
  | cons t ts ih =>
    rw [Fan_run_cons]
    cases t with
    | produce d =>
      obtain ⟨hon, hAeq, hBeq, q0, hlen0, _, _, hex⟩ := Fan_produce_on deps k s ch d h
      simp only [produced, List.length_cons] at hno
      obtain ⟨hq, hPeq⟩ := hex (hfw d (by simp [produced])) hP (by omega)
      have := ih (Fan.step deps k s (.produce d)) (n + 1) hon (by rw [hPeq]; exact hP)
        (by
          rw [hAeq, hBeq, hq, List.length_append, List.length_singleton, hlen0]
          omega)
        (fun x hx => hfw x (by simp [produced, hx]))
        (by omega)
      simp only [produced, List.length_cons]
      omega
    | receiveA =>
      obtain ⟨hon, hPeq, hBeq, hq⟩ := Fan_receiveA_on deps k s ch h
      refine ih (Fan.step deps k s .receiveA) n hon (by rw [hPeq]; exact hP) ?_
        (fun x hx => hfw x (by simpa [produced] using hx)) (by simpa [produced] using hno)
      rw [hBeq]
      rcases hq with ⟨hq, hs⟩ | ⟨d, hq, hs⟩
      · rw [hq, hs]
        exact hn
      · rw [hs]
        rw [hq] at hn
        simp only [List.length_append, List.length_cons, List.length_nil] at hn ⊢
        omega
    | receiveB =>
      obtain ⟨hon, hPeq, hAeq, hq⟩ := Fan_receiveB_on deps k s ch h
      refine ih (Fan.step deps k s .receiveB) n hon (by rw [hPeq]; exact hP) ?_
        (fun x hx => hfw x (by simpa [produced] using hx)) (by simpa [produced] using hno)
      rw [hAeq]
      rcases hq with ⟨hq, hs⟩ | ⟨d, hq, hs⟩
      · rw [hq, hs]
        exact hn
      · rw [hs]
        rw [hq] at hn
        simp only [List.length_append, List.length_cons, List.length_nil] at hn ⊢
        omega

theorem SendVideoStream_start_looping (deps : Deps) (b : BroadcastService) (v : Int)
    (pw : List UInt8) (ch : Nat) (h : (SendVideoStream.start deps b v pw).2.pc = .looping ch) :
    (SendVideoStream.start deps b v pw).1.heap[ch]? = some (Chan.make 100) ∧
    (SendVideoStream.start deps b v pw).1.videoStreams v = some ch ∧
    (SendVideoStream.start deps b v pw).2.buffer = [] := by
  unfold SendVideoStream.start at h ⊢
  split at h
  · exact absurd h (by simp)
  · exact absurd h (by simp)
  · exact absurd h (by simp)
  · rename_i vehicle hveh
    simp only [hveh]
    split at h
    · exact absurd h (by simp)
    · rename_i hpw
      simp only [hpw]
      simp only [SyncMap.LoadOrStore, BroadcastService.make] at h ⊢
      cases hm : b.videoStreams v with
      | none =>
        simp only [hm] at h ⊢
        injection h with h
        subst h
        simp [SyncMap.Store]
      | some old =>
        simp only [hm] at h ⊢
        injection h with h
        subst h
        simp [SyncMap.Store, List.getElem_append_right]

theorem SendInfoStream_start_looping (deps : Deps) (b : BroadcastService) (v : Int)
    (pw : List UInt8) (ch : Nat) (h : (SendInfoStream.start deps b v pw).2.pc = .looping ch) :
    (SendInfoStream.start deps b v pw).1.heap[ch]? = some (Chan.make 100) ∧
    (SendInfoStream.start deps b v pw).1.infoStreams v = some ch ∧
    (SendInfoStream.start deps b v pw).2.buffer = [] := by
  unfold SendInfoStream.start at h ⊢
  split at h
  · exact absurd h (by simp)
  · exact absurd h (by simp)
  · exact absurd h (by simp)
  · rename_i vehicle hveh
    simp only [hveh]
    split at h
    · exact absurd h (by simp)
    · rename_i hpw
      simp only [hpw]
      simp only [SyncMap.LoadOrStore, BroadcastService.make] at h ⊢
      cases hm : b.infoStreams v with
      | none =>
        simp only [hm] at h ⊢
        injection h with h
        subst h
        simp [SyncMap.Store, BroadcastService.setBacking]
      | some old =>
        simp only [hm] at h ⊢
        injection h with h
        subst h
        simp [SyncMap.Store, List.getElem_append_right, BroadcastService.setBacking]

theorem sendStart_looping (deps : Deps) (k : StreamKind) (b : BroadcastService) (v : Int)
    (pw : List UInt8) (ch : Nat) (h : (sendStart deps k b v pw).2.pc = .looping ch) :
    (sendStart deps k b v pw).1.heap[ch]? = some (Chan.make 100) ∧
    (sendStart deps k b v pw).1.streams k v = some ch ∧
    (sendStart deps k b v pw).2.buffer = [] := by
  cases k with
  | video => exact SendVideoStream_start_looping deps b v pw ch h
  | info => exact SendInfoStream_start_looping deps b v pw ch h

theorem getStart_stream (deps : Deps) (k : StreamKind) (b : BroadcastService) (v did : Int)
    (pw : List UInt8) : (getStart deps k b v did pw).stream = [] := by
  cases k with
  | video =>
    simp only [getStart, GetVideoStream.start]
    split
    · rfl
    · rfl
    · rfl
    · split
      · rfl
      · split
        · rfl
        · split <;> rfl
  | info =>
    simp only [getStart, GetInfoStream.start]
    split
    · rfl
    · rfl
    · rfl
    · split
      · rfl
      · split
        · rfl
        · split <;> rfl

theorem getStart_ranging (deps : Deps) (k : StreamKind) (b : BroadcastService) (v did : Int)
    (pw : List UInt8) (c : Nat) (h : (getStart deps k b v did pw).pc = .ranging c) :
    b.streams k v = some c := by
  cases k with
  | video =>
    simp only [getStart, GetVideoStream.start, BroadcastService.streams] at h ⊢
    split at h
    · exact absurd h (by simp)
    · exact absurd h (by simp)
    · exact absurd h (by simp)
    · split at h
      · exact absurd h (by simp)
      · split at h
        · exact absurd h (by simp)
        · split at h
          · exact absurd h (by simp)
          · rename_i c1 hc1
            injection h with h
            subst h
            exact hc1
  | info =>
    simp only [getStart, GetInfoStream.start, BroadcastService.streams] at h ⊢
    split at h
    · exact absurd h (by simp)
    · exact absurd h (by simp)
    · exact absurd h (by simp)
    · split at h
      · exact absurd h (by simp)
      · split at h
        · exact absurd h (by simp)
        · split at h
          · exact absurd h (by simp)
          · rename_i c1 hc1
            injection h with h
            subst h
            exact hc1

theorem Chan_make_bounded : (Chan.make 100).Bounded := ⟨rfl, by simp [Chan.make]⟩

/-- Claim C8 as stated fails: vehicle 2 has a producer, dispatchers 2 and 4 both
subscribe, then one frame is published (no overflow).  The first subscriber to
take a turn receives it; the channel is then empty and the other subscriber,
however many turns it takes, receives nothing.  The same on the info stream. -/
theorem frame_is_withheld_from_second_subscriber :
    ((Fan.attach demoDeps .video NewBroadcastService 2 examplePassword 2 examplePassword 4
        examplePassword).A.pc = .ranging 0 ∧
      (Fan.attach demoDeps .video NewBroadcastService 2 examplePassword 2 examplePassword 4
        examplePassword).B.pc = .ranging 0 ∧
      (Fan.run demoDeps .video (Fan.attach demoDeps .video NewBroadcastService 2 examplePassword
        2 examplePassword 4 examplePassword)
        [.produce [7], .receiveA, .receiveB, .receiveB]).A.stream = [[7]] ∧
      (Fan.run demoDeps .video (Fan.attach demoDeps .video NewBroadcastService 2 examplePassword
        2 examplePassword 4 examplePassword)
        [.produce [7], .receiveA, .receiveB, .receiveB]).B.stream = [] ∧
      (Fan.run demoDeps .video (Fan.attach demoDeps .video NewBroadcastService 2 examplePassword
        2 examplePassword 4 examplePassword)
        [.produce [7], .receiveA, .receiveB, .receiveB]).b.queue 0 = []) ∧
    ((Fan.run demoDeps .info (Fan.attach demoDeps .info NewBroadcastService 2 examplePassword
        2 examplePassword 4 examplePassword)
        [.produce emptyObject, .receiveB, .receiveA, .receiveA]).B.stream = [emptyObject] ∧
      (Fan.run demoDeps .info (Fan.attach demoDeps .info NewBroadcastService 2 examplePassword
        2 examplePassword 4 examplePassword)
        [.produce emptyObject, .receiveB, .receiveA, .receiveA]).A.stream = [] ∧
      (Fan.run demoDeps .info (Fan.attach demoDeps .info NewBroadcastService 2 examplePassword
        2 examplePassword 4 examplePassword)
        [.produce emptyObject, .receiveB, .receiveA, .receiveA]).b.queue 0 = []) := by
  decide

theorem Fan_attach_on (deps : Deps) (k : StreamKind) (b0 : BroadcastService) (v dA dB : Int)
    (pw pwA pwB : List UInt8) (ch : Nat)
    (hP : (Fan.attach deps k b0 v pw dA pwA dB pwB).P.pc = .looping ch) :
    (Fan.attach deps k b0 v pw dA pwA dB pwB).On ch ∧
    (Fan.attach deps k b0 v pw dA pwA dB pwB).b.queue ch = [] ∧
    (Fan.attach deps k b0 v pw dA pwA dB pwB).A.stream = [] ∧
    (Fan.attach deps k b0 v pw dA pwA dB pwB).B.stream = [] := by
  obtain ⟨hheap, hreg, hbuf⟩ := sendStart_looping deps k b0 v pw ch hP
  have hsub : ∀ (did : Int) (p : List UInt8) (a : Nat),
      (getStart deps k (sendStart deps k b0 v pw).1 v did p).pc = .ranging a → a = ch := by
    intro did p a ha
    have := getStart_ranging deps k _ v did p a ha
    rw [hreg] at this
    injection this with this
    exact this.symm
  refine ⟨⟨⟨Chan.make 100, hheap, Chan_make_bounded, fun _ _ => rfl⟩, ?_, hsub dA pwA,
    hsub dB pwB⟩, ?_, getStart_stream deps k _ v dA pwA, getStart_stream deps k _ v dB pwB⟩
  · intro a ha
    have hP' : (sendStart deps k b0 v pw).2.pc = .looping ch := hP
    have ha' : (sendStart deps k b0 v pw).2.pc = .looping a := ha
    rw [hP'] at ha'
    injection ha' with ha'
    exact ⟨ha'.symm, hbuf⟩
  · exact (BroadcastService_queue_of_get _ ch _ hheap).trans rfl

/-- Claim C8, amended. For every vehicle with a producer and two dispatchers
subscribed to the same stream, and no overflow (fewer than 100 frames produced,
each forwarded as one frame), both subscribers read the one channel of the
producer and every frame goes to one of them at most.  On either kind of stream,
in every schedule the frames received by the first, the frames received by the
second and the queued frames number exactly the produced frames.  On the video
stream they are together a rearrangement of the produced frames; so when the
produced frames are pairwise different, no frame is received by both. -/
theorem frame_reaches_one_subscriber (deps : Deps) (k : StreamKind) (b0 : BroadcastService)
    (v dA dB : Int) (pw pwA pwB : List UInt8) (ch cA cB : Nat)
    (hP : (Fan.attach deps k b0 v pw dA pwA dB pwB).P.pc = .looping ch)
    (hA : (Fan.attach deps k b0 v pw dA pwA dB pwB).A.pc = .ranging cA)
    (hB : (Fan.attach deps k b0 v pw dA pwA dB pwB).B.pc = .ranging cB)
    (ts : List Turn) (hfw : ∀ d ∈ produced ts, Forwarded deps k d)
    (hno : (produced ts).length < 100) :
    cA = ch ∧ cB = ch ∧
    ((Fan.run deps k (Fan.attach deps k b0 v pw dA pwA dB pwB) ts).A.stream.length
        + (Fan.run deps k (Fan.attach deps k b0 v pw dA pwA dB pwB) ts).B.stream.length
        + ((Fan.run deps k (Fan.attach deps k b0 v pw dA pwA dB pwB) ts).b.queue ch).length
      = (produced ts).length) ∧
    (k = .video →
      ((Fan.run deps k (Fan.attach deps k b0 v pw dA pwA dB pwB) ts).A.stream
          ++ (Fan.run deps k (Fan.attach deps k b0 v pw dA pwA dB pwB) ts).B.stream
          ++ (Fan.run deps k (Fan.attach deps k b0 v pw dA pwA dB pwB) ts).b.queue ch).Perm
        (produced ts) ∧
      ((produced ts).Nodup →
        List.Disjoint (Fan.run deps k (Fan.attach deps k b0 v pw dA pwA dB pwB) ts).A.stream
          (Fan.run deps k (Fan.attach deps k b0 v pw dA pwA dB pwB) ts).B.stream)) := by
  obtain ⟨hon, hq, hsA, hsB⟩ := Fan_attach_on deps k b0 v dA dB pw pwA pwB ch hP
  have hcount := Fan_run_count deps k ch ts _ 0 hon hP (by rw [hq, hsA, hsB]; rfl) hfw
    (by omega)
  rw [Nat.zero_add] at hcount
  refine ⟨hon.2.2.1 cA hA, hon.2.2.2 cB hB, hcount, ?_⟩
  intro hk
  have hperm := Fan_run_perm deps k hk ch ts _ [] hon hP
    (by rw [hq, hsA, hsB]; exact List.Perm.refl _) hfw (by simp only [List.length_nil]; omega)
  rw [List.nil_append] at hperm
  refine ⟨hperm, ?_⟩
  intro hnd
  have h1 := hperm.nodup_iff.mpr hnd
  exact (List.nodup_append.mp (List.nodup_append.mp h1).1).2.2

/-- On the demo service with dispatchers 2 and 4 subscribed to vehicle 2: on the
video stream the schedule produce `[7]`, first receives, produce `[8]`, second
receives satisfies the premises, and the two received streams are disjoint; on
the info stream the same schedule with the objects `{"a":1}` and `{"bb":22}`
gives one frame to each subscriber, two in all. -/
theorem frame_reaches_one_subscriber_witness :
    (Fan.attach demoDeps .video NewBroadcastService 2 examplePassword 2 examplePassword 4
        examplePassword).P.pc = .looping 0 ∧
    (produced [.produce [7], .receiveA, .produce [8], .receiveB]).length < 100 ∧
    List.Disjoint
      (Fan.run demoDeps .video (Fan.attach demoDeps .video NewBroadcastService 2
        examplePassword 2 examplePassword 4 examplePassword)
        [.produce [7], .receiveA, .produce [8], .receiveB]).A.stream
      (Fan.run demoDeps .video (Fan.attach demoDeps .video NewBroadcastService 2
        examplePassword 2 examplePassword 4 examplePassword)
        [.produce [7], .receiveA, .produce [8], .receiveB]).B.stream ∧
    (Fan.run telemetryDeps .info (Fan.attach telemetryDeps .info NewBroadcastService 2
        examplePassword 2 examplePassword 4 examplePassword)
        [.produce smallObject, .receiveA, .produce largerObject, .receiveB]).A.stream
      = [smallObject] ∧
    (Fan.run telemetryDeps .info (Fan.attach telemetryDeps .info NewBroadcastService 2
        examplePassword 2 examplePassword 4 examplePassword)
        [.produce smallObject, .receiveA, .produce largerObject, .receiveB]).B.stream
      = [largerObject] ∧
    (Fan.run telemetryDeps .info (Fan.attach telemetryDeps .info NewBroadcastService 2
        examplePassword 2 examplePassword 4 examplePassword)
        [.produce smallObject, .receiveA, .produce largerObject, .receiveB]).A.stream.length
      + (Fan.run telemetryDeps .info (Fan.attach telemetryDeps .info NewBroadcastService 2
        examplePassword 2 examplePassword 4 examplePassword)
        [.produce smallObject, .receiveA, .produce largerObject, .receiveB]).B.stream.length
      + ((Fan.run telemetryDeps .info (Fan.attach telemetryDeps .info NewBroadcastService 2
        examplePassword 2 examplePassword 4 examplePassword)
        [.produce smallObject, .receiveA, .produce largerObject, .receiveB]).b.queue 0).length
      = (produced [.produce smallObject, .receiveA, .produce largerObject, .receiveB]).length :=
  ⟨by decide, by decide,
    ((frame_reaches_one_subscriber demoDeps .video NewBroadcastService 2 2 4 examplePassword
      examplePassword examplePassword 0 0 0 (by decide) (by decide) (by decide)
      [.produce [7], .receiveA, .produce [8], .receiveB] (fun _ _ => Or.inl rfl)
      (by decide)).2.2.2 rfl).2 (by decide),
    by decide, by decide,
    (frame_reaches_one_subscriber telemetryDeps .info NewBroadcastService 2 2 4
      examplePassword examplePassword examplePassword 0 0 0 (by decide) (by decide)
      (by decide) [.produce smallObject, .receiveA, .produce largerObject, .receiveB]
      (fun d hd => Or.inr (by
        simp only [produced, List.mem_cons, List.mem_singleton, List.not_mem_nil,
          or_false] at hd
        rcases hd with h | h <;> subst h <;> decide))
      (by decide)).2.2.1⟩

theorem SendInfoStream_step_heap (deps : Deps) (b : BroadcastService) (p : SendProc)
    (ch : Nat) (c : Chan) (d : Frame) (hpc : p.pc = .looping ch)
    (hc : b.heap[ch]? = some c) (hb : c.Bounded) (hopen : c.closed = false) :
    (SendInfoStream.step deps b p (some d)).1.heap[ch]?
      = some { c with
          buf := (if deps.jsonUnmarshalOk (p.buffer ++ d) = true
            then (if ((b.appendBuffer deps ch (p.buffer ++ d)).queue ch).length < 100
                then (b.appendBuffer deps ch (p.buffer ++ d)).queue ch
                else ((b.appendBuffer deps ch (p.buffer ++ d)).queue ch).tail) ++ [p.buffer ++ d]
            else (b.appendBuffer deps ch (p.buffer ++ d)).queue ch),
          closed := decide ((p.buffer ++ d).length > MaxJsonSize) } := by
  obtain ⟨h0, hlen0, _⟩ := BroadcastService_appendBuffer_on deps b ch c (p.buffer ++ d) hc
  have hb0 : Chan.Bounded { c with buf := (b.appendBuffer deps ch (p.buffer ++ d)).queue ch } :=
    ⟨hb.1, by
      show ((b.appendBuffer deps ch (p.buffer ++ d)).queue ch).length ≤ 100
      rw [hlen0]
      exact hb.2⟩
  simp only [SendInfoStream.step, hpc]
  cases hj : deps.jsonUnmarshalOk (p.buffer ++ d) with
  | true =>
    obtain ⟨b1, hs1, hheap1, _, _⟩ :=
      BroadcastService_sendBuffer_on (b.appendBuffer deps ch (p.buffer ++ d)) ch _
        (p.buffer ++ d) h0 hb0 hopen
    have hget1 : b1.heap[ch]? = some ({ c with
        buf := (if ((b.appendBuffer deps ch (p.buffer ++ d)).queue ch).length < 100
          then (b.appendBuffer deps ch (p.buffer ++ d)).queue ch
          else ((b.appendBuffer deps ch (p.buffer ++ d)).queue ch).tail) ++ [p.buffer ++ d] }) := by
      rw [hheap1]
      exact heap_set_get _ ch _ _ h0
    simp only [if_true, hs1]
    by_cases hlen : (p.buffer ++ d).length > MaxJsonSize
    · simp only [hlen, if_true, decide_True]
      rw [SendInfoStream_deferred_on _ _ ch _ hget1 hopen]
      exact heap_set_get _ ch _ _ hget1
    · simp only [hlen, if_false, decide_False]
      rw [hget1, ← hopen]
  | false =>
    simp only [Bool.false_eq_true, if_false]
    by_cases hlen : (p.buffer ++ d).length > MaxJsonSize
    · simp only [hlen, if_true, decide_True]
      rw [SendInfoStream_deferred_on _ _ ch _ h0 hopen]
      exact heap_set_get _ ch _ _ h0
    · simp only [hlen, if_false, decide_False]
      rw [h0, ← hopen]

theorem SendInfoStream_step_proc (deps : Deps) (b : BroadcastService) (p : SendProc)
    (ch : Nat) (c : Chan) (d : Frame) (hpc : p.pc = .looping ch)
    (hc : b.heap[ch]? = some c) (hb : c.Bounded) (hopen : c.closed = false)
    (hlen : (p.buffer ++ d).length ≤ MaxJsonSize) :
    (SendInfoStream.step deps b p (some d)).2 = { p with buffer := [] } := by
  obtain ⟨h0, hlen0, _⟩ := BroadcastService_appendBuffer_on deps b ch c (p.buffer ++ d) hc
  have hb0 : Chan.Bounded { c with buf := (b.appendBuffer deps ch (p.buffer ++ d)).queue ch } :=
    ⟨hb.1, by
      show ((b.appendBuffer deps ch (p.buffer ++ d)).queue ch).length ≤ 100
      rw [hlen0]
      exact hb.2⟩
  have hnot : ¬ (p.buffer ++ d).length > MaxJsonSize := by omega
  simp only [SendInfoStream.step, hpc]
  cases hj : deps.jsonUnmarshalOk (p.buffer ++ d) with
  | true =>
    obtain ⟨b1, hs1, _⟩ :=
      BroadcastService_sendBuffer_on (b.appendBuffer deps ch (p.buffer ++ d)) ch _
        (p.buffer ++ d) h0 hb0 hopen
    simp only [if_true, hs1, hnot, if_false]
  | false =>
    simp only [Bool.false_eq_true, if_false, hnot]

theorem Fan_received_nil (s s1 : Fan) (hA : s1.A = s.A) (hB : s1.B = s.B) :
    Fan.received s s1 = [] := by
  simp [Fan.received, hA, hB]

theorem Fan_dequeued_sublist (deps : Deps) (k : StreamKind) (hk : k = .video) (ch : Nat)
    (ts : List Turn) (s : Fan) (h : s.On ch) :
    (Fan.dequeued deps k s ts ++ (Fan.run deps k s ts).b.queue ch).Sublist
      (s.b.queue ch ++ produced ts) := by
  induction ts generalizing s with
  | nil => simp [Fan.dequeued, Fan.run, produced]
  | cons t ts ih =>
    rw [Fan_run_cons]
    simp only [Fan.dequeued]
    cases t with
    | produce d =>
      obtain ⟨hon, hAeq, hBeq, q0, _, hq0, hq, _⟩ := Fan_produce_on deps k s ch d h
      rw [hq0 hk] at hq
      rw [Fan_received_nil _ _ hAeq hBeq, List.nil_append]
      refine (ih _ hon).trans ?_
      have hsub : ((Fan.step deps k s (.produce d)).b.queue ch).Sublist (s.b.queue ch ++ [d]) := by
        rcases hq with hq | hq | hq
        · rw [hq]
          exact List.sublist_append_left _ _
        · rw [hq]
        · rw [hq]
          exact (List.tail_sublist _).append (List.Sublist.refl [d])
      simpa [produced] using hsub.append (List.Sublist.refl (produced ts))
    | receiveA =>
      obtain ⟨hon, _, hBeq, hq⟩ := Fan_receiveA_on deps k s ch h
      rcases hq with ⟨hq, hs⟩ | ⟨d, hq, hs⟩
      · have hr : Fan.received s (Fan.step deps k s .receiveA) = [] := by
          simp [Fan.received, hs, hBeq]
        rw [hr, List.nil_append, ← hq]
        simpa [produced] using ih _ hon
      · have hr : Fan.received s (Fan.step deps k s .receiveA) = [d] := by
          simp [Fan.received, hs, hBeq]
        rw [hr, hq]
        simpa [produced] using (ih _ hon).cons₂ d
    | receiveB =>
      obtain ⟨hon, _, hAeq, hq⟩ := Fan_receiveB_on deps k s ch h
      rcases hq with ⟨hq, hs⟩ | ⟨d, hq, hs⟩
      · have hr : Fan.received s (Fan.step deps k s .receiveB) = [] := by
          simp [Fan.received, hs, hAeq]
        rw [hr, List.nil_append, ← hq]
        simpa [produced] using ih _ hon
      · have hr : Fan.received s (Fan.step deps k s .receiveB) = [d] := by
          simp [Fan.received, hs, hAeq]
        rw [hr, hq]
        simpa [produced] using (ih _ hon).cons₂ d

theorem Fan_dequeued_length (deps : Deps) (k : StreamKind) (ch : Nat) (ts : List Turn)
    (s : Fan) (h : s.On ch) :
    (Fan.run deps k s ts).A.stream.length + (Fan.run deps k s ts).B.stream.length
      = s.A.stream.length + s.B.stream.length + (Fan.dequeued deps k s ts).length := by
  induction ts generalizing s with
  | nil => simp [Fan.dequeued, Fan.run]
  | cons t ts ih =>
    rw [Fan_run_cons]
    simp only [Fan.dequeued, List.length_append]
    cases t with
    | produce d =>
      obtain ⟨hon, hAeq, hBeq, _⟩ := Fan_produce_on deps k s ch d h
      rw [ih _ hon, Fan_received_nil _ _ hAeq hBeq, hAeq, hBeq]
      simp
    | receiveA =>
      obtain ⟨hon, _, hBeq, hq⟩ := Fan_receiveA_on deps k s ch h
      rw [ih _ hon]
      rcases hq with ⟨_, hs⟩ | ⟨d, _, hs⟩
      · simp [Fan.received, hs, hBeq]
      · simp [Fan.received, hs, hBeq]
        omega
    | receiveB =>
      obtain ⟨hon, _, hAeq, hq⟩ := Fan_receiveB_on deps k s ch h
      rw [ih _ hon]
      rcases hq with ⟨_, hs⟩ | ⟨d, _, hs⟩
      · simp [Fan.received, hs, hAeq]
      · simp [Fan.received, hs, hAeq]
        omega

/-- On the video stream, for a producer and the subscribers of its channel, in
every interleaving of producer turns (with drop-oldest) and subscriber turns the
sequence of frames dequeued from the channel, in dequeue order, is an
order-preserving subsequence of the sequence of frames the producer was given,
and so is each subscriber's stream.  On either kind of stream every frame a
subscriber received was dequeued once. -/
theorem video_dequeued_is_subsequence (deps : Deps) (k : StreamKind)
    (b0 : BroadcastService) (v dA dB : Int) (pw pwA pwB : List UInt8) (ch : Nat)
    (hP : (Fan.attach deps k b0 v pw dA pwA dB pwB).P.pc = .looping ch) (ts : List Turn) :
    (Fan.run deps k (Fan.attach deps k b0 v pw dA pwA dB pwB) ts).A.stream.length
        + (Fan.run deps k (Fan.attach deps k b0 v pw dA pwA dB pwB) ts).B.stream.length
      = (Fan.dequeued deps k (Fan.attach deps k b0 v pw dA pwA dB pwB) ts).length ∧
    (k = .video →
      (Fan.dequeued deps k (Fan.attach deps k b0 v pw dA pwA dB pwB) ts).Sublist (produced ts) ∧
      (Fan.run deps k (Fan.attach deps k b0 v pw dA pwA dB pwB) ts).A.stream.Sublist
        (produced ts) ∧
      (Fan.run deps k (Fan.attach deps k b0 v pw dA pwA dB pwB) ts).B.stream.Sublist
        (produced ts)) := by
  obtain ⟨hon, hq, hsA, hsB⟩ := Fan_attach_on deps k b0 v dA dB pw pwA pwB ch hP
  have h2 := Fan_dequeued_length deps k ch ts _ hon
  rw [hsA, hsB] at h2
  refine ⟨by simpa using h2, fun hk => ?_⟩
  have h1 := Fan_dequeued_sublist deps k hk ch ts _ hon
  have h3 := Fan_run_sublist deps k hk ch ts _ [] [] hon
    (by rw [hsA, hq]; exact List.Sublist.refl _)
    (by rw [hsB, hq]; exact List.Sublist.refl _)
  rw [hq, List.nil_append] at h1
  simp only [List.nil_append] at h3
  exact ⟨(List.sublist_append_left _ _).trans h1,
    (List.sublist_append_left _ _).trans h3.1, (List.sublist_append_left _ _).trans h3.2⟩

/-- Claim C12, evaluated on the info stream of vehicle 2 with dispatchers 2 and 4
subscribed: the producer is given `{}`, which the first subscriber receives, then
`{"a":1}` and `{"bb":22}` before any further receive.  The frame `{"a":1}` is
still queued when `{"bb":22}` is appended into the array the two share, and is
dequeued as `{"bb":2`: the frames dequeued are `{}`, `{"bb":2`, `{"bb":22}`, of
which the second was never given to the producer, so they are no subsequence of
the frames enqueued.  The same schedule on the video stream delivers the frames
as they were given. -/
theorem queued_info_frame_is_overwritten :
    (Fan.attach telemetryDeps .info NewBroadcastService 2 examplePassword 2 examplePassword 4
        examplePassword).P.pc = .looping 0 ∧
    produced [.produce emptyObject, .receiveA, .produce smallObject, .produce largerObject,
        .receiveA, .receiveB]
      = [emptyObject, smallObject, largerObject] ∧
    (Fan.run telemetryDeps .info (Fan.attach telemetryDeps .info NewBroadcastService 2
        examplePassword 2 examplePassword 4 examplePassword)
        [.produce emptyObject, .receiveA, .produce smallObject]).b.queue 0 = [smallObject] ∧
    (Fan.run telemetryDeps .info (Fan.attach telemetryDeps .info NewBroadcastService 2
        examplePassword 2 examplePassword 4 examplePassword)
        [.produce emptyObject, .receiveA, .produce smallObject,
         .produce largerObject]).b.queue 0 = [[123, 34, 98, 98, 34, 58, 50], largerObject] ∧
    Fan.dequeued telemetryDeps .info (Fan.attach telemetryDeps .info NewBroadcastService 2
        examplePassword 2 examplePassword 4 examplePassword)
        [.produce emptyObject, .receiveA, .produce smallObject, .produce largerObject,
         .receiveA, .receiveB]
      = [emptyObject, [123, 34, 98, 98, 34, 58, 50], largerObject] ∧
    [123, 34, 98, 98, 34, 58, 50] ∉ produced [.produce emptyObject, .receiveA,
        .produce smallObject, .produce largerObject, .receiveA, .receiveB] ∧
    ¬ (Fan.dequeued telemetryDeps .info (Fan.attach telemetryDeps .info NewBroadcastService 2
        examplePassword 2 examplePassword 4 examplePassword)
        [.produce emptyObject, .receiveA, .produce smallObject, .produce largerObject,
         .receiveA, .receiveB]).Sublist
      (produced [.produce emptyObject, .receiveA, .produce smallObject, .produce largerObject,
        .receiveA, .receiveB]) ∧
    Fan.dequeued telemetryDeps .video (Fan.attach telemetryDeps .video NewBroadcastService 2
        examplePassword 2 examplePassword 4 examplePassword)
        [.produce emptyObject, .receiveA, .produce smallObject, .produce largerObject,
         .receiveA, .receiveB]
      = [emptyObject, smallObject, largerObject] := by
  decide

/-! ## Reassembly of the info stream -/

theorem BroadcastService_appendBuffer_queue (deps : Deps) (b : BroadcastService) (ch : Nat)
    (buffer : List UInt8) (a : Nat) :
    ((b.appendBuffer deps ch buffer).queue a).length = (b.queue a).length ∧
    (a ≠ ch → (b.appendBuffer deps ch buffer).queue a = b.queue a) := by
  unfold BroadcastService.appendBuffer
  split
  · split
    · exact ⟨rfl, fun _ => rfl⟩
    · rename_i c hc
      by_cases ha : a = ch
      · subst ha
        have hget := heap_set_get b.heap a c
          ({ c with buf := overwriteShared buffer (b.backing a).frames c.buf }) hc
        simp only [BroadcastService.queue, hget, hc]
        exact ⟨overwriteShared_length _ _ _, fun h => absurd rfl h⟩
      · have hne : ch ≠ a := fun h => ha h.symm
        simp only [BroadcastService.queue, List.getElem?_set_ne hne]
        exact ⟨trivial, fun _ => trivial⟩
  · exact ⟨rfl, fun _ => rfl⟩

theorem SendInfoStream_step_rejected (deps : Deps) (b : BroadcastService) (p : SendProc)
    (ch : Nat) (d : Frame) (hpc : p.pc = .looping ch) (hbuf : p.buffer = [])
    (hj : deps.jsonUnmarshalOk d = false) (hlen : d.length ≤ MaxJsonSize) :
    SendInfoStream.step deps b p (some d) = (b.appendBuffer deps ch d, p) := by
  have hreset : (⟨.looping ch, p.vehicleID, [], p.errChan⟩ : SendProc) = p := by
    have h := SendProc_reset_buffer p hbuf
    rw [hpc] at h
    exact h
  have hnot : ¬ d.length > MaxJsonSize := by omega
  simp only [SendInfoStream.step, hpc, hbuf, List.nil_append, hj, Bool.false_eq_true, if_false,
    hnot, hreset]

theorem SendInfoStream_feed_rejected (deps : Deps) (b : BroadcastService) (p : SendProc)
    (ch : Nat) (chunks : List Frame) (hpc : p.pc = .looping ch) (hbuf : p.buffer = [])
    (hch : ∀ d ∈ chunks, deps.jsonUnmarshalOk d = false ∧ d.length ≤ MaxJsonSize) :
    SendInfoStream.feed deps b p chunks
      = (chunks.foldl (fun b1 d => b1.appendBuffer deps ch d) b, p) := by
  induction chunks generalizing b with
  | nil => rfl
  | cons d ds ih =>
    have hd := hch d (by simp)
    simp only [SendInfoStream.feed, List.foldl_cons,
      SendInfoStream_step_rejected deps b p ch d hpc hbuf hd.1 hd.2]
    exact ih _ (fun x hx => hch x (by simp [hx]))

theorem appendBuffer_foldl_queue (deps : Deps) (ch : Nat) (chunks : List Frame)
    (b : BroadcastService) (a : Nat) :
    ((chunks.foldl (fun b1 d => b1.appendBuffer deps ch d) b).queue a).length
      = (b.queue a).length ∧
    (a ≠ ch → (chunks.foldl (fun b1 d => b1.appendBuffer deps ch d) b).queue a = b.queue a) := by
  induction chunks generalizing b with
  | nil => exact ⟨rfl, fun _ => rfl⟩
  | cons d ds ih =>
    obtain ⟨h1, h2⟩ := ih (b.appendBuffer deps ch d)
    obtain ⟨h3, h4⟩ := BroadcastService_appendBuffer_queue deps b ch d a
    exact ⟨h1.trans h3, fun ha => (h2 ha).trans (h4 ha)⟩

/-- Claim C13, on the code: chunks that do not unmarshal on their own are not
kept.  For a producer at the top of its loop, after any sequence of chunks each
of which fails to unmarshal by itself (and is no longer than `MaxJsonSize`), the
producer is exactly as before, its buffer empty again, and nothing was forwarded,
also when the chunks together are one JSON object: every channel queues as many
frames as before, and the service differs from before only by the appends of
the chunks into the array of `buffer`, which leave the other channels as they
were. -/
theorem split_object_is_discarded (deps : Deps) (b : BroadcastService) (p : SendProc)
    (ch : Nat) (chunks : List Frame) (hpc : p.pc = .looping ch) (hbuf : p.buffer = [])
    (hch : ∀ d ∈ chunks, deps.jsonUnmarshalOk d = false ∧ d.length ≤ MaxJsonSize) :
    SendInfoStream.feed deps b p chunks
      = (chunks.foldl (fun b1 d => b1.appendBuffer deps ch d) b, p) ∧
    (SendInfoStream.feed deps b p chunks).2.buffer = [] ∧
    (∀ a, ((SendInfoStream.feed deps b p chunks).1.queue a).length = (b.queue a).length) ∧
    (∀ a, a ≠ ch → (SendInfoStream.feed deps b p chunks).1.queue a = b.queue a) := by
  have h := SendInfoStream_feed_rejected deps b p ch chunks hpc hbuf hch
  rw [h]
  exact ⟨rfl, hbuf, fun a => (appendBuffer_foldl_queue deps ch chunks b a).1,
    fun a ha => (appendBuffer_foldl_queue deps ch chunks b a).2 ha⟩

/-- The object `{}` arrives on the live demo service as the chunks `{` and `}`:
neither unmarshals alone, together they do, and after both the buffer is empty
and the info queue holds one frame as before, nothing having been forwarded; that
frame, `{}` before, shares the array of the buffer and now reads `}}`. -/
theorem split_object_is_discarded_witness :
    demoDeps.jsonUnmarshalOk ([123] ++ [125]) = true ∧
    liveInfoProducer.pc = .looping 1 ∧ liveService.queue 1 = [emptyObject] ∧
    (SendInfoStream.feed demoDeps liveService liveInfoProducer [[123], [125]]).2.buffer = [] ∧
    ((SendInfoStream.feed demoDeps liveService liveInfoProducer [[123], [125]]).1.queue 1).length
      = (liveService.queue 1).length ∧
    (SendInfoStream.feed demoDeps liveService liveInfoProducer [[123], [125]]).1.queue 1
      = [[125, 125]] ∧
    (SendInfoStream.feed demoDeps liveService liveInfoProducer [[123], [125]]).1.queue 0
      = liveService.queue 0 :=
  ⟨by decide, by decide, by decide,
    (split_object_is_discarded demoDeps liveService liveInfoProducer 1 [[123], [125]]
      (by decide) (by decide) (by decide)).2.1,
    (split_object_is_discarded demoDeps liveService liveInfoProducer 1 [[123], [125]]
      (by decide) (by decide) (by decide)).2.2.1 1,
    by decide,
    (split_object_is_discarded demoDeps liveService liveInfoProducer 1 [[123], [125]]
      (by decide) (by decide) (by decide)).2.2.2 0 (by decide)⟩

theorem SendInfoStream_step_small (deps : Deps) (b : BroadcastService) (p : SendProc)
    (d : Frame) (hbuf : ∀ a, p.pc = .looping a → p.buffer = [])
    (hlen : d.length ≤ MaxJsonSize) :
    (SendInfoStream.step deps b p (some d)).2.errChan = p.errChan ∧
    ((SendInfoStream.step deps b p (some d)).2.pc = .returned → p.pc = .returned) ∧
    (∀ a, (SendInfoStream.step deps b p (some d)).2.pc = .looping a →
      (SendInfoStream.step deps b p (some d)).2.buffer = []) := by
  have hnot : ¬ d.length > MaxJsonSize := by omega
  unfold SendInfoStream.step
  split
  · rename_i ch hpc
    have hb := hbuf ch hpc
    simp only [hb, List.nil_append, hnot, if_false]
    split
    · exact ⟨rfl, fun h => absurd h (by simp), fun a h => absurd h (by simp)⟩
    · exact ⟨rfl, fun h => absurd h (by simp), fun a h => absurd h (by simp)⟩
    · refine ⟨rfl, ?_, fun _ _ => rfl⟩
      intro h
      exact h
  · exact ⟨rfl, fun h => h, hbuf⟩

theorem SendInfoStream_feed_small (deps : Deps) (chunks : List Frame) (b : BroadcastService)
    (p : SendProc) (hbuf : ∀ a, p.pc = .looping a → p.buffer = [])
    (hch : ∀ d ∈ chunks, d.length ≤ MaxJsonSize) :
    (SendInfoStream.feed deps b p chunks).2.errChan = p.errChan ∧
    ((SendInfoStream.feed deps b p chunks).2.pc = .returned → p.pc = .returned) := by
  induction chunks generalizing b p with
  | nil => exact ⟨rfl, fun h => h⟩
  | cons d ds ih =>
    obtain ⟨he, hr, hb⟩ := SendInfoStream_step_small deps b p d hbuf (hch d (by simp))
    obtain ⟨he1, hr1⟩ := ih (SendInfoStream.step deps b p (some d)).1
      (SendInfoStream.step deps b p (some d)).2 hb (fun x hx => hch x (by simp [hx]))
    exact ⟨he1.trans he, fun h => hr (hr1 h)⟩

/-- Claim C15, on the code: chunks of at most 4096 bytes never trigger
`ErrBadRequest`.  For a producer at the top of its loop and every sequence of
chunks of at most 4096 bytes each, however long in total and whether or not any
of it unmarshals, `SendInfoStream` sends nothing on the error channel and does
not return. -/
theorem small_chunks_never_bad_request (deps : Deps) (b : BroadcastService) (p : SendProc)
    (ch : Nat) (chunks : List Frame) (hpc : p.pc = .looping ch) (hbuf : p.buffer = [])
    (hch : ∀ d ∈ chunks, d.length ≤ 4096) :
    (SendInfoStream.feed deps b p chunks).2.errChan = p.errChan ∧
    (SendInfoStream.feed deps b p chunks).2.pc ≠ .returned := by
  obtain ⟨he, hr⟩ := SendInfoStream_feed_small deps chunks b p (fun _ _ => hbuf)
    (fun d hd => by
      have := hch d hd
      simp only [MaxJsonSize]
      norm_num
      omega)
  refine ⟨he, fun h => ?_⟩
  have := hr h
  rw [hpc] at this
  exact absurd this (by simp)

/-- Nine KiB of the byte `x` reach the live demo service in chunks of 4096, 4096
and 1024 bytes, none of which unmarshals: the total exceeds `MaxJsonSize`, yet
the producer's error channel stays empty and the producer has not returned. -/
theorem small_chunks_never_bad_request_witness :
    MaxJsonSize < ([List.replicate 4096 (120 : UInt8), List.replicate 4096 120,
        List.replicate 1024 120].map List.length).sum ∧
    liveInfoProducer.pc = .looping 1 ∧ liveInfoProducer.errChan = [] ∧
    (SendInfoStream.feed demoDeps liveService liveInfoProducer
      [List.replicate 4096 120, List.replicate 4096 120, List.replicate 1024 120]).2.errChan
      = liveInfoProducer.errChan ∧
    (SendInfoStream.feed demoDeps liveService liveInfoProducer
      [List.replicate 4096 120, List.replicate 4096 120, List.replicate 1024 120]).2.pc
      ≠ .returned :=
  ⟨by
      simp only [List.map, List.length_replicate, List.sum_cons, List.sum_nil, MaxJsonSize]
      decide,
    by decide, by decide,
    small_chunks_never_bad_request demoDeps liveService liveInfoProducer 1
      [List.replicate 4096 120, List.replicate 4096 120, List.replicate 1024 120]
      (by decide) (by decide) (by
        intro d hd
        simp only [List.mem_cons, List.mem_singleton, List.not_mem_nil, or_false] at hd
        rcases hd with h | h | h <;> subst h <;>
          exact (List.length_replicate _ _).le.trans (by decide))⟩

theorem SendInfoStream_step_queue (deps : Deps) (b : BroadcastService) (p : SendProc)
    (ch : Nat) (c : Chan) (d : Frame) (hpc : p.pc = .looping ch)
    (hc : b.heap[ch]? = some c) (hb : c.Bounded) (hopen : c.closed = false) :
    (SendInfoStream.step deps b p (some d)).1.queue ch
      = if deps.jsonUnmarshalOk (p.buffer ++ d) = true
        then (if ((b.appendBuffer deps ch (p.buffer ++ d)).queue ch).length < 100
            then (b.appendBuffer deps ch (p.buffer ++ d)).queue ch
            else ((b.appendBuffer deps ch (p.buffer ++ d)).queue ch).tail) ++ [p.buffer ++ d]
        else (b.appendBuffer deps ch (p.buffer ++ d)).queue ch := by
  have h := SendInfoStream_step_heap deps b p ch c d hpc hc hb hopen
  rw [BroadcastService_queue_of_get _ ch _ h]

theorem SendInfoStream_step_consumed (deps : Deps) (b : BroadcastService) (p : SendProc)
    (ch : Nat) (c : Chan) (d : Frame) (hpc : p.pc = .looping ch)
    (hc : b.heap[ch]? = some c) (hb : c.Bounded) (hopen : c.closed = false)
    (hlen : (p.buffer ++ d).length ≤ MaxJsonSize) :
    (SendInfoStream.step deps b p (some d)).2.buffer = [] ∧
    (SendInfoStream.step deps b p (some d)).2.pc = .looping ch := by
  rw [SendInfoStream_step_proc deps b p ch c d hpc hc hb hopen hlen]
  exact ⟨rfl, hpc⟩

/-- Claim C14 as stated fails: the single chunk `{}{}` holds two concatenated JSON
objects.  On the live demo service, where `{}{}` does not unmarshal, the turn
adds no frame to the info queue; with an unmarshal test that accepts it, the
turn adds the one frame `{}{}`.  Either way the chunk does not yield the two
frames `{}`, `{}`. -/
theorem two_objects_in_one_chunk_are_not_split :
    liveService.queue 1 = [emptyObject] ∧ liveInfoProducer = ⟨.looping 1, 2, [], []⟩ ∧
    (SendInfoStream.step demoDeps liveService liveInfoProducer
      (some (emptyObject ++ emptyObject))).1.queue 1 = [emptyObject] ∧
    (SendInfoStream.step laxDeps liveService liveInfoProducer
      (some (emptyObject ++ emptyObject))).1.queue 1
        = [emptyObject, emptyObject ++ emptyObject] ∧
    (SendInfoStream.step demoDeps liveService liveInfoProducer
      (some (emptyObject ++ emptyObject))).1.queue 1 ≠ [emptyObject, emptyObject, emptyObject] ∧
    (SendInfoStream.step laxDeps liveService liveInfoProducer
      (some (emptyObject ++ emptyObject))).1.queue 1
        ≠ [emptyObject, emptyObject, emptyObject] := by
  decide

/-- Claim C14, amended. In a loop turn of `SendInfoStream` on its open channel
the buffer is what it held followed by the new chunk.  When that buffer
unmarshals as a whole, the turn adds exactly one frame to the queue, the whole
buffer (written drop-oldest), and the whole buffer is consumed with it; when it
does not unmarshal, the turn adds nothing.  A turn never forwards part of the
buffer and never more than one frame.  The frames queued before the turn keep
their number; they read as the append of the chunk into the array of `buffer`
left them. -/
theorem forwarded_frame_is_whole_buffer (deps : Deps) (b : BroadcastService) (p : SendProc)
    (ch : Nat) (c : Chan) (d : Frame) (hpc : p.pc = .looping ch)
    (hc : b.heap[ch]? = some c) (hcap : c.cap = 100) (hlen : c.buf.length ≤ 100)
    (hopen : c.closed = false) :
    ((b.appendBuffer deps ch (p.buffer ++ d)).queue ch).length = c.buf.length ∧
    (b.appendBuffer deps ch (p.buffer ++ d)).queue ch
      = (if (p.buffer ++ d).length ≤ (b.backing ch).cap
          then overwriteShared (p.buffer ++ d) (b.backing ch).frames c.buf else c.buf) ∧
    (deps.jsonUnmarshalOk (p.buffer ++ d) = true →
      (SendInfoStream.step deps b p (some d)).1.queue ch
          = (if ((b.appendBuffer deps ch (p.buffer ++ d)).queue ch).length < 100
              then (b.appendBuffer deps ch (p.buffer ++ d)).queue ch
              else ((b.appendBuffer deps ch (p.buffer ++ d)).queue ch).tail)
            ++ [p.buffer ++ d] ∧
        ((p.buffer ++ d).length ≤ MaxJsonSize →
          (SendInfoStream.step deps b p (some d)).2.buffer = [])) ∧
    (deps.jsonUnmarshalOk (p.buffer ++ d) = false →
      (SendInfoStream.step deps b p (some d)).1.queue ch
        = (b.appendBuffer deps ch (p.buffer ++ d)).queue ch) := by
  have hq := SendInfoStream_step_queue deps b p ch c d hpc hc ⟨hcap, hlen⟩ hopen
  obtain ⟨_, hlen0, hq0⟩ := BroadcastService_appendBuffer_on deps b ch c (p.buffer ++ d) hc
  refine ⟨hlen0, hq0, fun hj => ⟨?_, fun hl => ?_⟩, fun hj => ?_⟩
  · rw [hq, if_pos hj]
  · exact (SendInfoStream_step_consumed deps b p ch c d hpc hc ⟨hcap, hlen⟩ hopen hl).1
  · rw [hq, hj]
    simp

/-- On the live demo service, whose info queue holds `{}`, the chunk `{"a":1}`
unmarshals: the info producer's turn adds exactly `{"a":1}` to the queue and
leaves the buffer empty, and the frame queued before reads `{"`.  The chunk `}`
does not unmarshal: the turn adds nothing, and the frame queued before reads
`}}`. -/
theorem forwarded_frame_is_whole_buffer_witness :
    liveInfoProducer.pc = .looping 1 ∧ liveService.heap[1]? = some ⟨100, [emptyObject], false⟩ ∧
    telemetryDeps.jsonUnmarshalOk (liveInfoProducer.buffer ++ smallObject) = true ∧
    (SendInfoStream.step telemetryDeps liveService liveInfoProducer (some smallObject)).1.queue 1
      = [[123, 34], smallObject] ∧
    (SendInfoStream.step telemetryDeps liveService liveInfoProducer (some smallObject)).2.buffer
      = [] ∧
    (SendInfoStream.step telemetryDeps liveService liveInfoProducer (some [125])).1.queue 1
      = [[125, 125]] :=
  ⟨by decide, by decide, by decide,
    (((forwarded_frame_is_whole_buffer telemetryDeps liveService liveInfoProducer 1
      ⟨100, [emptyObject], false⟩ smallObject (by decide) (by decide) rfl (by decide)
      rfl).2.2.1 (by decide)).1).trans (by decide),
    ((forwarded_frame_is_whole_buffer telemetryDeps liveService liveInfoProducer 1
      ⟨100, [emptyObject], false⟩ smallObject (by decide) (by decide) rfl (by decide)
      rfl).2.2.1 (by decide)).2 (by decide),
    ((forwarded_frame_is_whole_buffer telemetryDeps liveService liveInfoProducer 1
      ⟨100, [emptyObject], false⟩ [125] (by decide) (by decide) rfl (by decide)
      rfl).2.2.2 (by decide)).trans (by decide)⟩

/-- Claim C16, on the code: the chunk `null` is forwarded.  `json.Unmarshal`
reports no error for the JSON value `null`; with such an unmarshal test, a loop
turn of `SendInfoStream` that receives the chunk `null` places the frame `null`,
which is not a JSON object, on the info channel, behind the frames queued before
as the append of the chunk left them. -/
theorem null_is_forwarded (deps : Deps) (b : BroadcastService) (p : SendProc)
    (ch : Nat) (c : Chan) (hpc : p.pc = .looping ch) (hbuf : p.buffer = [])
    (hc : b.heap[ch]? = some c) (hcap : c.cap = 100) (hlen : c.buf.length ≤ 100)
    (hopen : c.closed = false) (hnull : deps.jsonUnmarshalOk nullLiteral = true) :
    (SendInfoStream.step deps b p (some nullLiteral)).1.queue ch
      = (if ((b.appendBuffer deps ch nullLiteral).queue ch).length < 100
          then (b.appendBuffer deps ch nullLiteral).queue ch
          else ((b.appendBuffer deps ch nullLiteral).queue ch).tail) ++ [nullLiteral] ∧
    ((b.appendBuffer deps ch nullLiteral).queue ch).length = c.buf.length := by
  have hq := SendInfoStream_step_queue deps b p ch c nullLiteral hpc hc ⟨hcap, hlen⟩ hopen
  obtain ⟨_, hlen0, _⟩ := BroadcastService_appendBuffer_on deps b ch c nullLiteral hc
  rw [hbuf, List.nil_append, hnull] at hq
  exact ⟨by simpa using hq, hlen0⟩

/-- On the live demo service with an unmarshal test that accepts `null`, the info
producer's turn on the chunk `null` puts the frame `null` in the info queue,
behind the frame queued before, which was `{}` and now reads `nu`. -/
theorem null_is_forwarded_witness :
    nullDeps.jsonUnmarshalOk nullLiteral = true ∧ liveInfoProducer.pc = .looping 1 ∧
    liveService.heap[1]? = some ⟨100, [emptyObject], false⟩ ∧
    (SendInfoStream.step nullDeps liveService liveInfoProducer (some nullLiteral)).1.queue 1
      = [[110, 117], nullLiteral] :=
  ⟨by decide, by decide, by decide,
    (null_is_forwarded nullDeps liveService liveInfoProducer 1 ⟨100, [emptyObject], false⟩
      (by decide) (by decide) (by decide) rfl (by decide) rfl (by decide)).1.trans
      (by decide)⟩

/-! ## End of a producer -/

theorem getTurns_drain (k : StreamKind) (ch : Nat) (q : List Frame) (b : BroadcastService)
    (p : GetProc) (c : Chan) (hpc : p.pc = .ranging ch) (hc : b.heap[ch]? = some c)
    (hq : c.buf = q) (hclosed : c.closed = true) :
    (getTurns k (q.length + 1) b p).2 = ⟨.returned, p.stream ++ q, p.errChan⟩ := by
  induction q generalizing b p c with
  | nil =>
    simp only [List.length_nil, Nat.zero_add, getTurns, getStep_eq, GetVideoStream.step, hpc,
      hc, Chan.recv, hq, hclosed, if_true, List.append_nil]
  | cons d rest ih =>
    have hstep : GetVideoStream.step b p
        = ({ b with heap := b.heap.set ch ({ c with buf := rest }) },
            { p with stream := p.stream ++ [d] }) := by
      simp only [GetVideoStream.step, hpc, hc, Chan.recv, hq]
    have h := ih ({ b with heap := b.heap.set ch ({ c with buf := rest }) })
      ({ p with stream := p.stream ++ [d] }) ({ c with buf := rest }) hpc
      (heap_set_get b.heap ch c _ hc) rfl hclosed
    show (getTurns k (rest.length + 1) (getStep k b p).1 (getStep k b p).2).2 = _
    rw [getStep_eq, hstep]
    simpa using h

theorem sendStep_closed (deps : Deps) (k : StreamKind) (b : BroadcastService) (p : SendProc)
    (ch : Nat) (c : Chan) (hpc : p.pc = .looping ch) (hc : b.heap[ch]? = some c)
    (hopen : c.closed = false) :
    (sendStep deps k b p none).2.pc = .returned ∧
    (sendStep deps k b p none).2.errChan = p.errChan ∧
    (sendStep deps k b p none).1.heap[ch]? = some { c with closed := true } ∧
    (sendStep deps k b p none).1.streams k p.vehicleID = none := by
  have h1 := heap_set_get b.heap ch c ({ c with closed := true }) hc
  cases k with
  | video =>
    simp only [sendStep, SendVideoStream.step, hpc, BroadcastService_onChan_close b ch c hc hopen,
      BroadcastService.streams, SyncMap.Delete, h1]
    simp
  | info =>
    simp only [sendStep, SendInfoStream.step, hpc, SendInfoStream_deferred_on b p ch c hc hopen,
      BroadcastService.streams, SyncMap.Delete, h1]
    simp

theorem SendInfoStream_step_oversized (deps : Deps) (b : BroadcastService) (p : SendProc)
    (ch : Nat) (c : Chan) (d : Frame) (hpc : p.pc = .looping ch) (hbuf : p.buffer = [])
    (hc : b.heap[ch]? = some c) (hb : c.Bounded) (hopen : c.closed = false)
    (hlen : d.length > MaxJsonSize) :
    (SendInfoStream.step deps b p (some d)).2.pc = .returned ∧
    (SendInfoStream.step deps b p (some d)).2.errChan = p.errChan ++ [.ErrBadRequest] ∧
    (∃ c1, (SendInfoStream.step deps b p (some d)).1.heap[ch]? = some c1 ∧
      c1.closed = true ∧ c1.buf.length ≤ 100 ∧
      c1.buf = (SendInfoStream.step deps b p (some d)).1.queue ch) ∧
    (SendInfoStream.step deps b p (some d)).1.infoStreams p.vehicleID = none := by
  obtain ⟨h0, hlen0, _⟩ := BroadcastService_appendBuffer_on deps b ch c d hc
  have hb0 : Chan.Bounded { c with buf := (b.appendBuffer deps ch d).queue ch } :=
    ⟨hb.1, by show ((b.appendBuffer deps ch d).queue ch).length ≤ 100; rw [hlen0]; exact hb.2⟩
  simp only [SendInfoStream.step, hpc, hbuf, List.nil_append, hlen, if_true]
  cases hj : deps.jsonUnmarshalOk d with
  | true =>
    obtain ⟨b1, hs1, hheap1, _, _⟩ :=
      BroadcastService_sendBuffer_on (b.appendBuffer deps ch d) ch _ d h0 hb0 hopen
    have hget1 : b1.heap[ch]? = some ({ c with
        buf := (if ((b.appendBuffer deps ch d).queue ch).length < 100
          then (b.appendBuffer deps ch d).queue ch
          else ((b.appendBuffer deps ch d).queue ch).tail) ++ [d] }) := by
      rw [hheap1]
      exact heap_set_get _ ch _ _ h0
    have hb1 := (Chan_enqueue_bounded_of_open _ d hb0).2
    simp only [if_true, hs1]
    rw [SendInfoStream_deferred_on _ _ ch _ hget1 hopen]
    have h2 := heap_set_get _ ch _
      ({ c with buf := (if ((b.appendBuffer deps ch d).queue ch).length < 100
          then (b.appendBuffer deps ch d).queue ch
          else ((b.appendBuffer deps ch d).queue ch).tail) ++ [d],
                closed := true }) hget1
    refine ⟨rfl, rfl, ⟨_, h2, rfl, hb1, ?_⟩, ?_⟩
    · exact (BroadcastService_queue_of_get _ ch _ h2).symm
    · simp [SyncMap.Delete]
  | false =>
    simp only [Bool.false_eq_true, if_false]
    rw [SendInfoStream_deferred_on _ _ ch _ h0 hopen]
    have h2 := heap_set_get _ ch _
      ({ c with buf := (b.appendBuffer deps ch d).queue ch, closed := true }) h0
    refine ⟨rfl, rfl, ⟨_, h2, rfl, hb0.2, ?_⟩, ?_⟩
    · exact (BroadcastService_queue_of_get _ ch _ h2).symm
    · simp [SyncMap.Delete]

theorem getStart_not_live (deps : Deps) (k : StreamKind) (b : BroadcastService) (v did : Int)
    (pw : List UInt8) (hreg : b.streams k v = none) :
    (∀ a, (getStart deps k b v did pw).pc ≠ .ranging a) ∧
    (∀ d, deps.GetDispatcher did = .found d → CheckPassword deps pw d.PasswordHash = true →
      (d.GrantsType = AllGrants ∨ (d.GrantsType = ListGrants ∧ v ∈ d.Grants)) →
      getStart deps k b v did pw = ⟨.returned, [], [.ErrNotFound]⟩) := by
  constructor
  · intro a ha
    have := getStart_ranging deps k b v did pw a ha
    rw [hreg] at this
    exact absurd this (by simp)
  · intro d hd hp hg
    have hg' := (grants_check_iff d v).mpr hg
    cases k with
    | video =>
      have hreg' : b.videoStreams v = none := hreg
      simp only [getStart, GetVideoStream.start, hd, hp, hg', hreg']
      rfl
    | info =>
      have hreg' : b.infoStreams v = none := hreg
      simp only [getStart, GetInfoStream.start, hd, hp, hg', hreg']
      rfl

/-- Claim C17. For a producer of vehicle `v` in its loop on its open channel
(in particular one that was never replaced), when its input stream ends
`SendVideoStream` / `SendInfoStream` closes that channel, deletes the registry
entry of `v` and returns; on the info path the same happens, after
`ErrBadRequest` is sent, when a chunk makes the buffer longer than `MaxJsonSize`.
A subscriber ranging over the channel then receives the frames still buffered, at
most 100, and returns at end-of-stream, and a later subscribe for `v` does not
attach: with valid credentials and grants it reports `ErrNotFound`. -/
theorem producer_end_releases_entry (deps : Deps) (k : StreamKind) (b : BroadcastService)
    (P : SendProc) (v : Int) (ch : Nat) (c : Chan)
    (hpc : P.pc = .looping ch) (hv : P.vehicleID = v) (hbuf : P.buffer = [])
    (hc : b.heap[ch]? = some c) (hcap : c.cap = 100) (hlen : c.buf.length ≤ 100)
    (hopen : c.closed = false) :
    ((sendStep deps k b P none).2.pc = .returned ∧
      (sendStep deps k b P none).1.heap[ch]? = some { c with closed := true } ∧
      (sendStep deps k b P none).1.streams k v = none ∧
      (∀ S : GetProc, S.pc = .ranging ch →
        (getTurns k (c.buf.length + 1) (sendStep deps k b P none).1 S).2
          = ⟨.returned, S.stream ++ c.buf, S.errChan⟩) ∧
      (∀ (did : Int) (pw : List UInt8),
        (∀ a, (getStart deps k (sendStep deps k b P none).1 v did pw).pc ≠ .ranging a) ∧
        (∀ d, deps.GetDispatcher did = .found d → CheckPassword deps pw d.PasswordHash = true →
          (d.GrantsType = AllGrants ∨ (d.GrantsType = ListGrants ∧ v ∈ d.Grants)) →
          getStart deps k (sendStep deps k b P none).1 v did pw
            = ⟨.returned, [], [.ErrNotFound]⟩))) ∧
    (∀ d : Frame, d.length > MaxJsonSize →
      (SendInfoStream.step deps b P (some d)).2.pc = .returned ∧
      (SendInfoStream.step deps b P (some d)).2.errChan = P.errChan ++ [.ErrBadRequest] ∧
      (∃ c1, (SendInfoStream.step deps b P (some d)).1.heap[ch]? = some c1 ∧
        c1.closed = true ∧ c1.buf.length ≤ 100 ∧
        (∀ S : GetProc, S.pc = .ranging ch →
          (getTurns .info (c1.buf.length + 1) (SendInfoStream.step deps b P (some d)).1 S).2
            = ⟨.returned, S.stream ++ c1.buf, S.errChan⟩)) ∧
      (SendInfoStream.step deps b P (some d)).1.infoStreams v = none ∧
      (∀ (did : Int) (pw : List UInt8) (a : Nat),
        (GetInfoStream.start deps (SendInfoStream.step deps b P (some d)).1 v did pw).pc
          ≠ .ranging a)) := by
  constructor
  · obtain ⟨h1, _, h3, h4⟩ := sendStep_closed deps k b P ch c hpc hc hopen
    rw [hv] at h4
    exact ⟨h1, h3, h4, fun S hS => getTurns_drain k ch c.buf _ S _ hS h3 rfl rfl,
      fun did pw => getStart_not_live deps k _ v did pw h4⟩
  · intro d hd
    obtain ⟨h1, h2, ⟨c1, hc1, hcl, hl, _⟩, h4⟩ :=
      SendInfoStream_step_oversized deps b P ch c d hpc hbuf hc ⟨hcap, hlen⟩ hopen hd
    rw [hv] at h4
    exact ⟨h1, h2, ⟨c1, hc1, hcl, hl, fun S hS => getTurns_drain .info ch c1.buf _ S c1 hS hc1 rfl hcl⟩,
      h4, fun did pw a => (getStart_not_live deps .info _ v did pw h4).1 a⟩

/-- On the live demo service the video producer of vehicle 2 (channel 0, holding
`[7]`) ends: its channel is closed, the entry of vehicle 2 is gone, a subscriber
that was ranging over the channel receives `[7]` and returns within two turns,
and dispatcher 2 subscribing afterwards gets `ErrNotFound`. -/
theorem producer_end_releases_entry_witness :
    liveVideoProducer = ⟨.looping 0, 2, [], []⟩ ∧
    liveService.heap[0]? = some ⟨100, [[7]], false⟩ ∧
    (sendStep demoDeps .video liveService liveVideoProducer none).1.heap[0]?
      = some ⟨100, [[7]], true⟩ ∧
    (sendStep demoDeps .video liveService liveVideoProducer none).1.streams .video 2 = none ∧
    (getTurns .video 2 (sendStep demoDeps .video liveService liveVideoProducer none).1
      ⟨.ranging 0, [], []⟩).2 = ⟨.returned, [[7]], []⟩ ∧
    getStart demoDeps .video (sendStep demoDeps .video liveService liveVideoProducer none).1
      2 2 examplePassword = ⟨.returned, [], [.ErrNotFound]⟩ :=
  ⟨by decide, by decide,
    (producer_end_releases_entry demoDeps .video liveService liveVideoProducer 2 0
      ⟨100, [[7]], false⟩ (by decide) (by decide) (by decide) (by decide) rfl (by decide)
      rfl).1.2.1,
    (producer_end_releases_entry demoDeps .video liveService liveVideoProducer 2 0
      ⟨100, [[7]], false⟩ (by decide) (by decide) (by decide) (by decide) rfl (by decide)
      rfl).1.2.2.1,
    (producer_end_releases_entry demoDeps .video liveService liveVideoProducer 2 0
      ⟨100, [[7]], false⟩ (by decide) (by decide) (by decide) (by decide) rfl (by decide)
      rfl).1.2.2.2.1 ⟨.ranging 0, [], []⟩ rfl,
    ((producer_end_releases_entry demoDeps .video liveService liveVideoProducer 2 0
      ⟨100, [[7]], false⟩ (by decide) (by decide) (by decide) (by decide) rfl (by decide)
      rfl).1.2.2.2.2 2 examplePassword).2 ⟨2, AllGrants, [], examplePassword⟩ rfl
      (by decide) (Or.inl rfl)⟩

/-! ## End-of-stream on a dispatcher connection -/

theorem GetVideoStream_step_errChan (b : BroadcastService) (p : GetProc) :
    (GetVideoStream.step b p).2.errChan = p.errChan := by
  unfold GetVideoStream.step
  split
  · split
    · rfl
    · split <;> rfl
  · rfl

theorem Handler_select_idle (h : Handler) (herr : h.errChan = []) (hctx : h.ctxDone = false) :
    h.select = h := by
  unfold Handler.select
  split
  · rfl
  · simp [herr, hctx]

theorem Egress_step_waiting (s : Egress) (e : EgressEvent)
    (hc : e ≠ .cancel) (herr : s.h.errChan = []) (hctx : s.h.ctxDone = false) :
    (Egress.step s e).h = s.h := by
  cases e with
  | turn k =>
    cases k with
    | info =>
      have h := GetVideoStream_step_errChan s.b s.getInfo
      rw [← GetInfoStream_step_eq] at h
      simp only [Egress.step, h, List.drop_length, List.map_nil, List.append_nil]
    | video =>
      have h := GetVideoStream_step_errChan s.b s.getVideo
      simp only [Egress.step, h, List.drop_length, List.map_nil, List.append_nil]
  | select => exact Handler_select_idle s.h herr hctx
  | cancel => exact absurd rfl hc
  | world b => rfl

theorem Egress_run_waiting (es : List EgressEvent) (s : Egress)
    (hes : ∀ e ∈ es, e ≠ .cancel) (herr : s.h.errChan = []) (hctx : s.h.ctxDone = false) :
    (Egress.run s es).h = s.h := by
  induction es generalizing s with
  | nil => rfl
  | cons e es ih =>
    have h1 := Egress_step_waiting s e (hes e (by simp)) herr hctx
    have h2 := ih (Egress.step s e) (fun x hx => hes x (by simp [hx])) (by rw [h1]; exact herr)
      (by rw [h1]; exact hctx)
    exact h2.trans h1

theorem GetVideoStream_step_end (b : BroadcastService) (p : GetProc) (c : Nat) (chan : Chan)
    (hpc : p.pc = .ranging c) (hc : b.heap[c]? = some chan) (hclosed : chan.closed = true)
    (hempty : chan.buf = []) :
    GetVideoStream.step b p = (b, { p with pc := .returned }) := by
  simp only [GetVideoStream.step, hpc, hc, Chan.recv, hempty, hclosed, if_true]

/-- Claim C18, on the code: end-of-stream is not signalled.  On a dispatcher
connection whose two usecase calls subscribed successfully (nothing on the error
channel, handler in its loop), when the subscribed channels are closed and
drained, `GetInfoStream` and `GetVideoStream` return on their next turn, and in
whatever follows, short of a cancellation of the context, nothing is ever sent on
the error channel: the handler stays in its `select` loop and the connection is
never closed. -/
theorem end_of_stream_is_not_signalled (s : Egress) (ci cv : Nat) (chi chv : Chan)
    (hserv : s.h.serving = true) (hconn : s.h.connClosed = false)
    (herr : s.h.errChan = []) (hctx : s.h.ctxDone = false)
    (hi : s.getInfo.pc = .ranging ci) (hv : s.getVideo.pc = .ranging cv)
    (hci : s.b.heap[ci]? = some chi) (hcv : s.b.heap[cv]? = some chv)
    (hie : chi.closed = true ∧ chi.buf = []) (hve : chv.closed = true ∧ chv.buf = [])
    (es : List EgressEvent) (hes : ∀ e ∈ es, e ≠ .cancel) :
    (Egress.step s (.turn .info)).getInfo.pc = .returned ∧
    (Egress.step s (.turn .info)).getInfo.errChan = s.getInfo.errChan ∧
    (Egress.step s (.turn .video)).getVideo.pc = .returned ∧
    (Egress.step s (.turn .video)).getVideo.errChan = s.getVideo.errChan ∧
    (Egress.run s es).h.errChan = [] ∧
    (Egress.run s es).h.serving = true ∧
    (Egress.run s es).h.connClosed = false := by
  have h := Egress_run_waiting es s hes herr hctx
  have h1 := GetVideoStream_step_end s.b s.getInfo ci chi hi hci hie.1 hie.2
  have h2 := GetVideoStream_step_end s.b s.getVideo cv chv hv hcv hve.1 hve.2
  rw [← GetInfoStream_step_eq] at h1
  refine ⟨?_, ?_, ?_, ?_, by rw [h]; exact herr, by rw [h]; exact hserv, by rw [h]; exact hconn⟩
  · simp only [Egress.step, h1]
  · simp only [Egress.step, h1]
  · simp only [Egress.step, h2]
  · simp only [Egress.step, h2]

/-- Dispatcher 2 is subscribed to vehicle 2 on the live demo service; both
producers end and the dispatcher's calls drain the two channels.  From there both
calls return on their next turn, and after further turns and passes of the
`select` the handler is still in its loop with the connection open. -/
theorem end_of_stream_is_not_signalled_witness :
    (Egress.init demoDeps liveService 2 2 examplePassword).getInfo = ⟨.ranging 1, [], []⟩ ∧
    (Egress.init demoDeps liveService 2 2 examplePassword).getVideo = ⟨.ranging 0, [], []⟩ ∧
    (Egress.step (Egress.run (Egress.init demoDeps liveService 2 2 examplePassword)
      [.world endedService, .turn .info, .turn .video]) (.turn .info)).getInfo
        = ⟨.returned, [emptyObject], []⟩ ∧
    (Egress.run (Egress.run (Egress.init demoDeps liveService 2 2 examplePassword)
      [.world endedService, .turn .info, .turn .video])
      [.turn .info, .turn .video, .select, .select]).h.serving = true ∧
    (Egress.run (Egress.run (Egress.init demoDeps liveService 2 2 examplePassword)
      [.world endedService, .turn .info, .turn .video])
      [.turn .info, .turn .video, .select, .select]).h.connClosed = false :=
  ⟨by decide, by decide, by decide,
    (end_of_stream_is_not_signalled (Egress.run (Egress.init demoDeps liveService 2 2
      examplePassword) [.world endedService, .turn .info, .turn .video]) 1 0
      ⟨100, [], true⟩ ⟨100, [], true⟩ (by decide) (by decide) (by decide) (by decide)
      (by decide) (by decide) (by decide) (by decide) ⟨rfl, rfl⟩ ⟨rfl, rfl⟩
      [.turn .info, .turn .video, .select, .select] (by simp)).2.2.2.2.2.1,
    (end_of_stream_is_not_signalled (Egress.run (Egress.init demoDeps liveService 2 2
      examplePassword) [.world endedService, .turn .info, .turn .video]) 1 0
      ⟨100, [], true⟩ ⟨100, [], true⟩ (by decide) (by decide) (by decide) (by decide)
      (by decide) (by decide) (by decide) (by decide) ⟨rfl, rfl⟩ ⟨rfl, rfl⟩
      [.turn .info, .turn .video, .select, .select] (by simp)).2.2.2.2.2.2⟩

/-! ## End of input on a vehicle connection -/

theorem Ingress_read_eof (deps : Deps) (s : Ingress) (k : StreamKind) :
    Ingress.step deps s (.read k .eof) = s.setPump k false := by
  cases s with
  | mk b h ip vp si sv =>
    cases h
    cases k
    · cases ip <;>
        simp [Ingress.step, Ingress.pump, Ingress.setPump, VehicleDelivery.getStream,
          Handler.setChan, Handler.chan]
    · cases vp <;>
        simp [Ingress.step, Ingress.pump, Ingress.setPump, VehicleDelivery.getStream,
          Handler.setChan, Handler.chan]

theorem Ingress_turn_waiting (deps : Deps) (s : Ingress) (k : StreamKind)
    (hbuf : (s.h.chan k).buf = []) (hopen : (s.h.chan k).closed = false) :
    Ingress.turn deps s k = s := by
  unfold Ingress.turn
  split
  · simp [Chan.recv, hbuf, hopen]
  · rfl

theorem Ingress_step_waiting (deps : Deps) (s : Ingress) (e : IngressEvent)
    (hc : e ≠ .cancel) (hip : s.infoPump = false) (hvp : s.videoPump = false)
    (herr : s.h.errChan = []) (hctx : s.h.ctxDone = false)
    (hib : s.h.infoChan.buf = []) (hio : s.h.infoChan.closed = false)
    (hvb : s.h.videoChan.buf = []) (hvo : s.h.videoChan.closed = false) :
    Ingress.step deps s e = s := by
  cases e with
  | read k r => cases k <;> simp [Ingress.step, Ingress.pump, hip, hvp]
  | turn k =>
    cases k
    · exact Ingress_turn_waiting deps s .info hib hio
    · exact Ingress_turn_waiting deps s .video hvb hvo
  | select =>
    show { s with h := s.h.select } = s
    rw [Handler_select_idle s.h herr hctx]
  | cancel => exact absurd rfl hc

theorem Ingress_run_waiting (deps : Deps) (es : List IngressEvent) (s : Ingress)
    (hes : ∀ e ∈ es, e ≠ .cancel) (hip : s.infoPump = false) (hvp : s.videoPump = false)
    (herr : s.h.errChan = []) (hctx : s.h.ctxDone = false)
    (hib : s.h.infoChan.buf = []) (hio : s.h.infoChan.closed = false)
    (hvb : s.h.videoChan.buf = []) (hvo : s.h.videoChan.closed = false) :
    Ingress.run deps s es = s := by
  induction es with
  | nil => rfl
  | cons e es ih =>
    show Ingress.run deps (Ingress.step deps s e) es = s
    rw [Ingress_step_waiting deps s e (hes e (by simp)) hip hvp herr hctx hib hio hvb hvo]
    exact ih (fun x hx => hes x (by simp [hx]))

/-- Claim C19, on the code: an end of input leaves the producer registered.  On a
vehicle connection whose handler is in its loop with nothing pending (no error
offered, context not cancelled, both of its channels empty and open), when the
reads on the info stream and on the video stream return `io.EOF`, both
`getStream` goroutines end, and in whatever follows, short of a cancellation of
the context, nothing changes: nothing is sent on the error channel, neither
channel is closed, the handler stays in its `select` loop with the connection
open, and the service, its registry included, and the two usecase calls are as
they were, so a `SendInfoStream` / `SendVideoStream` that was registered and in
its loop stays so. -/
theorem eof_leaves_producer_registered (deps : Deps) (s : Ingress)
    (hserv : s.h.serving = true) (hconn : s.h.connClosed = false)
    (herr : s.h.errChan = []) (hctx : s.h.ctxDone = false)
    (hib : s.h.infoChan.buf = []) (hio : s.h.infoChan.closed = false)
    (hvb : s.h.videoChan.buf = []) (hvo : s.h.videoChan.closed = false)
    (es : List IngressEvent) (hes : ∀ e ∈ es, e ≠ .cancel) :
    (Ingress.step deps s (.read .info .eof)).h = s.h ∧
    (Ingress.step deps s (.read .video .eof)).h = s.h ∧
    (Ingress.run deps s (.read .info .eof :: .read .video .eof :: es)).h = s.h ∧
    (Ingress.run deps s (.read .info .eof :: .read .video .eof :: es)).h.serving = true ∧
    (Ingress.run deps s (.read .info .eof :: .read .video .eof :: es)).h.connClosed = false ∧
    (Ingress.run deps s (.read .info .eof :: .read .video .eof :: es)).h.errChan = [] ∧
    (Ingress.run deps s (.read .info .eof :: .read .video .eof :: es)).b = s.b ∧
    (Ingress.run deps s (.read .info .eof :: .read .video .eof :: es)).sendInfo = s.sendInfo ∧
    (Ingress.run deps s (.read .info .eof :: .read .video .eof :: es)).sendVideo = s.sendVideo := by
  have hrun : Ingress.run deps s (.read .info .eof :: .read .video .eof :: es)
      = (s.setPump .info false).setPump .video false := by
    show Ingress.run deps (Ingress.step deps (Ingress.step deps s (.read .info .eof))
      (.read .video .eof)) es = _
    rw [Ingress_read_eof, Ingress_read_eof]
    exact Ingress_run_waiting deps es _ hes rfl rfl herr hctx hib hio hvb hvo
  rw [hrun, Ingress_read_eof, Ingress_read_eof]
  exact ⟨rfl, rfl, rfl, hserv, hconn, herr, rfl, rfl, rfl⟩

/-- Vehicle 2 connects to a fresh service with its password and both usecase calls
register; one info chunk is read and forwarded; then both reads return `io.EOF`.
After further reads, loop turns and passes of the `select`, the handler is still
in its loop, the connection is open, both channels are still open, vehicle 2 is
still registered for both streams and both calls are still in their loop. -/
theorem eof_leaves_producer_registered_witness :
    (Ingress.run demoDeps (Ingress.run demoDeps
        (Ingress.init demoDeps NewBroadcastService 2 examplePassword)
        [.read .info (.data emptyObject), .turn .info])
      [.read .info .eof, .read .video .eof, .turn .info, .select, .read .info .eof,
       .turn .video, .select]).h = Handler.enter [] ∧
    (Ingress.run demoDeps (Ingress.run demoDeps
        (Ingress.init demoDeps NewBroadcastService 2 examplePassword)
        [.read .info (.data emptyObject), .turn .info])
      [.read .info .eof, .read .video .eof, .turn .info, .select, .read .info .eof,
       .turn .video, .select]).b.streams .info 2 = some 0 ∧
    (Ingress.run demoDeps (Ingress.run demoDeps
        (Ingress.init demoDeps NewBroadcastService 2 examplePassword)
        [.read .info (.data emptyObject), .turn .info])
      [.read .info .eof, .read .video .eof, .turn .info, .select, .read .info .eof,
       .turn .video, .select]).b.streams .video 2 = some 1 ∧
    (Ingress.run demoDeps (Ingress.run demoDeps
        (Ingress.init demoDeps NewBroadcastService 2 examplePassword)
        [.read .info (.data emptyObject), .turn .info])
      [.read .info .eof, .read .video .eof, .turn .info, .select, .read .info .eof,
       .turn .video, .select]).sendInfo.pc = .looping 0 ∧
    (Ingress.run demoDeps (Ingress.run demoDeps
        (Ingress.init demoDeps NewBroadcastService 2 examplePassword)
        [.read .info (.data emptyObject), .turn .info])
      [.read .info .eof, .read .video .eof, .turn .info, .select, .read .info .eof,
       .turn .video, .select]).sendVideo.pc = .looping 1 ∧
    (Ingress.run demoDeps (Ingress.run demoDeps
        (Ingress.init demoDeps NewBroadcastService 2 examplePassword)
        [.read .info (.data emptyObject), .turn .info])
      [.read .info .eof, .read .video .eof, .turn .info, .select, .read .info .eof,
       .turn .video, .select]).b.queue 0 = [emptyObject] :=
  ⟨(eof_leaves_producer_registered demoDeps (Ingress.run demoDeps
        (Ingress.init demoDeps NewBroadcastService 2 examplePassword)
        [.read .info (.data emptyObject), .turn .info])
      (by decide) (by decide) (by decide) (by decide) (by decide) (by decide) (by decide)
      (by decide) [.turn .info, .select, .read .info .eof, .turn .video, .select]
      (by decide)).2.2.1.trans (by decide),
   by decide, by decide, by decide, by decide, by decide⟩

/-! ## The error of a wrong password -/

theorem UsecaseErr_Is_wrongPassword_target (e x : UsecaseErr) :
    e.Is (.wrongPassword x) = false := by
  induction e with
  | wrongPassword e ih => simpa [UsecaseErr.Is] using ih
  | _ => rfl

theorem UsecaseErr_Is_joined (target : UsecaseErr) :
    (UsecaseErr.wrongPassword .ErrAccessDenied).Is target = UsecaseErr.ErrAccessDenied.Is target := by
  simp [UsecaseErr.Is]

/-- Claim C20, refuted as stated: dispatcher 3 of the demo store has no grant for
vehicle 2.  With a wrong password both calls emit `ErrAccessDenied` joined with a
message, with the right password they emit `ErrAccessDenied`; both errors are
`ErrAccessDenied` for `errors.Is`, and no sentinel of `err.go` tells them apart. -/
theorem wrong_password_is_access_denied :
    CheckPassword demoDeps wrongPassword examplePassword = false ∧
    (GetVideoStream.start demoDeps liveService 2 3 wrongPassword).errChan
      = [.wrongPassword .ErrAccessDenied] ∧
    (GetInfoStream.start demoDeps liveService 2 3 wrongPassword).errChan
      = [.wrongPassword .ErrAccessDenied] ∧
    (GetVideoStream.start demoDeps liveService 2 3 examplePassword).errChan
      = [.ErrAccessDenied] ∧
    (GetInfoStream.start demoDeps liveService 2 3 examplePassword).errChan
      = [.ErrAccessDenied] ∧
    (UsecaseErr.wrongPassword .ErrAccessDenied).Is .ErrAccessDenied = true ∧
    UsecaseErr.ErrAccessDenied.Is .ErrAccessDenied = true ∧
    (∀ target : UsecaseErr,
      (UsecaseErr.wrongPassword .ErrAccessDenied).Is target
        = UsecaseErr.ErrAccessDenied.Is target) :=
  ⟨by decide, by decide, by decide, by decide, by decide, by decide, by decide,
    UsecaseErr_Is_joined⟩

/-- Claim C20, as the code has it: for every existing dispatcher record and every
presented password that does not verify against its stored hash, `GetVideoStream`
and `GetInfoStream` emit `ErrAccessDenied` joined with a message and return
without subscribing, whatever the grants of the dispatcher.  For `errors.Is` that
error is of the kind `ErrAccessDenied` and of no other kind of `err.go`: the same
kind as the error emitted when the password verifies and the grant is missing,
from which it differs as a value only. -/
theorem wrong_password_emits_joined_access_denied (deps : Deps) (b : BroadcastService)
    (v did : Int) (pw : List UInt8) (d : Dispatcher)
    (hd : deps.GetDispatcher did = .found d)
    (hp : CheckPassword deps pw d.PasswordHash = false) :
    GetVideoStream.start deps b v did pw = ⟨.returned, [], [.wrongPassword .ErrAccessDenied]⟩ ∧
    GetInfoStream.start deps b v did pw = ⟨.returned, [], [.wrongPassword .ErrAccessDenied]⟩ ∧
    (∀ target : UsecaseErr,
      (UsecaseErr.wrongPassword .ErrAccessDenied).Is target = (target == .ErrAccessDenied)) ∧
    (∀ pw1 : List UInt8, CheckPassword deps pw1 d.PasswordHash = true →
      ¬ (d.GrantsType = AllGrants ∨ (d.GrantsType = ListGrants ∧ v ∈ d.Grants)) →
      GetVideoStream.start deps b v did pw1 = ⟨.returned, [], [.ErrAccessDenied]⟩ ∧
      GetInfoStream.start deps b v did pw1 = ⟨.returned, [], [.ErrAccessDenied]⟩ ∧
      (∀ target : UsecaseErr,
        (UsecaseErr.wrongPassword .ErrAccessDenied).Is target
          = UsecaseErr.ErrAccessDenied.Is target) ∧
      UsecaseErr.wrongPassword .ErrAccessDenied ≠ UsecaseErr.ErrAccessDenied) := by
  have hp1 : ¬ CheckPassword deps pw d.PasswordHash = true := by simp [hp]
  refine ⟨GetVideoStream_start_wrong_password deps b v did pw d hd hp1,
    GetInfoStream_start_wrong_password deps b v did pw d hd hp1, ?_, ?_⟩
  · intro target
    simp [UsecaseErr.Is]
  · intro pw1 h1 hg
    exact ⟨GetVideoStream_start_denied deps b v did pw1 d hd h1 hg,
      GetInfoStream_start_denied deps b v did pw1 d hd h1 hg, UsecaseErr_Is_joined,
      by intro h; cases h⟩

/-- Dispatcher 4 of the demo store holds a grant for vehicle 2 and presents a wrong
password: both calls return with the joined `ErrAccessDenied`.  Dispatcher 3 holds
no grant for vehicle 2: with a wrong password it gets the same joined error, with
the right one the bare `ErrAccessDenied`. -/
theorem wrong_password_emits_joined_access_denied_witness :
    GetVideoStream.start demoDeps liveService 2 4 wrongPassword
      = ⟨.returned, [], [.wrongPassword .ErrAccessDenied]⟩ ∧
    GetInfoStream.start demoDeps liveService 2 4 wrongPassword
      = ⟨.returned, [], [.wrongPassword .ErrAccessDenied]⟩ ∧
    GetVideoStream.start demoDeps liveService 2 3 wrongPassword
      = ⟨.returned, [], [.wrongPassword .ErrAccessDenied]⟩ ∧
    GetVideoStream.start demoDeps liveService 2 3 examplePassword
      = ⟨.returned, [], [.ErrAccessDenied]⟩ :=
  ⟨(wrong_password_emits_joined_access_denied demoDeps liveService 2 4 wrongPassword
      ⟨4, ListGrants, [2, 5], examplePassword⟩ rfl (by decide)).1,
    (wrong_password_emits_joined_access_denied demoDeps liveService 2 4 wrongPassword
      ⟨4, ListGrants, [2, 5], examplePassword⟩ rfl (by decide)).2.1,
    (wrong_password_emits_joined_access_denied demoDeps liveService 2 3 wrongPassword
      ⟨3, ListGrants, [3], examplePassword⟩ rfl (by decide)).1,
    ((wrong_password_emits_joined_access_denied demoDeps liveService 2 3 wrongPassword
      ⟨3, ListGrants, [3], examplePassword⟩ rfl (by decide)).2.2.2
        examplePassword (by decide) (by decide)).1⟩

/-! ## Subscribing to a vehicle that is not live -/

/-- Claim C21. For every dispatcher whose record is found, whose password verifies
and who holds a grant for vehicle `v`: when the video registry has no entry for
`v`, `GetVideoStream` sends `ErrNotFound` and returns at once, having forwarded
nothing, and whatever states the service goes through afterwards (a producer of
`v` may appear) the call stays returned with nothing forwarded; likewise
`GetInfoStream` with the info registry. -/
theorem unregistered_vehicle_is_not_found (deps : Deps) (b : BroadcastService) (v did : Int)
    (pw : List UInt8) (d : Dispatcher) (hd : deps.GetDispatcher did = .found d)
    (hp : CheckPassword deps pw d.PasswordHash = true)
    (hg : d.GrantsType = AllGrants ∨ (d.GrantsType = ListGrants ∧ v ∈ d.Grants)) :
    (b.videoStreams v = none →
      GetVideoStream.start deps b v did pw = ⟨.returned, [], [.ErrNotFound]⟩ ∧
      ∀ bs : List BroadcastService,
        GetVideoStream.run (GetVideoStream.start deps b v did pw) bs
          = ⟨.returned, [], [.ErrNotFound]⟩) ∧
    (b.infoStreams v = none →
      GetInfoStream.start deps b v did pw = ⟨.returned, [], [.ErrNotFound]⟩ ∧
      ∀ bs : List BroadcastService,
        GetInfoStream.run (GetInfoStream.start deps b v did pw) bs
          = ⟨.returned, [], [.ErrNotFound]⟩) := by
  constructor
  · intro hreg
    have h := (getStart_not_live deps .video b v did pw hreg).2 d hd hp hg
    have h1 : GetVideoStream.start deps b v did pw = ⟨.returned, [], [.ErrNotFound]⟩ := h
    refine ⟨h1, fun bs => ?_⟩
    rw [h1]
    exact GetVideoStream_run_of_returned _ rfl bs
  · intro hreg
    have h := (getStart_not_live deps .info b v did pw hreg).2 d hd hp hg
    have h1 : GetInfoStream.start deps b v did pw = ⟨.returned, [], [.ErrNotFound]⟩ := h
    refine ⟨h1, fun bs => ?_⟩
    rw [h1]
    exact GetInfoStream_run_of_returned _ rfl bs

/-- Dispatcher 2 of the demo store (grants `all`) subscribes with its password to
vehicle 2 on a fresh service: both calls return `ErrNotFound` with nothing
forwarded, and stay so when vehicle 2 goes live afterwards. -/
theorem unregistered_vehicle_is_not_found_witness :
    GetVideoStream.start demoDeps NewBroadcastService 2 2 examplePassword
      = ⟨.returned, [], [.ErrNotFound]⟩ ∧
    GetInfoStream.start demoDeps NewBroadcastService 2 2 examplePassword
      = ⟨.returned, [], [.ErrNotFound]⟩ ∧
    liveService.videoStreams 2 = some 0 ∧
    GetVideoStream.run (GetVideoStream.start demoDeps NewBroadcastService 2 2 examplePassword)
      [liveService, liveService] = ⟨.returned, [], [.ErrNotFound]⟩ :=
  ⟨((unregistered_vehicle_is_not_found demoDeps NewBroadcastService 2 2 examplePassword
      ⟨2, AllGrants, [], examplePassword⟩ rfl (by decide) (Or.inl rfl)).1 rfl).1,
    ((unregistered_vehicle_is_not_found demoDeps NewBroadcastService 2 2 examplePassword
      ⟨2, AllGrants, [], examplePassword⟩ rfl (by decide) (Or.inl rfl)).2 rfl).1,
    by decide,
    ((unregistered_vehicle_is_not_found demoDeps NewBroadcastService 2 2 examplePassword
      ⟨2, AllGrants, [], examplePassword⟩ rfl (by decide) (Or.inl rfl)).1 rfl).2
      [liveService, liveService]⟩

/-! ## Calls that leave the registry as it is -/

theorem sendStart_rejected (deps : Deps) (k : StreamKind) (b : BroadcastService) (v : Int)
    (pw : List UInt8)
    (hfail : ∀ vehicle, deps.GetVehicle v = .found vehicle →
      CheckPassword deps pw vehicle.PasswordHash = false) :
    (sendStart deps k b v pw).1 = b ∧ ∀ ch, (sendStart deps k b v pw).2.pc ≠ .looping ch := by
  cases k with
  | video =>
    simp only [sendStart, SendVideoStream.start]
    cases hv : deps.GetVehicle v with
    | found vehicle =>
      simp only [hfail vehicle hv]
      exact ⟨rfl, fun ch h => by cases h⟩
    | notFound => exact ⟨rfl, fun ch h => by cases h⟩
    | internal => exact ⟨rfl, fun ch h => by cases h⟩
    | decodeError => exact ⟨rfl, fun ch h => by cases h⟩
  | info =>
    simp only [sendStart, SendInfoStream.start]
    cases hv : deps.GetVehicle v with
    | found vehicle =>
      simp only [hfail vehicle hv]
      exact ⟨rfl, fun ch h => by cases h⟩
    | notFound => exact ⟨rfl, fun ch h => by cases h⟩
    | internal => exact ⟨rfl, fun ch h => by cases h⟩
    | decodeError => exact ⟨rfl, fun ch h => by cases h⟩

theorem set_keeps_closed (heap : List Chan) (c : Nat) (chan chan1 : Chan)
    (hc : heap[c]? = some chan) (h1 : chan1.closed = chan.closed) :
    (heap.set c chan1).map Chan.closed = heap.map Chan.closed := by
  apply List.ext_getElem?
  intro i
  simp only [List.getElem?_map, List.getElem?_set]
  by_cases hi : c = i
  · subst hi
    have hlt : c < heap.length := by
      rcases List.getElem?_eq_some_iff.mp hc with ⟨h, _⟩
      exact h
    simp [hlt, hc, h1]
  · simp [hi]

theorem GetVideoStream_step_registry (b : BroadcastService) (p : GetProc) :
    (GetVideoStream.step b p).1.videoStreams = b.videoStreams ∧
    (GetVideoStream.step b p).1.infoStreams = b.infoStreams ∧
    (GetVideoStream.step b p).1.heap.map Chan.closed = b.heap.map Chan.closed := by
  unfold GetVideoStream.step
  split
  · rename_i c _
    split
    · exact ⟨rfl, rfl, rfl⟩
    · rename_i chan hc
      split
      · rename_i d chan1 hr
        refine ⟨rfl, rfl, ?_⟩
        apply set_keeps_closed b.heap c chan chan1 hc
        unfold Chan.recv at hr
        split at hr
        · cases hr
          rfl
        · split at hr <;> cases hr
      · exact ⟨rfl, rfl, rfl⟩
      · exact ⟨rfl, rfl, rfl⟩
      · exact ⟨rfl, rfl, rfl⟩
  · exact ⟨rfl, rfl, rfl⟩

theorem getStep_registry (k : StreamKind) (b : BroadcastService) (p : GetProc) :
    (getStep k b p).1.videoStreams = b.videoStreams ∧
    (getStep k b p).1.infoStreams = b.infoStreams ∧
    (getStep k b p).1.heap.map Chan.closed = b.heap.map Chan.closed := by
  rw [getStep_eq]
  exact GetVideoStream_step_registry b p

/-- Claim C22. When the lookup of the vehicle does not give a record whose stored
hash verifies the presented password (unknown id, store error, wrong password),
`SendVideoStream` and `SendInfoStream` leave the service exactly as it was, both
registries and every channel, and do not reach their loop.  `GetVideoStream` and
`GetInfoStream` never write to the service before their loop, whatever the
credentials, and a turn of their loop from any local state leaves both registries
as they were and closes no channel. -/
theorem failed_attach_leaves_registry (deps : Deps) (b : BroadcastService) :
    (∀ (k : StreamKind) (v : Int) (pw : List UInt8),
      (∀ vehicle, deps.GetVehicle v = .found vehicle →
        CheckPassword deps pw vehicle.PasswordHash = false) →
      (sendStart deps k b v pw).1 = b ∧ ∀ ch, (sendStart deps k b v pw).2.pc ≠ .looping ch) ∧
    (∀ (v did : Int) (pw : List UInt8), (Egress.init deps b v did pw).b = b) ∧
    (∀ (k : StreamKind) (p : GetProc),
      (getStep k b p).1.videoStreams = b.videoStreams ∧
      (getStep k b p).1.infoStreams = b.infoStreams ∧
      (getStep k b p).1.heap.map Chan.closed = b.heap.map Chan.closed) :=
  ⟨fun k v pw hfail => sendStart_rejected deps k b v pw hfail, fun _ _ _ => rfl,
    fun k p => getStep_registry k b p⟩

/-- On the live demo service vehicle 2 presents a wrong password: neither call
reaches its loop and the entries of vehicle 2 are the ones registered before.  A
subscriber's turn takes the queued video frame and leaves both entries in place. -/
theorem failed_attach_leaves_registry_witness :
    (sendStart demoDeps .video liveService 2 wrongPassword).2
      = ⟨.returned, 2, [], [.wrongPassword .ErrBadRequest]⟩ ∧
    (sendStart demoDeps .video liveService 2 wrongPassword).1 = liveService ∧
    (sendStart demoDeps .info liveService 2 wrongPassword).1 = liveService ∧
    liveService.videoStreams 2 = some 0 ∧ liveService.infoStreams 2 = some 1 ∧
    (getStep .video liveService ⟨.ranging 0, [], []⟩).2.stream = [[7]] ∧
    (getStep .video liveService ⟨.ranging 0, [], []⟩).1.videoStreams = liveService.videoStreams :=
  ⟨by decide,
    ((failed_attach_leaves_registry demoDeps liveService).1 .video 2 wrongPassword
      (fun vehicle h => by cases h; decide)).1,
    ((failed_attach_leaves_registry demoDeps liveService).1 .info 2 wrongPassword
      (fun vehicle h => by cases h; decide)).1,
    by decide, by decide, by decide,
    ((failed_attach_leaves_registry demoDeps liveService).2.2 .video ⟨.ranging 0, [], []⟩).1⟩

/-! ## The credential store adapter -/

theorem Redis_GetDispatcher_classified (client : RedisClient) (id : Int) :
    (client.Get (.dispatcher id) = .redisNil →
      Redis.DispatcherRepo.GetDispatcher client id = .notFound) ∧
    (client.Get (.dispatcher id) = .failure →
      Redis.DispatcherRepo.GetDispatcher client id = .internal) ∧
    (∀ data record, client.Get (.dispatcher id) = .bytes data →
      client.decodeDispatcher data = some record →
      Redis.DispatcherRepo.GetDispatcher client id = .found record) := by
  refine ⟨fun h => ?_, fun h => ?_, fun data record h hd => ?_⟩
  · simp only [Redis.DispatcherRepo.GetDispatcher, h]
  · simp only [Redis.DispatcherRepo.GetDispatcher, h]
  · simp only [Redis.DispatcherRepo.GetDispatcher, h, hd]

theorem Redis_GetVehicle_classified (client : RedisClient) (id : Int) :
    (client.Get (.vehicle id) = .redisNil →
      Redis.VehicleRepo.GetVehicle client id = .notFound) ∧
    (client.Get (.vehicle id) = .failure →
      Redis.VehicleRepo.GetVehicle client id = .internal) ∧
    (∀ data record, client.Get (.vehicle id) = .bytes data →
      client.decodeVehicle data = some record →
      Redis.VehicleRepo.GetVehicle client id = .found record) := by
  refine ⟨fun h => ?_, fun h => ?_, fun data record h hd => ?_⟩
  · simp only [Redis.VehicleRepo.GetVehicle, h]
  · simp only [Redis.VehicleRepo.GetVehicle, h]
  · simp only [Redis.VehicleRepo.GetVehicle, h, hd]

/-- Claim C23, on the code: a stored value that does not decode is returned as the
bare error of the gob decoder.  For every id whose key holds bytes that the
decoder rejects, `GetDispatcher` (and likewise `GetVehicle`) returns a nil record
with an error that is neither `repo.ErrInternal` nor the not-found sentinel. -/
theorem undecodable_record_is_unclassified (client : RedisClient) (id : Int) :
    (∀ data, client.Get (.dispatcher id) = .bytes data →
      client.decodeDispatcher data = none →
      Redis.DispatcherRepo.GetDispatcher client id = .decodeError ∧
      (Redis.DispatcherRepo.GetDispatcher client id).isInternal = false ∧
      (Redis.DispatcherRepo.GetDispatcher client id).isNotFound = false ∧
      (Redis.DispatcherRepo.GetDispatcher client id).isFound = false) ∧
    (∀ data, client.Get (.vehicle id) = .bytes data →
      client.decodeVehicle data = none →
      Redis.VehicleRepo.GetVehicle client id = .decodeError ∧
      (Redis.VehicleRepo.GetVehicle client id).isInternal = false ∧
      (Redis.VehicleRepo.GetVehicle client id).isNotFound = false ∧
      (Redis.VehicleRepo.GetVehicle client id).isFound = false) := by
  constructor
  · intro data hd hdd
    have h1 : Redis.DispatcherRepo.GetDispatcher client id = .decodeError := by
      simp only [Redis.DispatcherRepo.GetDispatcher, hd, hdd]
    rw [h1]
    exact ⟨rfl, rfl, rfl, rfl⟩
  · intro data hv hvd
    have h2 : Redis.VehicleRepo.GetVehicle client id = .decodeError := by
      simp only [Redis.VehicleRepo.GetVehicle, hv, hvd]
    rw [h2]
    exact ⟨rfl, rfl, rfl, rfl⟩

/-- In the corrupt store the values of dispatcher 2 and vehicle 2 do not decode:
both lookups return an error that is not `repo.ErrInternal`, while the failed read
of dispatcher 3 is. -/
theorem undecodable_record_is_unclassified_witness :
    corruptClient.Get (.dispatcher 2) = .bytes [0] ∧
    (Redis.DispatcherRepo.GetDispatcher corruptClient 2).isInternal = false ∧
    (Redis.DispatcherRepo.GetDispatcher corruptClient 2).isNotFound = false ∧
    (Redis.VehicleRepo.GetVehicle corruptClient 2).isInternal = false ∧
    (Redis.DispatcherRepo.GetDispatcher corruptClient 3).isInternal = true :=
  ⟨by decide,
    ((undecodable_record_is_unclassified corruptClient 2).1 [0] (by decide) rfl).2.1,
    ((undecodable_record_is_unclassified corruptClient 2).1 [0] (by decide) rfl).2.2.1,
    ((undecodable_record_is_unclassified corruptClient 2).2 [0] (by decide) rfl).2.1,
    by decide⟩

/-! ## The password check -/

/-- Claim C24. Function `CheckPassword` returns for every password and stored
value: `false` when the stored value does not base64-decode, `false` when it
decodes and the bcrypt comparison of the decoded hash with the password fails,
and `true` exactly when it decodes and the comparison succeeds. -/
theorem check_password_true_iff (deps : Deps) (password hash : List UInt8) :
    (deps.base64Decode hash = none → CheckPassword deps password hash = false) ∧
    (∀ decodedHash, deps.base64Decode hash = some decodedHash →
      deps.bcryptCompare decodedHash password = false →
      CheckPassword deps password hash = false) ∧
    (CheckPassword deps password hash = true ↔
      ∃ decodedHash, deps.base64Decode hash = some decodedHash ∧
        deps.bcryptCompare decodedHash password = true) := by
  unfold CheckPassword
  cases h : deps.base64Decode hash with
  | none => simp
  | some decodedHash => simp

/-! ## A lookup error that is no sentinel -/

/-- Claim C28, on the code: a lookup error that is neither not-found nor
`repo.ErrInternal` is not caught.  When the lookup returns the nil record with
such an error (the bare decoder error), each of `GetVideoStream`,
`GetInfoStream`, `SendVideoStream` and `SendInfoStream` goes past its `switch`,
reads `PasswordHash` of the nil record and panics, having sent nothing on the
error channel. -/
theorem unclassified_lookup_error_panics (deps : Deps) (b : BroadcastService) (v did : Int)
    (pw : List UInt8) :
    (deps.GetDispatcher did = .decodeError →
      GetVideoStream.start deps b v did pw = ⟨.panicked, [], []⟩ ∧
      GetInfoStream.start deps b v did pw = ⟨.panicked, [], []⟩) ∧
    (deps.GetVehicle v = .decodeError →
      SendVideoStream.start deps b v pw = (b, ⟨.panicked, v, [], []⟩) ∧
      SendInfoStream.start deps b v pw = (b, ⟨.panicked, v, [], []⟩)) := by
  refine ⟨fun hd => ⟨?_, ?_⟩, fun hv => ⟨?_, ?_⟩⟩
  · simp only [GetVideoStream.start, hd]
  · simp only [GetInfoStream.start, hd]
  · simp only [SendVideoStream.start, hv]
  · simp only [SendInfoStream.start, hv]

/-- The broadcast service runs on the corrupt store, where the values of
dispatcher 2 and vehicle 2 do not decode: all four calls for them panic with an
empty error channel, while the calls for the dispatcher whose read fails and
for a vehicle that does not exist send an error and return. -/
theorem unclassified_lookup_error_panics_witness :
    (GetVideoStream.start (redisDeps demoDeps corruptClient) NewBroadcastService 2 2
      examplePassword) = ⟨.panicked, [], []⟩ ∧
    (GetInfoStream.start (redisDeps demoDeps corruptClient) NewBroadcastService 2 2
      examplePassword) = ⟨.panicked, [], []⟩ ∧
    (SendVideoStream.start (redisDeps demoDeps corruptClient) NewBroadcastService 2
      examplePassword).2 = ⟨.panicked, 2, [], []⟩ ∧
    (SendInfoStream.start (redisDeps demoDeps corruptClient) NewBroadcastService 2
      examplePassword).2 = ⟨.panicked, 2, [], []⟩ ∧
    (GetVideoStream.start (redisDeps demoDeps corruptClient) NewBroadcastService 2 3
      examplePassword) = ⟨.returned, [], [.ErrInternal]⟩ ∧
    (SendVideoStream.start (redisDeps demoDeps corruptClient) NewBroadcastService 7
      examplePassword).2 = ⟨.returned, 7, [], [.ErrVehicleNotFound]⟩ :=
  ⟨((unclassified_lookup_error_panics (redisDeps demoDeps corruptClient) NewBroadcastService
      2 2 examplePassword).1 rfl).1,
    ((unclassified_lookup_error_panics (redisDeps demoDeps corruptClient) NewBroadcastService
      2 2 examplePassword).1 rfl).2,
    congrArg Prod.snd ((unclassified_lookup_error_panics (redisDeps demoDeps corruptClient)
      NewBroadcastService 2 2 examplePassword).2 rfl).1,
    congrArg Prod.snd ((unclassified_lookup_error_panics (redisDeps demoDeps corruptClient)
      NewBroadcastService 2 2 examplePassword).2 rfl).2,
    by decide, by decide⟩

/-! ## Records written by the admin service -/

theorem grantsType_eq_of_beq (x y : GrantsType) (h : (x == y) = true) : x = y := by
  simpa using h

theorem AdminService_addRecord_written (a : AdminService) (d : Dispatcher) :
    (a.addRecord d).written = [d] := by
  unfold AdminService.addRecord
  split <;> rfl

theorem AdminService_editRecord_written (a : AdminService) (d : Dispatcher) :
    (a.editRecord d).written = [d] := by
  unfold AdminService.editRecord
  split <;> rfl

theorem AddDispatcher_written (a : AdminService) (secret : List UInt8)
    (req : AddDispatcherRequest) (d : Dispatcher)
    (hd : d ∈ (a.AddDispatcher secret req).written) :
    (d.GrantsType = AllGrants ∧ d.Grants = []) ∨
    (d.GrantsType = ListGrants ∧ req.GrantsType = ListGrants ∧
      d.Grants = sliceElems req.Grants) := by
  unfold AdminService.AddDispatcher at hd
  split at hd
  · simp at hd
  · split at hd
    · simp at hd
    · rename_i passwordHash _
      split at hd
      · simp at hd
      · by_cases hall : (req.GrantsType == AllGrants) = true
        · simp only [hall, if_true, AdminService_addRecord_written, List.mem_singleton] at hd
          subst hd
          exact Or.inl ⟨rfl, rfl⟩
        · by_cases hlist : (req.GrantsType == ListGrants) = true
          · simp only [hall, hlist, if_true, if_false, Bool.false_eq_true, AdminService_addRecord_written,
              List.mem_singleton] at hd
            subst hd
            exact Or.inr ⟨rfl, grantsType_eq_of_beq _ _ hlist, rfl⟩
          · simp only [hall, hlist, if_false, Bool.false_eq_true] at hd
            simp at hd

theorem EditDispatcher_written (a : AdminService) (secret : List UInt8)
    (req : EditDispatcherRequest) (d : Dispatcher)
    (hd : d ∈ (a.EditDispatcher secret req).written) :
    (d.GrantsType = AllGrants ∧ d.Grants = []) ∨
    (d.GrantsType = ListGrants ∧ req.GrantsType = ListGrants ∧
      ∃ xs, req.Grants = some xs ∧ d.Grants = xs) := by
  unfold AdminService.EditDispatcher at hd
  split at hd
  · simp at hd
  · split at hd
    · simp at hd
    · split at hd
      · simp at hd
      · simp at hd
      · simp at hd
      · rename_i current _
        by_cases hall : (req.GrantsType == AllGrants) = true
        · simp only [hall, if_true, AdminService_editRecord_written, List.mem_singleton] at hd
          have hall1 := grantsType_eq_of_beq _ _ hall
          subst hd
          exact Or.inl ⟨hall1, rfl⟩
        · by_cases hlist : (req.GrantsType == ListGrants && req.Grants.isSome) = true
          · simp only [hall, hlist, if_true, if_false, Bool.false_eq_true, AdminService_editRecord_written,
              List.mem_singleton] at hd
            subst hd
            simp only [Bool.and_eq_true] at hlist
            have hl := grantsType_eq_of_beq _ _ hlist.1
            obtain ⟨xs, hxs⟩ := Option.isSome_iff_exists.mp hlist.2
            exact Or.inr ⟨hl, hl, xs, hxs, by simp [hxs, sliceElems]⟩
          · simp only [hall, hlist, if_false, Bool.false_eq_true] at hd
            simp at hd

/-- Claim C25. Every record that `AdminService.AddDispatcher` or
`AdminService.EditDispatcher` passes to the repository has grants type `all` or
`list`, and when its grants type is `all` its grants are empty, whatever list the
request carried. -/
theorem written_dispatcher_is_normalized (a : AdminService) (secret : List UInt8)
    (add : AddDispatcherRequest) (edit : EditDispatcherRequest) (d : Dispatcher)
    (hd : d ∈ (a.AddDispatcher secret add).written ++ (a.EditDispatcher secret edit).written) :
    (d.GrantsType = AllGrants → d.Grants = []) ∧
    (d.GrantsType = AllGrants ∨ d.GrantsType = ListGrants) := by
  have hne : ListGrants ≠ AllGrants := by decide
  rcases List.mem_append.mp hd with h | h
  · rcases AddDispatcher_written a secret add d h with ⟨h1, h2⟩ | ⟨h1, _, _⟩
    · exact ⟨fun _ => h2, Or.inl h1⟩
    · exact ⟨fun hall => absurd (h1.symm.trans hall) hne, Or.inr h1⟩
  · rcases EditDispatcher_written a secret edit d h with ⟨h1, h2⟩ | ⟨h1, _, _⟩
    · exact ⟨fun _ => h2, Or.inl h1⟩
    · exact ⟨fun hall => absurd (h1.symm.trans hall) hne, Or.inr h1⟩

/-- The demo admin service adds a dispatcher with grants type `all` and the list
`[7, 8]`, and edits dispatcher 4 to grants type `all` with the list `[9]`: the
records written carry no grants. -/
theorem written_dispatcher_is_normalized_witness :
    (demoAdmin.AddDispatcher adminSecret ⟨examplePassword, AllGrants, some [7, 8]⟩).written.map
      Dispatcher.Grants = [[]] ∧
    (demoAdmin.EditDispatcher adminSecret ⟨4, AllGrants, some [9]⟩).written.map
      Dispatcher.Grants = [[]] ∧
    ((⟨0, AllGrants, [], examplePassword⟩ : Dispatcher).GrantsType = AllGrants →
      (⟨0, AllGrants, [], examplePassword⟩ : Dispatcher).Grants = []) :=
  ⟨by decide, by decide,
    (written_dispatcher_is_normalized demoAdmin adminSecret
      ⟨examplePassword, AllGrants, some [7, 8]⟩ ⟨4, AllGrants, some [9]⟩
      ⟨0, AllGrants, [], examplePassword⟩
      (List.mem_append_left _ (List.mem_singleton.mpr rfl))).1⟩

/-! ## A list of grants that is nil -/

/-- Claim C26, on the code: `AddDispatcher` takes grants type `list` with a nil
list.  With the admin secret and a password that hashes, `AddDispatcher` passes
the record with grants type `list` and no grants to the repository, and returns
no error when that write succeeds; `EditDispatcher`, for an existing dispatcher
and the same grants type and nil list, writes nothing and returns
`ErrBadRequest` joined with a message. -/
theorem add_dispatcher_accepts_nil_grants (a : AdminService) (pw : List UInt8) (id : Int) :
    (∀ hash, a.HashPassword pw = some hash →
      (a.AddDispatcher a.secretKey ⟨pw, ListGrants, none⟩).written
        = [⟨0, ListGrants, [], hash⟩] ∧
      ((a.dispatcherRepo.AddDispatcher ⟨0, ListGrants, [], hash⟩).1 = .done →
        (a.AddDispatcher a.secretKey ⟨pw, ListGrants, none⟩).err = none)) ∧
    (∀ current, a.dispatcherRepo.GetDispatcher id = .found current →
      (a.EditDispatcher a.secretKey ⟨id, ListGrants, none⟩).written = [] ∧
      (a.EditDispatcher a.secretKey ⟨id, ListGrants, none⟩).err
        = some (.joined .ErrBadRequest)) := by
  have h1 : (ListGrants == AllGrants) = false := by decide
  have h2 : (ListGrants == ListGrants) = true := by decide
  have h3 : IsGrantsTypeValid ListGrants = true := by decide
  have hs : (a.secretKey != a.secretKey) = false := by simp
  constructor
  · intro hash hh
    have hadd : a.AddDispatcher a.secretKey ⟨pw, ListGrants, none⟩
        = a.addRecord ⟨0, ListGrants, [], hash⟩ := by
      simp only [AdminService.AddDispatcher, hs, hh, h3, h1, h2, sliceElems]
      rfl
    refine ⟨?_, ?_⟩
    · rw [hadd, AdminService_addRecord_written]
    · intro hdone
      rw [hadd]
      unfold AdminService.addRecord
      split
      · rfl
      · rename_i heq
        rw [heq] at hdone
        cases hdone
      · rename_i heq
        rw [heq] at hdone
        cases hdone
  · intro current hfound
    have hedit : a.EditDispatcher a.secretKey ⟨id, ListGrants, none⟩
        = ⟨[], none, some (.joined .ErrBadRequest)⟩ := by
      simp only [AdminService.EditDispatcher, hs, hfound, h3, h1, h2]
      rfl
    rw [hedit]
    exact ⟨rfl, rfl⟩

/-- The demo admin service receives grants type `list` with no list: the add
request is written as a record without grants and returns no error; the edit
request for dispatcher 4 is rejected and writes nothing, while the same edit
with an empty list is accepted. -/
theorem add_dispatcher_accepts_nil_grants_witness :
    (demoAdmin.AddDispatcher adminSecret ⟨examplePassword, ListGrants, none⟩).written.length = 1 ∧
    (demoAdmin.AddDispatcher adminSecret ⟨examplePassword, ListGrants, none⟩).err = none ∧
    (demoAdmin.EditDispatcher adminSecret ⟨4, ListGrants, none⟩).written.length = 0 ∧
    (demoAdmin.EditDispatcher adminSecret ⟨4, ListGrants, none⟩).err
      = some (.joined .ErrBadRequest) ∧
    (demoAdmin.EditDispatcher adminSecret ⟨4, ListGrants, some []⟩).err = none :=
  ⟨by decide,
    ((add_dispatcher_accepts_nil_grants demoAdmin examplePassword 4).1 examplePassword
      rfl).2 rfl,
    by decide,
    ((add_dispatcher_accepts_nil_grants demoAdmin examplePassword 4).2
      ⟨4, ListGrants, [2, 5], examplePassword⟩ rfl).2,
    by decide⟩

/-! ## The two registries are separate -/

theorem BroadcastService_onChan_registry (b b1 : BroadcastService) (ch : Nat)
    (op : Chan → ChanOp Chan) (h : b.onChan ch op = .done b1) :
    b1.videoStreams = b.videoStreams ∧ b1.infoStreams = b.infoStreams := by
  unfold BroadcastService.onChan at h
  split at h
  · cases h
  · split at h
    · cases h
      exact ⟨rfl, rfl⟩
    · cases h
    · cases h

theorem SendVideoStream_start_entries (deps : Deps) (b : BroadcastService) (vid : Int)
    (pw : List UInt8) :
    (SendVideoStream.start deps b vid pw).1.infoStreams = b.infoStreams ∧
    ∀ v, v ≠ vid → (SendVideoStream.start deps b vid pw).1.videoStreams v = b.videoStreams v := by
  unfold SendVideoStream.start
  split
  · exact ⟨rfl, fun _ _ => rfl⟩
  · exact ⟨rfl, fun _ _ => rfl⟩
  · exact ⟨rfl, fun _ _ => rfl⟩
  · split
    · exact ⟨rfl, fun _ _ => rfl⟩
    · simp only [SyncMap.LoadOrStore, BroadcastService.make]
      cases hm : b.videoStreams vid with
      | none => exact ⟨rfl, fun v hv => by simp [SyncMap.Store, hv]⟩
      | some old => exact ⟨rfl, fun v hv => by simp [SyncMap.Store, hv]⟩

theorem SendInfoStream_start_entries (deps : Deps) (b : BroadcastService) (vid : Int)
    (pw : List UInt8) :
    (SendInfoStream.start deps b vid pw).1.videoStreams = b.videoStreams ∧
    ∀ v, v ≠ vid → (SendInfoStream.start deps b vid pw).1.infoStreams v = b.infoStreams v := by
  unfold SendInfoStream.start
  split
  · exact ⟨rfl, fun _ _ => rfl⟩
  · exact ⟨rfl, fun _ _ => rfl⟩
  · exact ⟨rfl, fun _ _ => rfl⟩
  · split
    · exact ⟨rfl, fun _ _ => rfl⟩
    · simp only [SyncMap.LoadOrStore, BroadcastService.make]
      cases hm : b.infoStreams vid with
      | none => exact ⟨rfl, fun v hv => by simp [SyncMap.Store, hv, BroadcastService.setBacking]⟩
      | some old => exact ⟨rfl, fun v hv => by simp [SyncMap.Store, hv, BroadcastService.setBacking]⟩

theorem SendVideoStream_step_entries (b : BroadcastService) (p : SendProc) (ev : Option Frame) :
    (SendVideoStream.step b p ev).1.infoStreams = b.infoStreams ∧
    ∀ v, v ≠ p.vehicleID →
      (SendVideoStream.step b p ev).1.videoStreams v = b.videoStreams v := by
  unfold SendVideoStream.step
  split
  · split
    · split
      · rename_i b1 hb1
        have h := BroadcastService_onChan_registry b b1 _ _ hb1
        exact ⟨h.2, fun v _ => by rw [h.1]⟩
      · exact ⟨rfl, fun _ _ => rfl⟩
      · exact ⟨rfl, fun _ _ => rfl⟩
    · split
      · rename_i b1 hb1
        have h := BroadcastService_onChan_registry b b1 _ _ hb1
        exact ⟨h.2, fun v hv => by simp [SyncMap.Delete, hv, h.1]⟩
      · exact ⟨rfl, fun _ _ => rfl⟩
      · exact ⟨rfl, fun _ _ => rfl⟩
  · exact ⟨rfl, fun _ _ => rfl⟩

theorem SendInfoStream_deferred_entries (b : BroadcastService) (p : SendProc) (ch : Nat) :
    (SendInfoStream.deferred b p ch).1.videoStreams = b.videoStreams ∧
    ∀ v, v ≠ p.vehicleID →
      (SendInfoStream.deferred b p ch).1.infoStreams v = b.infoStreams v := by
  unfold SendInfoStream.deferred
  dsimp only
  split
  · rename_i b2 hb2
    have h := BroadcastService_onChan_registry _ b2 _ _ hb2
    exact ⟨h.1, fun v hv => by rw [h.2]; simp [SyncMap.Delete, hv]⟩
  · exact ⟨rfl, fun v hv => by simp [SyncMap.Delete, hv]⟩
  · exact ⟨rfl, fun v hv => by simp [SyncMap.Delete, hv]⟩

theorem BroadcastService_appendBuffer_registry (deps : Deps) (b : BroadcastService) (ch : Nat)
    (buffer : List UInt8) :
    (b.appendBuffer deps ch buffer).videoStreams = b.videoStreams ∧
    (b.appendBuffer deps ch buffer).infoStreams = b.infoStreams := by
  unfold BroadcastService.appendBuffer
  split
  · split <;> exact ⟨rfl, rfl⟩
  · exact ⟨rfl, rfl⟩

theorem BroadcastService_sendBuffer_registry (b b1 : BroadcastService) (ch : Nat)
    (buffer : List UInt8) (h : b.sendBuffer ch buffer = .done b1) :
    b1.videoStreams = b.videoStreams ∧ b1.infoStreams = b.infoStreams := by
  unfold BroadcastService.sendBuffer at h
  split at h
  · rename_i b2 hb2
    cases h
    exact BroadcastService_onChan_registry b b2 _ _ hb2
  · cases h
  · cases h

theorem SendInfoStream_step_entries (deps : Deps) (b : BroadcastService) (p : SendProc)
    (ev : Option Frame) :
    (SendInfoStream.step deps b p ev).1.videoStreams = b.videoStreams ∧
    ∀ v, v ≠ p.vehicleID →
      (SendInfoStream.step deps b p ev).1.infoStreams v = b.infoStreams v := by
  unfold SendInfoStream.step
  split
  · rename_i ch _
    split
    · exact SendInfoStream_deferred_entries b p ch
    · rename_i d
      dsimp only
      have h0 := BroadcastService_appendBuffer_registry deps b ch (p.buffer ++ d)
      have hsent : ∀ b1, (if deps.jsonUnmarshalOk (p.buffer ++ d) = true
            then (b.appendBuffer deps ch (p.buffer ++ d)).sendBuffer ch (p.buffer ++ d)
            else ChanOp.done (b.appendBuffer deps ch (p.buffer ++ d))) = .done b1 →
          b1.videoStreams = b.videoStreams ∧ b1.infoStreams = b.infoStreams := by
        intro b1 h
        split at h
        · have h1 := BroadcastService_sendBuffer_registry _ b1 _ _ h
          exact ⟨h1.1.trans h0.1, h1.2.trans h0.2⟩
        · cases h
          exact h0
      split
      · exact ⟨h0.1, fun v _ => by rw [h0.2]⟩
      · exact ⟨h0.1, fun v _ => by rw [h0.2]⟩
      · rename_i b1 hb1
        have h := hsent b1 hb1
        split
        · have hdef := SendInfoStream_deferred_entries b1
            { p with buffer := p.buffer ++ d, errChan := p.errChan ++ [.ErrBadRequest] } ch
          exact ⟨hdef.1.trans h.1, fun v hv => (hdef.2 v hv).trans (by rw [h.2])⟩
        · exact ⟨h.1, fun v _ => by rw [h.2]⟩
  · exact ⟨rfl, fun _ _ => rfl⟩

theorem Call_apply_entry (deps : Deps) (b : BroadcastService) (c : Call) (k : StreamKind)
    (v : Int) (h : c.target ≠ some (k, v)) :
    (c.apply deps b).streams k v = b.streams k v := by
  cases c with
  | sendStart k0 vid pw =>
    cases k0 with
    | video =>
      have hs := SendVideoStream_start_entries deps b vid pw
      cases k with
      | video =>
        have hv : v ≠ vid := fun e => h (by rw [e]; rfl)
        exact hs.2 v hv
      | info => exact congrFun hs.1 v
    | info =>
      have hs := SendInfoStream_start_entries deps b vid pw
      cases k with
      | video => exact congrFun hs.1 v
      | info =>
        have hv : v ≠ vid := fun e => h (by rw [e]; rfl)
        exact hs.2 v hv
  | sendStep k0 p ev =>
    cases k0 with
    | video =>
      have hs := SendVideoStream_step_entries b p ev
      cases k with
      | video =>
        have hv : v ≠ p.vehicleID := fun e => h (by rw [e]; rfl)
        exact hs.2 v hv
      | info => exact congrFun hs.1 v
    | info =>
      have hs := SendInfoStream_step_entries deps b p ev
      cases k with
      | video => exact congrFun hs.1 v
      | info =>
        have hv : v ≠ p.vehicleID := fun e => h (by rw [e]; rfl)
        exact hs.2 v hv
  | getStep k0 p =>
    have hs := getStep_registry k0 b p
    cases k with
    | video => exact congrFun hs.1 v
    | info => exact congrFun hs.2.1 v

/-- Claim C27 as stated fails: on a fresh service vehicle 2 publishes its info
stream, and before its video stream is published the info registry has an entry
for vehicle 2 and the video registry has none.  Likewise after both were
published and the video producer ended. -/
theorem info_entry_without_video_entry :
    (runCalls demoDeps NewBroadcastService
      [.sendStart .info 2 examplePassword]).infoStreams 2 = some 0 ∧
    (runCalls demoDeps NewBroadcastService
      [.sendStart .info 2 examplePassword]).videoStreams 2 = none ∧
    (runCalls demoDeps NewBroadcastService
      [.sendStart .info 2 examplePassword, .sendStart .video 2 examplePassword]).videoStreams 2
        = some 1 ∧
    (runCalls demoDeps NewBroadcastService
      [.sendStart .info 2 examplePassword, .sendStart .video 2 examplePassword,
       .sendStep .video ⟨.looping 1, 2, [], []⟩ none]).infoStreams 2 = some 0 ∧
    (runCalls demoDeps NewBroadcastService
      [.sendStart .info 2 examplePassword, .sendStart .video 2 examplePassword,
       .sendStep .video ⟨.looping 1, 2, [], []⟩ none]).videoStreams 2 = none := by
  decide

/-- Claim C27, amended. The video and the info registry are kept separately: under
any interleaving of publish, producer and subscriber steps, the entry of a
vehicle in the registry of one kind is changed only by the steps of a
`SendVideoStream` / `SendInfoStream` call of that kind for that vehicle.  Steps of
the other kind, for other vehicles, and of `GetVideoStream` / `GetInfoStream`
leave it as it was. -/
theorem registry_entry_changes_only_by_its_producer (deps : Deps) (b : BroadcastService)
    (calls : List Call) (k : StreamKind) (v : Int)
    (h : ∀ c ∈ calls, c.target ≠ some (k, v)) :
    (runCalls deps b calls).streams k v = b.streams k v := by
  induction calls generalizing b with
  | nil => rfl
  | cons c cs ih =>
    show (runCalls deps (c.apply deps b) cs).streams k v = b.streams k v
    rw [ih (c.apply deps b) (fun x hx => h x (List.mem_cons_of_mem _ hx))]
    exact Call_apply_entry deps b c k v (h c (List.mem_cons_self _ _))

/-- On a fresh service vehicle 2 publishes its info stream, takes a turn of it, and
a subscriber takes a turn: the video entry of vehicle 2 is still absent, while the
info entry is present. -/
theorem registry_entry_changes_only_by_its_producer_witness :
    (runCalls demoDeps NewBroadcastService
      [.sendStart .info 2 examplePassword, .sendStep .info ⟨.looping 0, 2, [], []⟩
        (some emptyObject), .getStep .info ⟨.ranging 0, [], []⟩]).streams .video 2
      = NewBroadcastService.streams .video 2 ∧
    NewBroadcastService.streams .video 2 = none ∧
    (runCalls demoDeps NewBroadcastService
      [.sendStart .info 2 examplePassword, .sendStep .info ⟨.looping 0, 2, [], []⟩
        (some emptyObject), .getStep .info ⟨.ranging 0, [], []⟩]).streams .info 2 = some 0 :=
  ⟨registry_entry_changes_only_by_its_producer demoDeps NewBroadcastService
      [.sendStart .info 2 examplePassword, .sendStep .info ⟨.looping 0, 2, [], []⟩
        (some emptyObject), .getStep .info ⟨.ranging 0, [], []⟩] .video 2
      (by simp [Call.target]),
    rfl, by decide⟩

end Relay
